import Mathlib

/-! # lingebra: fixed-size tensors, vectors, matrices and quaternions

A shallow embedding of the `dk::math` headers (`tensor.hpp`, `vector.hpp`,
`vector2d.hpp`, `vector3d.hpp`, `vector4d.hpp`, `matrix.hpp`, `matrix2d.hpp`,
`matrix3d.hpp`, `matrix4d.hpp`, `angle.hpp`, `quaternion.hpp`) together with
theorems about them.

Conventions of the embedding.

* The element type `T` of the C++ templates is a Lean type carrying exactly the
  operations a function uses (`Add`, `Mul`, `Div`, ...).  Theorems that need
  algebraic laws ask for a ring or a field; theorems about `float` code that are
  meant "in exact arithmetic" are stated over such a field, or over `ℝ`.
  Conversions between `float` and `double` are the identity in this reading.
* Where a property depends on the machine arithmetic of the element type, the
  element type is a model of it: `unsigned_int` and `signed_int` (32 bits,
  arithmetic modulo `2 ^ 32`) and `float` (binary32 with rounding to nearest,
  infinities and NaN).
* `std::array<T, N>` is a function `Fin N → T`.
* A member function that mutates `*this` and may throw returns an `Outcome`:
  the state of the object afterwards together with the exception message,
  if one was thrown.  A `const` member function that may throw returns
  `Except String _`.  The message is the argument of `std::runtime_error`.
* `std::sqrt`, `std::cos`, `std::sin` and `std::numbers::pi` are fields of a
  `CMath` record passed to the functions that call them.
* A default-initialized tensor holds indeterminate values.  A function that
  starts from one takes what it holds as the parameter `indeterminate`; `{}`
  (value-initialization) is the tensor filled with `T {}`, that is with `0`.
* A function that may call itself without bound takes a `fuel` argument and
  returns `none` when the fuel is used up.
-/

namespace Lingebra

/-! ## Shared vocabulary -/

/-- Result of a mutating member function: either it returned normally, leaving
the object in `state`, or it threw `std::runtime_error(msg)` with the object in
`state` at the moment of the throw. -/
inductive Outcome (σ : Type) where
  | returned (state : σ) : Outcome σ
  | threw (msg : String) (state : σ) : Outcome σ

instance {σ : Type} [DecidableEq σ] : DecidableEq (Outcome σ)
  | .returned a, .returned b => decidable_of_iff (a = b) (by simp)
  | .threw m a, .threw n b => decidable_of_iff (m = n ∧ a = b) (by simp)
  | .returned _, .threw _ _ => isFalse (by simp)
  | .threw _ _, .returned _ => isFalse (by simp)

/-- State of the object after the call, whether it returned or threw. -/
def Outcome.state {σ : Type} : Outcome σ → σ
  | .returned s => s
  | .threw _ s => s

/-- The exception message, when the call threw. -/
def Outcome.thrown {σ : Type} : Outcome σ → Option String
  | .returned _ => none
  | .threw msg _ => some msg

/-- Value semantics of `copy.f(); return copy;`: the copy is returned when `f`
returns, and the exception propagates otherwise. -/
def Outcome.toExcept {σ : Type} : Outcome σ → Except String σ
  | .returned s => .ok s
  | .threw msg _ => .error msg

/-- The `<cmath>` functions and the `<numbers>` constant used by the library. -/
structure CMath (K : Type) where
  sqrt : K → K
  cos : K → K
  sin : K → K
  pi : K

/-! ## tensor.hpp -/

/-- The fold expression `(... * Dims)`: a unary left fold of the dimension pack
(`((D1 * D2) * D3)`); the empty pack folds to `1`. -/
def dimsProduct : List Nat → Nat
  | [] => 1
  | d :: ds => ds.foldl (fun acc x => acc * x) d

/-- `template <Numeric T, std::size_t... Dims> class Tensor` with its only data
member `storage_type elems_`, a `std::array<T, (... * Dims)>`. -/
structure Tensor (T : Type) (Dims : List Nat) where
  elems_ : Fin (dimsProduct Dims) → T

namespace Tensor

variable {T : Type} {Dims : List Nat}

/-- `operator==` on the storage, `lhs.elems_ == rhs.elems_`, decides equality:
the two arrays are compared element by element. -/
instance [DecidableEq T] : DecidableEq (Tensor T Dims) := fun a b =>
  decidable_of_iff
    ((List.finRange (dimsProduct Dims)).all (fun i => decide (a.elems_ i = b.elems_ i)) = true)
    ⟨fun h => by
      cases a; cases b; congr; funext i
      simpa using (List.all_eq_true.mp h) i (List.mem_finRange i),
     fun h => by subst h; simp⟩

/-- `constexpr Tensor(T value) { elems_.fill(value); }` -/
def fill (value : T) : Tensor T Dims := ⟨fun _ => value⟩

/-- `constexpr Tensor(std::array<T, (... * Dims)> elems)` -/
def of_array (elems : Fin (dimsProduct Dims) → T) : Tensor T Dims := ⟨elems⟩

/-- `size()`: `elems_.size()`. -/
def size (_t : Tensor T Dims) : Nat := dimsProduct Dims

/-- Unchecked `operator[](idx) const`: `elems_[idx]`.  An index outside the array
is undefined behaviour in the source, so the accessor takes evidence that the
index is inside. -/
def get (t : Tensor T Dims) (idx : Nat) (h : idx < dimsProduct Dims) : T :=
  t.elems_ ⟨idx, h⟩

/-- Assignment through the reference returned by the unchecked
`T &operator[](idx)`: `t[idx] = value`. -/
def set (t : Tensor T Dims) (idx : Nat) (_h : idx < dimsProduct Dims) (value : T) :
    Tensor T Dims :=
  ⟨fun j => if j.val = idx then value else t.elems_ j⟩

/-- Checked read `T at(std::size_t idx) const`. -/
def «at» (t : Tensor T Dims) (idx : Nat) : Except String T :=
  if h : idx ≥ t.size then
    .error "index out of bounds"
  else
    .ok (t.elems_ ⟨idx, Nat.lt_of_not_ge h⟩)

/-- Assignment through the reference returned by the checked
`T &at(std::size_t idx)`: `t.at(idx) = value`. -/
def at_assign (t : Tensor T Dims) (idx : Nat) (value : T) : Outcome (Tensor T Dims) :=
  if h : idx ≥ t.size then
    .threw "index out of bounds" t
  else
    .returned (t.set idx (Nat.lt_of_not_ge h) value)

/-- `std::any_of(t.elems_.cbegin(), t.elems_.cend(), pred)`. -/
def any_of (t : Tensor T Dims) (pred : T → Bool) : Bool :=
  (List.finRange (dimsProduct Dims)).any (fun i => pred (t.elems_ i))

end Tensor

/-! ## vector.hpp -/

/-- `template <Numeric T, std::size_t Dims> class Vector : public Tensor<T, Dims>`;
the class adds no data member. -/
abbrev Vector (T : Type) (Dims : Nat) := Tensor T [Dims]

namespace Vector

variable {T : Type} {Dims : Nat}

/-- `magnitude_squared()`: `double result = 0;` then, for every element `v` in
storage order, `result += static_cast<double>(v * v)`. -/
def magnitude_squared [Zero T] [Add T] [Mul T] (self : Vector T Dims) : T :=
  (List.finRange Dims).foldl (fun result i => result + self.elems_ i * self.elems_ i) 0

/-- `magnitude()`: `std::sqrt(magnitude_squared())`. -/
def magnitude [Zero T] [Add T] [Mul T] (m : CMath T) (self : Vector T Dims) : T :=
  m.sqrt (magnitude_squared self)

/-- `norm()`: `magnitude()`. -/
def norm [Zero T] [Add T] [Mul T] (m : CMath T) (self : Vector T Dims) : T :=
  magnitude m self

/-- `dot(other)`: `std::inner_product(self.begin(), self.end(), other.begin(), T {})`,
that is `acc = acc + a[i] * b[i]` from `acc = T {}` in storage order. -/
def dot [Zero T] [Add T] [Mul T] (self other : Vector T Dims) : T :=
  (List.finRange Dims).foldl (fun acc i => acc + self.elems_ i * other.elems_ i) 0

/-- `Vector::normalize` at `Self = Vector<T, Dims>` (floating-point `T`):
`return self *= T { 1 } / self.norm();`.  The function is `noexcept` and has no
`throw`; it always returns.  `Vector::operator*=(T1) noexcept` of the generic
class is declared in vector.hpp and defined nowhere; it is the parameter
`mul_assign_scalar`. -/
def normalize [Zero T] [One T] [Add T] [Mul T] [Div T] (m : CMath T)
    (mul_assign_scalar : Vector T Dims → T → Vector T Dims) (self : Vector T Dims) :
    Outcome (Vector T Dims) :=
  .returned (mul_assign_scalar self (1 / norm m self))

/-- `Vector::normalized` at `Self = Vector<T, Dims>`: `self` is taken by value
and `self.normalize()` is returned. -/
def normalized [Zero T] [One T] [Add T] [Mul T] [Div T] (m : CMath T)
    (mul_assign_scalar : Vector T Dims → T → Vector T Dims) (self : Vector T Dims) :
    Except String (Vector T Dims) :=
  (normalize m mul_assign_scalar self).toExcept

end Vector

/-! ## vector2d.hpp -/

/-- `template <Numeric T> class Vector2 : public Vector<T, 2>`. -/
abbrev Vector2 (T : Type) := Vector T 2

namespace Vector2

variable {T : Type}

/-- `Vector2(T x, T y) : Base({ x, y })`. -/
def mk (x y : T) : Vector2 T :=
  ⟨fun i => if i.val = 0 then x else y⟩

/-- `get_x()`: `(*this)[0]`. -/
def get_x (self : Vector2 T) : T := Tensor.get self 0 (by decide)
/-- `get_y()`: `(*this)[1]`. -/
def get_y (self : Vector2 T) : T := Tensor.get self 1 (by decide)

/-- `Vector2 &operator/=(const Vector2 &other)`. -/
def div_assign [Zero T] [Div T] [DecidableEq T] (self other : Vector2 T) :
    Outcome (Vector2 T) :=
  if get_x other = 0 ∨ get_y other = 0 then
    .threw "Division by zero" self
  else
    let self := Tensor.set self 0 (by decide) (Tensor.get self 0 (by decide) / get_x other)
    let self := Tensor.set self 1 (by decide) (Tensor.get self 1 (by decide) / get_y other)
    .returned self

/-- `Vector2 &operator*=(T1 value) noexcept`. -/
def mul_assign_scalar [Mul T] (self : Vector2 T) (value : T) : Vector2 T :=
  let self := Tensor.set self 0 (by decide) (Tensor.get self 0 (by decide) * value)
  let self := Tensor.set self 1 (by decide) (Tensor.get self 1 (by decide) * value)
  self

/-- `Vector2 &operator/=(T1 value)`; after the zero check the body reads
`(*this)[0] *= value; (*this)[1] *= value;`. -/
def div_assign_scalar [Zero T] [Mul T] [DecidableEq T] (self : Vector2 T) (value : T) :
    Outcome (Vector2 T) :=
  if value = 0 then
    .threw "Division by zero" self
  else
    let self := Tensor.set self 0 (by decide) (Tensor.get self 0 (by decide) * value)
    let self := Tensor.set self 1 (by decide) (Tensor.get self 1 (by decide) * value)
    .returned self

/-- `Vector::normalize` at `Self = Vector2` (floating-point `T`):
`return self *= T { 1 } / self.norm();`.  The function is `noexcept` and has no
`throw`; it always returns. -/
def normalize [Zero T] [One T] [Add T] [Mul T] [Div T] (m : CMath T) (self : Vector2 T) :
    Outcome (Vector2 T) :=
  .returned (mul_assign_scalar self (1 / Vector.norm m self))

/-- `Vector::normalized` at `Self = Vector2`: `self` is taken by value and
`self.normalize()` is returned. -/
def normalized [Zero T] [One T] [Add T] [Mul T] [Div T] (m : CMath T) (self : Vector2 T) :
    Except String (Vector2 T) :=
  (normalize m self).toExcept

end Vector2

/-! ## vector3d.hpp -/

/-- `template <Numeric T> class Vector3 : public Vector<T, 3>`. -/
abbrev Vector3 (T : Type) := Vector T 3

namespace Vector3

variable {T : Type}

/-- `Vector3(T x, T y, T z) : Base({ x, y, z })`. -/
def mk (x y z : T) : Vector3 T :=
  ⟨fun i => if i.val = 0 then x else if i.val = 1 then y else z⟩

/-- `zero()`: `{ 0 }`, the broadcast constructor. -/
def zero [Zero T] : Vector3 T := Tensor.fill 0

/-- `x_axis()`: `{ 1.0f, 0.0f, 0.0f }`. -/
def x_axis [Zero T] [One T] : Vector3 T := mk 1 0 0
/-- `y_axis()`: `{ 0.0f, 1.0f, 0.0f }`. -/
def y_axis [Zero T] [One T] : Vector3 T := mk 0 1 0
/-- `z_axis()`: `{ 0.0f, 0.0f, 1.0f }`. -/
def z_axis [Zero T] [One T] : Vector3 T := mk 0 0 1

/-- `get_x()`: `(*this)[0]`. -/
def get_x (self : Vector3 T) : T := Tensor.get self 0 (by decide)
/-- `get_y()`: `(*this)[1]`. -/
def get_y (self : Vector3 T) : T := Tensor.get self 1 (by decide)
/-- `get_z()`: `(*this)[2]`. -/
def get_z (self : Vector3 T) : T := Tensor.get self 2 (by decide)

/-- `Vector3 operator-() const`: `{ -get_x(), -get_y(), -get_z() }`. -/
def neg [Neg T] (self : Vector3 T) : Vector3 T :=
  mk (-get_x self) (-get_y self) (-get_z self)

/-- `Vector3 &operator+=(const Vector3 &other) noexcept`. -/
def add_assign [Add T] (self other : Vector3 T) : Vector3 T :=
  let self := Tensor.set self 0 (by decide) (Tensor.get self 0 (by decide) + get_x other)
  let self := Tensor.set self 1 (by decide) (Tensor.get self 1 (by decide) + get_y other)
  let self := Tensor.set self 2 (by decide) (Tensor.get self 2 (by decide) + get_z other)
  self

/-- `Vector3 &operator-=(const Vector3 &other) noexcept`. -/
def sub_assign [Sub T] (self other : Vector3 T) : Vector3 T :=
  let self := Tensor.set self 0 (by decide) (Tensor.get self 0 (by decide) - get_x other)
  let self := Tensor.set self 1 (by decide) (Tensor.get self 1 (by decide) - get_y other)
  let self := Tensor.set self 2 (by decide) (Tensor.get self 2 (by decide) - get_z other)
  self

/-- `Vector3 &operator/=(const Vector3 &other)`. -/
def div_assign [Zero T] [Div T] [DecidableEq T] (self other : Vector3 T) :
    Outcome (Vector3 T) :=
  if Tensor.any_of other (fun v => decide (v = 0)) then
    .threw "Division by zero" self
  else
    let self := Tensor.set self 0 (by decide) (Tensor.get self 0 (by decide) / get_x other)
    let self := Tensor.set self 1 (by decide) (Tensor.get self 1 (by decide) / get_y other)
    let self := Tensor.set self 2 (by decide) (Tensor.get self 2 (by decide) / get_z other)
    .returned self

/-- `Vector3 &operator*=(T1 value) noexcept`. -/
def mul_assign_scalar [Mul T] (self : Vector3 T) (value : T) : Vector3 T :=
  let self := Tensor.set self 0 (by decide) (Tensor.get self 0 (by decide) * value)
  let self := Tensor.set self 1 (by decide) (Tensor.get self 1 (by decide) * value)
  let self := Tensor.set self 2 (by decide) (Tensor.get self 2 (by decide) * value)
  self

/-- `Vector3 &operator/=(T1 value)`. -/
def div_assign_scalar [Zero T] [Div T] [DecidableEq T] (self : Vector3 T) (value : T) :
    Outcome (Vector3 T) :=
  if value = 0 then
    .threw "Division by zero" self
  else
    let self := Tensor.set self 0 (by decide) (Tensor.get self 0 (by decide) / value)
    let self := Tensor.set self 1 (by decide) (Tensor.get self 1 (by decide) / value)
    let self := Tensor.set self 2 (by decide) (Tensor.get self 2 (by decide) / value)
    .returned self

/-- Free `operator+(const T &lhs, const T &rhs)` of tensor.hpp at `Vector3`:
`T { lhs } += rhs`. -/
def add [Add T] (lhs rhs : Vector3 T) : Vector3 T := add_assign lhs rhs

/-- Free `operator*(const T &other, F value)` of tensor.hpp at `Vector3`:
`T { other } *= value`. -/
def mul_scalar [Mul T] (other : Vector3 T) (value : T) : Vector3 T :=
  mul_assign_scalar other value

/-- Free `operator*(F value, const T &other)` of tensor.hpp at `Vector3`:
`T { other } *= value`. -/
def scalar_mul [Mul T] (value : T) (other : Vector3 T) : Vector3 T :=
  mul_assign_scalar other value

/-- `cross(other)`: the three components, then `res + Vector3::zero()`. -/
def cross [Zero T] [Add T] [Sub T] [Mul T] (self other : Vector3 T) : Vector3 T :=
  let res := mk
    (get_y self * get_z other - get_z self * get_y other)
    (get_z self * get_x other - get_x self * get_z other)
    (get_x self * get_y other - get_y self * get_x other)
  add res zero

/-- `Vector::normalize` at `Self = Vector3` (floating-point `T`):
`return self *= T { 1 } / self.norm();`.  The function is `noexcept` and has no
`throw`; it always returns. -/
def normalize [Zero T] [One T] [Add T] [Mul T] [Div T] (m : CMath T) (self : Vector3 T) :
    Outcome (Vector3 T) :=
  .returned (mul_assign_scalar self (1 / Vector.norm m self))

/-- `Vector::normalized` at `Self = Vector3`: `self` is taken by value and
`self.normalize()` is returned. -/
def normalized [Zero T] [One T] [Add T] [Mul T] [Div T] (m : CMath T) (self : Vector3 T) :
    Except String (Vector3 T) :=
  (normalize m self).toExcept

end Vector3

/-! ## vector4d.hpp -/

/-- `template <Numeric T> class Vector4 : public Vector<T, 4>`. -/
abbrev Vector4 (T : Type) := Vector T 4

namespace Vector4

variable {T : Type}

/-- `Vector4(T x, T y, T z, T w) : Base({ x, y, z, w })`. -/
def mk (x y z w : T) : Vector4 T :=
  ⟨fun i => if i.val = 0 then x else if i.val = 1 then y else if i.val = 2 then z else w⟩

/-- `get_x()`: `(*this)[0]`. -/
def get_x (self : Vector4 T) : T := Tensor.get self 0 (by decide)
/-- `get_y()`: `(*this)[1]`. -/
def get_y (self : Vector4 T) : T := Tensor.get self 1 (by decide)
/-- `get_z()`: `(*this)[2]`. -/
def get_z (self : Vector4 T) : T := Tensor.get self 2 (by decide)
/-- `get_w()`: `(*this)[3]`. -/
def get_w (self : Vector4 T) : T := Tensor.get self 3 (by decide)

/-- `Vector4 &operator/=(const Vector4 &other)`. -/
def div_assign [Zero T] [Div T] [DecidableEq T] (self other : Vector4 T) :
    Outcome (Vector4 T) :=
  if Tensor.any_of other (fun v => decide (v = 0)) then
    .threw "Division by zero" self
  else
    let self := Tensor.set self 0 (by decide) (Tensor.get self 0 (by decide) / get_x other)
    let self := Tensor.set self 1 (by decide) (Tensor.get self 1 (by decide) / get_y other)
    let self := Tensor.set self 2 (by decide) (Tensor.get self 2 (by decide) / get_z other)
    let self := Tensor.set self 3 (by decide) (Tensor.get self 3 (by decide) / get_w other)
    .returned self

/-- `Vector4 &operator*=(T1 value) noexcept`. -/
def mul_assign_scalar [Mul T] (self : Vector4 T) (value : T) : Vector4 T :=
  let self := Tensor.set self 0 (by decide) (Tensor.get self 0 (by decide) * value)
  let self := Tensor.set self 1 (by decide) (Tensor.get self 1 (by decide) * value)
  let self := Tensor.set self 2 (by decide) (Tensor.get self 2 (by decide) * value)
  let self := Tensor.set self 3 (by decide) (Tensor.get self 3 (by decide) * value)
  self

/-- `Vector4 &operator/=(T1 value)`. -/
def div_assign_scalar [Zero T] [Div T] [DecidableEq T] (self : Vector4 T) (value : T) :
    Outcome (Vector4 T) :=
  if value = 0 then
    .threw "Division by zero" self
  else
    let self := Tensor.set self 0 (by decide) (Tensor.get self 0 (by decide) / value)
    let self := Tensor.set self 1 (by decide) (Tensor.get self 1 (by decide) / value)
    let self := Tensor.set self 2 (by decide) (Tensor.get self 2 (by decide) / value)
    let self := Tensor.set self 3 (by decide) (Tensor.get self 3 (by decide) / value)
    .returned self

/-- `Vector::normalize` at `Self = Vector4` (floating-point `T`):
`return self *= T { 1 } / self.norm();`.  The function is `noexcept` and has no
`throw`; it always returns. -/
def normalize [Zero T] [One T] [Add T] [Mul T] [Div T] (m : CMath T) (self : Vector4 T) :
    Outcome (Vector4 T) :=
  .returned (mul_assign_scalar self (1 / Vector.norm m self))

/-- `Vector::normalized` at `Self = Vector4`: `self` is taken by value and
`self.normalize()` is returned. -/
def normalized [Zero T] [One T] [Add T] [Mul T] [Div T] (m : CMath T) (self : Vector4 T) :
    Except String (Vector4 T) :=
  (normalize m self).toExcept

end Vector4

/-! ## matrix.hpp -/

/-- Number of values of `std::size_t` (64 bits): index arithmetic is taken
modulo this number. -/
def size_t_range : Nat := 2 ^ 64

/-- `template <Numeric T, std::size_t Rows, std::size_t Cols> class Matrix :
public Tensor<T, Rows, Cols>`; the class adds no data member. -/
abbrev Matrix (T : Type) (Rows Cols : Nat) := Tensor T [Rows, Cols]

namespace Matrix

variable {T : Type} {Rows Cols : Nat}

/-- A row index below `Rows` and a column index below `Cols` give an offset
inside the storage. -/
theorem offset_lt {R C x y : Nat} (hx : x < R) (hy : y < C) : x * C + y < R * C := by
  calc x * C + y < x * C + C := Nat.add_lt_add_left hy _
    _ = (x + 1) * C := (Nat.succ_mul x C).symm
    _ ≤ R * C := Nat.mul_le_mul_right C hx

/-- `rows()`. -/
def rows (_m : Matrix T Rows Cols) : Nat := Rows
/-- `cols()`. -/
def cols (_m : Matrix T Rows Cols) : Nat := Cols

/-- The expression `x * cols() + y` as the `std::size_t` it evaluates to. -/
def offset (Cols x y : Nat) : Nat := (x * Cols + y) % size_t_range

/-- Unchecked `operator[](x, y) const`: `elems_[x * cols() + y]`.  An offset
outside the array is undefined behaviour in the source, so the accessor takes
evidence that `x * cols() + y` is inside (no wrap-around can occur then, the
extent of a `std::array` being a `std::size_t`). -/
def get2 (m : Matrix T Rows Cols) (x y : Nat) (h : x * Cols + y < Rows * Cols) : T :=
  m.elems_ ⟨x * Cols + y, h⟩

/-- Assignment through the reference returned by the unchecked
`T &operator[](x, y)`. -/
def set2 (m : Matrix T Rows Cols) (x y : Nat) (h : x * Cols + y < Rows * Cols) (value : T) :
    Matrix T Rows Cols :=
  Tensor.set m (x * Cols + y) h value

/-- Checked read `T at(std::size_t x, std::size_t y) const`. -/
def at2 (m : Matrix T Rows Cols) (x y : Nat) : Except String T :=
  let offset := offset Cols x y
  if h : offset ≥ Tensor.size m then
    .error "index is out of bounds"
  else
    .ok (m.elems_ ⟨offset, Nat.lt_of_not_ge h⟩)

/-- Free `operator*(const Matrix<T, Rows1, Cols1> &lhs, const Matrix<T, Rows2, Cols2> &rhs)`
with `Cols1 == Rows2`: `result_matrix { 0 }`, then the three nested `for` loops
over `i < lhs.rows()`, `j < rhs.cols()`, `k < rhs.rows()` running
`result_matrix[i, j] += lhs[i, k] * rhs[k, j]`. -/
def mul [Zero T] [Add T] [Mul T] {Rows1 Cols1 Cols2 : Nat}
    (lhs : Matrix T Rows1 Cols1) (rhs : Matrix T Cols1 Cols2) : Matrix T Rows1 Cols2 :=
  (List.finRange Rows1).foldl (fun result_matrix (i : Fin Rows1) =>
    (List.finRange Cols2).foldl (fun result_matrix (j : Fin Cols2) =>
      (List.finRange Cols1).foldl (fun result_matrix (k : Fin Cols1) =>
        set2 result_matrix i j (offset_lt i.isLt j.isLt)
          (get2 result_matrix i j (offset_lt i.isLt j.isLt)
            + get2 lhs i k (offset_lt i.isLt k.isLt) * get2 rhs k j (offset_lt k.isLt j.isLt)))
        result_matrix)
      result_matrix)
    (Tensor.fill 0)

end Matrix

/-! ## angle.hpp -/

/-- `class Angle` with its data member `double radians_`. -/
structure Angle (K : Type) where
  radians_ : K

namespace Degrees

variable {K : Type} [Field K]

/-- `radian_coversion_coef = std::numbers::pi / 180.0`. -/
def radian_coversion_coef (m : CMath K) : K := m.pi / 180

/-- `Degrees::to_radians(degrees)`. -/
def to_radians (m : CMath K) (degrees : K) : K := degrees * radian_coversion_coef m

/-- `Degrees::from_radians(radians)`. -/
def from_radians (m : CMath K) (radians : K) : K := radians / radian_coversion_coef m

end Degrees

/-- `Angle::from<Degrees>(value)`: `Angle { Degrees::to_radians(value) }`. -/
def Angle.from_Degrees {K : Type} [Field K] (m : CMath K) (value : K) : Angle K :=
  ⟨Degrees.to_radians m value⟩

/-! ## quaternion.hpp -/

/-- `class Quaternion` with its data members `Vector3D imag` and `float real`. -/
structure Quaternion (K : Type) where
  imag : Vector3 K
  real : K

namespace Quaternion

variable {K : Type} [Field K] [DecidableEq K]

/-- `Quaternion(float a, float b, float c, float scalar)`. -/
def of_floats (a b c scalar : K) : Quaternion K := ⟨Vector3.mk a b c, scalar⟩

/-- `Quaternion(const Vector3D &vec, float scalar)`. -/
def of_vector (vec : Vector3 K) (scalar : K) : Quaternion K := ⟨vec, scalar⟩

/-- `Quaternion(const Vector3D &vec, Angle angle)`: the real part is
`Degrees::from_radians(angle)`. -/
def of_vector_angle (m : CMath K) (vec : Vector3 K) (angle : Angle K) : Quaternion K :=
  ⟨vec, Degrees.from_radians m angle.radians_⟩

/-- `norm()`: `std::sqrt(dot(imag, imag) + (real * real))`. -/
def norm (m : CMath K) (self : Quaternion K) : K :=
  m.sqrt (Vector.dot self.imag self.imag + self.real * self.real)

/-- `norm_squared()`: `dot(imag, imag) + (real * real)`. -/
def norm_squared (self : Quaternion K) : K :=
  Vector.dot self.imag self.imag + self.real * self.real

/-- `Quaternion &normalize()`. -/
def normalize (m : CMath K) (self : Quaternion K) : Outcome (Quaternion K) :=
  let norm_value := norm m self
  if norm_value ≠ 0 then
    let normalization_factor := 1 / norm_value
    let self := { self with imag := Vector3.mul_assign_scalar self.imag normalization_factor }
    let self := { self with real := self.real * normalization_factor }
    .returned self
  else
    .threw "Cannot normalize zero quaternion" self

/-- `Quaternion normalized() const`: `copy = *this; copy.normalize(); return copy;`. -/
def normalized (m : CMath K) (self : Quaternion K) : Except String (Quaternion K) :=
  (normalize m self).toExcept

/-- `conjugate()`: `{ -imag, real }`. -/
def conjugate (self : Quaternion K) : Quaternion K :=
  ⟨Vector3.neg self.imag, self.real⟩

/-- `Quaternion &operator*=(const Quaternion &other)` for an `other` that is a
different object from `*this`. -/
def mul_assign (self other : Quaternion K) : Quaternion K :=
  let new_real := self.real * other.real - Vector.dot self.imag other.imag
  let new_imag :=
    Vector3.add
      (Vector3.add (Vector3.mul_scalar self.imag other.real)
        (Vector3.scalar_mul self.real other.imag))
      (Vector3.cross self.imag other.imag)
  let self := { self with real := new_real }
  let self := { self with imag := new_imag }
  self

/-- `q *= q`: the same statements with `other` bound to `*this`, every read of
`other` seeing the current state of the object. -/
def mul_assign_self (self : Quaternion K) : Quaternion K :=
  let new_real := self.real * self.real - Vector.dot self.imag self.imag
  let new_imag :=
    Vector3.add
      (Vector3.add (Vector3.mul_scalar self.imag self.real)
        (Vector3.scalar_mul self.real self.imag))
      (Vector3.cross self.imag self.imag)
  let self := { self with real := new_real }
  let self := { self with imag := new_imag }
  self

/-- Friend `operator*(lhs, rhs)`: `copy = lhs; copy *= rhs; return copy;`. -/
def mul (lhs rhs : Quaternion K) : Quaternion K := mul_assign lhs rhs

/-- `inverse()`: `conj = conjugate(); return conj * (*this * conj);`. -/
def inverse (self : Quaternion K) : Quaternion K :=
  let conj := conjugate self
  mul conj (mul self conj)

/-- `Quaternion &to_unit_norm() noexcept`. -/
def to_unit_norm (m : CMath K) (self : Quaternion K) : Quaternion K :=
  let angle := Angle.from_Degrees m self.real
  let self := { self with imag := (Vector3.normalize m self.imag).state }
  let self := { self with real := m.cos (angle.radians_ * 0.5) }
  let self := { self with imag := Vector3.mul_assign_scalar self.imag (m.sin (angle.radians_ * 0.5)) }
  self

/-- `static Vector3D rotate(const Vector3D &vec, Angle angle, const Vector3D &axis)`. -/
def rotate (m : CMath K) (vec : Vector3 K) (angle : Angle K) (axis : Vector3 K) :
    Except String (Vector3 K) :=
  let pure_quat := of_vector vec 0
  match Vector3.normalized m axis with
  | .error msg => .error msg
  | .ok rotation_axis =>
    let rotation_quat := to_unit_norm m (of_vector_angle m rotation_axis angle)
    let rotation_quat_inverse := inverse rotation_quat
    let rotated := mul (mul rotation_quat pure_quat) rotation_quat_inverse
    .ok rotated.imag

end Quaternion

/-! ## Calls that read and calls that discard -/

/-- Result of a member function called on a non-`const` object: the value the
call returns, and the state of the object afterwards. -/
structure Call (ρ σ : Type) where
  result : ρ
  self : σ

/-- `std::negate<T>()` as a callable: the argument is taken by `const` reference
and left as it is, and `-x` is returned. The pair is (argument after the call,
returned value). -/
def std_negate {T : Type} [Neg T] (x : T) : T × T := (x, -x)

namespace Tensor

variable {T : Type} {Dims : List Nat}

/-- `std::ranges::for_each(t.elems_, f)`: `f` is invoked on every element in
turn and what it returns is discarded; an element changes only if `f` changes
its argument. `f x` is (argument after the call, returned value). -/
def for_each {ρ : Type} (t : Tensor T Dims) (f : T → T × ρ) : Tensor T Dims :=
  ⟨fun i => (f (t.elems_ i)).1⟩

/-- `lhs.elems_ == rhs.elems_`, the `operator==` of `std::array`: the element
type's `==` on every pair of corresponding elements. -/
def elems_eq [BEq T] (lhs rhs : Tensor T Dims) : Bool :=
  (List.finRange (dimsProduct Dims)).all (fun i => lhs.elems_ i == rhs.elems_ i)

end Tensor

/-! ## vector.hpp, continued -/

namespace Vector

variable {T : Type} {Dims : Nat}

/-- Friend `operator==(const Vector &lhs, const Vector &rhs)`:
`lhs.elems_ == rhs.elems_`. -/
def eq [BEq T] (lhs rhs : Vector T Dims) : Bool := Tensor.elems_eq lhs rhs

/-- `dot(other)` with the conversion to `double` explicit:
`static_cast<double>(std::inner_product(..., T {}))`; the accumulation runs in
the element type and its result is converted. -/
def dot_double {D : Type} [Zero T] [Add T] [Mul T] (to_double : T → D)
    (self other : Vector T Dims) : D :=
  to_double (dot self other)

/-- `magnitude_squared()` with the conversion to `double` explicit:
`double result = 0;` then `result += static_cast<double>(v * v)` for every
element; each product is formed in the element type, converted, and accumulated
in `double`. -/
def magnitude_squared_double {D : Type} [Mul T] [Zero D] [Add D] (to_double : T → D)
    (self : Vector T Dims) : D :=
  (List.finRange Dims).foldl
    (fun result i => result + to_double (self.elems_ i * self.elems_ i)) 0

end Vector

/-- Friend `operator==(const Vector2 &, const Vector2 &)`: `lhs.elems_ == rhs.elems_`. -/
def Vector2.eq {T : Type} [BEq T] (lhs rhs : Vector2 T) : Bool := Tensor.elems_eq lhs rhs

/-- Friend `operator==(const Vector3 &, const Vector3 &)`: `lhs.elems_ == rhs.elems_`. -/
def Vector3.eq {T : Type} [BEq T] (lhs rhs : Vector3 T) : Bool := Tensor.elems_eq lhs rhs

/-- Friend `operator==(const Vector4 &, const Vector4 &)`: `lhs.elems_ == rhs.elems_`. -/
def Vector4.eq {T : Type} [BEq T] (lhs rhs : Vector4 T) : Bool := Tensor.elems_eq lhs rhs

/-- `unsigned int` (32 bits) as an element type: a natural number with addition
and multiplication reduced modulo `2 ^ 32`. -/
structure unsigned_int where
  val : Nat
  deriving DecidableEq

instance : Zero unsigned_int := ⟨⟨0⟩⟩
instance : Add unsigned_int := ⟨fun a b => ⟨(a.val + b.val) % 2 ^ 32⟩⟩
instance : Mul unsigned_int := ⟨fun a b => ⟨(a.val * b.val) % 2 ^ 32⟩⟩

/-- `static_cast<double>` of an `unsigned int`: every 32-bit value is a `double`,
as are the sums of a few of them; the rationals stand for `double` here. -/
def unsigned_int.to_double (x : unsigned_int) : ℚ := (x.val : ℚ)

/-- `int` (32 bits, two's complement) as an element type.  Overflow of a signed
operation is undefined behaviour in C++; in this model the result wraps, and
what is proved about `int` assumes that no operation overflows. -/
structure signed_int where
  val : ℤ
  deriving DecidableEq

/-- Reduction of an integer modulo `2 ^ 32` to the range `[-2 ^ 31, 2 ^ 31)`. -/
def signed_int.wrap (x : ℤ) : ℤ := (x + 2 ^ 31) % 2 ^ 32 - 2 ^ 31

instance : Zero signed_int := ⟨⟨0⟩⟩
instance : Add signed_int := ⟨fun a b => ⟨signed_int.wrap (a.val + b.val)⟩⟩
instance : Mul signed_int := ⟨fun a b => ⟨signed_int.wrap (a.val * b.val)⟩⟩

/-- `static_cast<double>` of an `int`: every 32-bit value is a `double`, as are
the sums of a few of them; the rationals stand for `double` here. -/
def signed_int.to_double (x : signed_int) : ℚ := (x.val : ℚ)

/-- The value of `acc` in `std::inner_product(self.begin(), self.end(),
other.begin(), T {})` after the first `k` elements: `dot` stopped after `k`
steps. -/
def Vector.dot_prefix {T : Type} {Dims : Nat} [Zero T] [Add T] [Mul T]
    (self other : Vector T Dims) (k : Nat) : T :=
  ((List.finRange Dims).take k).foldl (fun acc i => acc + self.elems_ i * other.elems_ i) 0

/-! ## The element type `float` -/

/-- `float` (IEEE 754 binary32, round to nearest, ties to even) as an element
type.  Every finite `float` is an integer multiple of the smallest subnormal
`2 ^ (-149)`; `finite k` is the value `k * 2 ^ (-149)`.  The sign of a zero is
not recorded: `+`, `-`, `*` and `==` give it no influence on a value, on a NaN
or on the outcome of a comparison. -/
inductive float where
  | finite (k : ℤ)
  | inf (negative : Bool)
  | nan
  deriving DecidableEq

namespace float

/-- The number of significant bits of `a`, by halving; `fuel` bounds the number
of halvings. -/
def bit_length_aux : Nat → Nat → Nat
  | 0, _ => 0
  | fuel + 1, a => if a = 0 then 0 else bit_length_aux fuel (a / 2) + 1

/-- The number of significant bits of `a` (`0` for `a = 0`). -/
def bit_length (a : Nat) : Nat := bit_length_aux a a

/-- Rounding of the magnitude `a * 2 ^ (-149 - s)` to nearest, ties to even.
The lowest `shift` bits are dropped, so that at most 24 significant bits are
kept and no bit below `2 ^ (-149)`; the result is in units of `2 ^ (-149)`. -/
def round_magnitude (a s : Nat) : Nat :=
  let shift := max (bit_length a - 24) s
  let q := a >>> shift
  let r := a - (q <<< shift)
  let n := if 1 <<< shift < 2 * r ∨ (2 * r = 1 <<< shift ∧ q % 2 = 1) then q + 1 else q
  n <<< (shift - s)

/-- Rounding of the exact result `n * 2 ^ (-149 - s)` of an operation: the
magnitude is rounded, and a rounded magnitude of `2 ^ 128` or more overflows to
the infinity of the same sign. -/
def round (n : ℤ) (s : Nat) : float :=
  let k := round_magnitude n.natAbs s
  if 2 ^ 128 * 2 ^ 149 ≤ k then inf (decide (n < 0))
  else finite (if n < 0 then -(k : ℤ) else k)

/-- Conversion of an integer value to `float`, as for the literal `1e20f`. -/
def of_int (n : ℤ) : float := round (n * 2 ^ 149) 0

/-- Unary `-`: the sign is flipped; NaN stays NaN. -/
def neg : float → float
  | finite k => finite (-k)
  | inf negative => inf (!negative)
  | nan => nan

/-- Binary `+`: NaN if an operand is NaN or the operands are infinities of
opposite sign; an infinity if one operand is; otherwise the rounded sum. -/
def add : float → float → float
  | nan, _ => nan
  | _, nan => nan
  | inf a, inf b => if a = b then inf a else nan
  | inf a, finite _ => inf a
  | finite _, inf b => inf b
  | finite k1, finite k2 => round (k1 + k2) 0

/-- Binary `-`: `x - y` is `x + (-y)`. -/
def sub (x y : float) : float := add x (neg y)

/-- Binary `*`: NaN if an operand is NaN or the operands are a zero and an
infinity; an infinity with the product of the signs if one operand is an
infinity; otherwise the rounded product. -/
def mul : float → float → float
  | nan, _ => nan
  | _, nan => nan
  | inf a, inf b => inf (a != b)
  | inf a, finite k => if k = 0 then nan else inf (a != decide (k < 0))
  | finite k, inf b => if k = 0 then nan else inf (decide (k < 0) != b)
  | finite k1, finite k2 => round (k1 * k2) 149

/-- The comparison `==`: false if an operand is NaN, otherwise equality of the
values. -/
def beq : float → float → Bool
  | finite k1, finite k2 => decide (k1 = k2)
  | inf a, inf b => a == b
  | _, _ => false

instance : Zero float := ⟨finite 0⟩
instance : Neg float := ⟨neg⟩
instance : Add float := ⟨add⟩
instance : Sub float := ⟨sub⟩
instance : Mul float := ⟨mul⟩
instance : BEq float := ⟨beq⟩

end float

/-! ## matrix.hpp, continued -/

namespace Matrix

variable {T : Type} {Rows Cols : Nat}

/-- `explicit Matrix(const storage_type_2d &values)`: `i = 0`, then for every row
and every value of the row `this->elems_[i++] = value`. The storage is
default-initialized before the loop runs; `indeterminate` is what it holds
then. -/
def of_rows (indeterminate : Matrix T Rows Cols) (values : Fin Rows → Fin Cols → T) :
    Matrix T Rows Cols :=
  ((List.finRange Rows).foldl (fun (st : Nat × Matrix T Rows Cols) (row : Fin Rows) =>
      (List.finRange Cols).foldl (fun (st : Nat × Matrix T Rows Cols) (col : Fin Cols) =>
          (st.1 + 1,
            if h : st.1 < Rows * Cols then Tensor.set st.2 st.1 h (values row col) else st.2))
        st)
    (0, indeterminate)).2

/-- `Matrix &operator-() noexcept`:
`std::ranges::for_each(this->elems_, std::negate<T>()); return *this;`.
The value is the object after the call, to which the returned reference
refers. -/
def neg [Neg T] (self : Matrix T Rows Cols) : Matrix T Rows Cols :=
  Tensor.for_each self std_negate

/-- Friend `operator==(const Matrix &lhs, const Matrix &rhs)`:
`lhs.elems_ == rhs.elems_`. -/
def eq [BEq T] (lhs rhs : Matrix T Rows Cols) : Bool := Tensor.elems_eq lhs rhs

/-- `Matrix<T, Cols, Rows> transpose() noexcept`: `return_matrix` is
default-initialized (`indeterminate` is what it holds then), the loops over
`i < return_matrix.rows()` and `j < return_matrix.cols()` run
`return_matrix[i, j] = (*this)[j, i]`, and `return_matrix` is returned. The body
assigns nothing to `*this`. -/
def transpose (indeterminate : Matrix T Cols Rows) (self : Matrix T Rows Cols) :
    Call (Matrix T Cols Rows) (Matrix T Rows Cols) :=
  let return_matrix :=
    (List.finRange Cols).foldl (fun return_matrix (i : Fin Cols) =>
      (List.finRange Rows).foldl (fun return_matrix (j : Fin Rows) =>
          set2 return_matrix i j (offset_lt i.isLt j.isLt)
            (get2 self j i (offset_lt j.isLt i.isLt)))
        return_matrix)
      indeterminate
  ⟨return_matrix, self⟩

/-- Modelled from the spec: the Laplace expansion of a determinant along the
first row, `∑ j, (-1)^j * a[0][j] * det(minor 0 j)`, the determinant of the
empty matrix being `1`. It is the body of `determinant()`, which the headers
declare and do not define. -/
def laplace {K : Type} [Ring K] : (n : Nat) → (Fin n → Fin n → K) → K
  | 0, _ => 1
  | n + 1, a =>
    (List.finRange (n + 1)).foldl
      (fun acc j => acc + (-1) ^ j.val * a 0 j * laplace n (fun r c => a r.succ (j.succAbove c)))
      0

/-- Modelled from the spec: `double determinant() const noexcept`, declared in
matrix.hpp, matrix2d.hpp, matrix3d.hpp and matrix4d.hpp with no definition among
the sources. The spec has it "defined for square matrices" as "the specific
closed-form cofactor/Laplace expansion (or any numerically-equivalent method)"
that "must match the standard 2×2/3×3/4×4 determinant formulas exactly". -/
def determinant {K : Type} [Ring K] {N : Nat} (m : Matrix K N N) : K :=
  laplace N (fun r c => get2 m r c (offset_lt r.isLt c.isLt))

end Matrix

/-! ## matrix2d.hpp -/

/-- `template <Numeric T> class Matrix2 : public Matrix<T, 2, 2>`. -/
abbrev Matrix2 (T : Type) := Matrix T 2 2

namespace Matrix2

variable {T : Type}

/-- `Matrix2(const arr_type &x, const arr_type &y) : Base({ x, y })`. -/
def mk (indeterminate : Matrix2 T) (x y : Fin 2 → T) : Matrix2 T :=
  Matrix.of_rows indeterminate ![x, y]

/-- `diagonal(Base::storage_type_diagonal values)`: `return {};`, the
value-initialized matrix, whose elements are all `T {}`. -/
def diagonal [Zero T] (_values : Fin 2 → T) : Matrix2 T := Tensor.fill 0

/-- `diagonal(Base::vector_type vec)`: `return {};`. -/
def diagonal_vector [Zero T] (_vec : Vector T 2) : Matrix2 T := Tensor.fill 0

/-- `Matrix2 transpose() noexcept`:
`return { { self[0], self[2] }, { self[1], self[3] } };`. -/
def transpose (indeterminate : Matrix2 T) (self : Matrix2 T) : Call (Matrix2 T) (Matrix2 T) :=
  ⟨mk indeterminate
      ![Tensor.get self 0 (by decide), Tensor.get self 2 (by decide)]
      ![Tensor.get self 1 (by decide), Tensor.get self 3 (by decide)],
    self⟩

/-- Friend `operator==(const Matrix2 &, const Matrix2 &)`: `lhs.elems_ == rhs.elems_`. -/
def eq [BEq T] (lhs rhs : Matrix2 T) : Bool := Tensor.elems_eq lhs rhs

end Matrix2

/-! ## matrix3d.hpp -/

/-- `template <Numeric T> class Matrix3 : public Matrix<T, 3, 3>`. -/
abbrev Matrix3 (T : Type) := Matrix T 3 3

namespace Matrix3

variable {T : Type}

/-- `Matrix3(const arr_type &x, const arr_type &y, const arr_type &z) : Base({ x, y, z })`. -/
def mk (indeterminate : Matrix3 T) (x y z : Fin 3 → T) : Matrix3 T :=
  Matrix.of_rows indeterminate ![x, y, z]

/-- `diagonal(const Base::storage_type_diagonal &values)`. -/
def diagonal [Zero T] (indeterminate : Matrix3 T) (values : Fin 3 → T) : Matrix3 T :=
  mk indeterminate
    ![values 0, 0, 0]
    ![0, values 1, 0]
    ![0, 0, values 2]

/-- `diagonal(T value)`: `diagonal({ value, value, value })`. -/
def diagonal_scalar [Zero T] (indeterminate : Matrix3 T) (value : T) : Matrix3 T :=
  diagonal indeterminate ![value, value, value]

/-- `diagonal(const Base::vector_type &vec)`: `diagonal({ vec[0], vec[1], vec[2] })`. -/
def diagonal_vector [Zero T] (indeterminate : Matrix3 T) (vec : Vector T 3) : Matrix3 T :=
  diagonal indeterminate
    ![Tensor.get vec 0 (by decide), Tensor.get vec 1 (by decide), Tensor.get vec 2 (by decide)]

/-- `anti_diagonal(const Base::storage_type_diagonal &values)`. -/
def anti_diagonal [Zero T] (indeterminate : Matrix3 T) (values : Fin 3 → T) : Matrix3 T :=
  mk indeterminate
    ![0, 0, values 0]
    ![0, values 1, 0]
    ![values 2, 0, 0]

/-- `anti_diagonal(T value)`: `anti_diagonal({ value, value, value })`. -/
def anti_diagonal_scalar [Zero T] (indeterminate : Matrix3 T) (value : T) : Matrix3 T :=
  anti_diagonal indeterminate ![value, value, value]

/-- `anti_diagonal(const Base::vector_type &vec)`:
`anti_diagonal({ vec[0], vec[1], vec[2] })`. -/
def anti_diagonal_vector [Zero T] (indeterminate : Matrix3 T) (vec : Vector T 3) : Matrix3 T :=
  anti_diagonal indeterminate
    ![Tensor.get vec 0 (by decide), Tensor.get vec 1 (by decide), Tensor.get vec 2 (by decide)]

/-- `identity()`: `diagonal(1)`. -/
def identity [Zero T] [One T] (indeterminate : Matrix3 T) : Matrix3 T :=
  diagonal_scalar indeterminate 1

/-- `Matrix3 transpose() noexcept`: the three rows
`{ self[0], self[3], self[6] }`, `{ self[1], self[4], self[7] }`,
`{ self[2], self[5], self[8] }`. -/
def transpose (indeterminate : Matrix3 T) (self : Matrix3 T) : Call (Matrix3 T) (Matrix3 T) :=
  ⟨mk indeterminate
      ![Tensor.get self 0 (by decide), Tensor.get self 3 (by decide), Tensor.get self 6 (by decide)]
      ![Tensor.get self 1 (by decide), Tensor.get self 4 (by decide), Tensor.get self 7 (by decide)]
      ![Tensor.get self 2 (by decide), Tensor.get self 5 (by decide), Tensor.get self 8 (by decide)],
    self⟩

/-- Friend `operator==(const Matrix3 &lhs, const Matrix3 &rhs)`: `return {};`,
the value-initialized `bool`. -/
def eq (_lhs _rhs : Matrix3 T) : Bool := false

end Matrix3

/-! ## matrix4d.hpp -/

/-- `template <Numeric T> class Matrix4 : public Matrix<T, 4, 4>`. -/
abbrev Matrix4 (T : Type) := Matrix T 4 4

namespace Matrix4

variable {T : Type}

/-- `Matrix4(const arr_type &x, const arr_type &y, const arr_type &z, const arr_type &w)
: Base({ x, y, z, w })`. -/
def mk (indeterminate : Matrix4 T) (x y z w : Fin 4 → T) : Matrix4 T :=
  Matrix.of_rows indeterminate ![x, y, z, w]

/-- `diagonal(const Base::storage_type_diagonal &values)`. -/
def diagonal [Zero T] (indeterminate : Matrix4 T) (values : Fin 4 → T) : Matrix4 T :=
  mk indeterminate
    ![values 0, 0, 0, 0]
    ![0, values 1, 0, 0]
    ![0, 0, values 2, 0]
    ![0, 0, 0, values 3]

/-- `diagonal(T value)`: `diagonal({ value, value, value })`. The braced list
initializes the `std::array<T, 4>` parameter with three initializers; its fourth
element is value-initialized, `T {}`. -/
def diagonal_scalar [Zero T] (indeterminate : Matrix4 T) (value : T) : Matrix4 T :=
  diagonal indeterminate ![value, value, value, 0]

/-- `diagonal(const Base::vector_type &vec)`: `diagonal({ vec[0], vec[1], vec[2] })`,
again three initializers for a `std::array<T, 4>`. -/
def diagonal_vector [Zero T] (indeterminate : Matrix4 T) (vec : Vector T 4) : Matrix4 T :=
  diagonal indeterminate
    ![Tensor.get vec 0 (by decide), Tensor.get vec 1 (by decide), Tensor.get vec 2 (by decide), 0]

/-- `anti_diagonal(T x, T y, T z, T w)`. -/
def anti_diagonal_xyzw [Zero T] (indeterminate : Matrix4 T) (x y z w : T) : Matrix4 T :=
  mk indeterminate
    ![0, 0, 0, x]
    ![0, 0, y, 0]
    ![0, z, 0, 0]
    ![w, 0, 0, 0]

/-- `anti_diagonal(const Base::storage_type_diagonal &values)`:
`return anti_diagonal({ values[0], values[1], values[2], values[3] });`.
One braced list of four values can only initialize a `std::array<T, 4>`
parameter (`T` takes one value, the four-parameter overload takes four
arguments, and `Vector<T, 4>` has no constructor from four values), so the call
is to this same overload. `fuel` bounds the depth of the calls; `none` is the
outcome when it is used up. -/
def anti_diagonal : (fuel : Nat) → (values : Fin 4 → T) → Option (Matrix4 T)
  | 0, _ => none
  | fuel + 1, values => anti_diagonal fuel ![values 0, values 1, values 2, values 3]

/-- `anti_diagonal(T value)`: `anti_diagonal(value, value, value, value)`. -/
def anti_diagonal_scalar [Zero T] (indeterminate : Matrix4 T) (value : T) : Matrix4 T :=
  anti_diagonal_xyzw indeterminate value value value value

/-- `anti_diagonal(const Base::vector_type &vec)`:
`anti_diagonal(vec[0], vec[1], vec[2], vec[3])`. -/
def anti_diagonal_vector [Zero T] (indeterminate : Matrix4 T) (vec : Vector T 4) : Matrix4 T :=
  anti_diagonal_xyzw indeterminate (Tensor.get vec 0 (by decide)) (Tensor.get vec 1 (by decide))
    (Tensor.get vec 2 (by decide)) (Tensor.get vec 3 (by decide))

/-- `identity()`: `diagonal(1)`. -/
def identity [Zero T] [One T] (indeterminate : Matrix4 T) : Matrix4 T :=
  diagonal_scalar indeterminate 1

/-- `Matrix4 transpose() noexcept`: `const auto &self = *this; return {};`, the
value-initialized matrix, whose elements are all `T {}`. -/
def transpose [Zero T] (self : Matrix4 T) : Call (Matrix4 T) (Matrix4 T) :=
  ⟨Tensor.fill 0, self⟩

/-- Friend `operator==(const Matrix4 &, const Matrix4 &)`: `lhs.elems_ == rhs.elems_`. -/
def eq [BEq T] (lhs rhs : Matrix4 T) : Bool := Tensor.elems_eq lhs rhs

end Matrix4

/-! ## vector.hpp: factories, axes and ordering -/

/-- `enum class Dimension { x = 0, y = 1, z = 2, w = 3 }`. -/
inductive Dimension where
  | x
  | y
  | z
  | w
  deriving DecidableEq

/-- `static_cast<std::size_t>(axis)`. -/
def Dimension.index : Dimension → Nat
  | .x => 0
  | .y => 1
  | .z => 2
  | .w => 3

namespace Vector

variable {T : Type} {Dims : Nat}

/-- `unit()`: `return { 1 };`, the broadcast constructor. -/
def unit [One T] : Vector T Dims := Tensor.fill 1

/-- `zero()`: `return { 1 };`, the broadcast constructor with the value `1`. -/
def zero [One T] : Vector T Dims := Tensor.fill 1

/-- `get_axis_vector(Dimension axis)`: `ret = Vector::zero();`
`ret[static_cast<std::size_t>(axis)] = static_cast<T>(1); return ret;`. -/
def get_axis_vector [One T] (axis : Dimension) (h : axis.index < Dims) : Vector T Dims :=
  let ret : Vector T Dims := zero
  Tensor.set ret axis.index h 1

/-- `get_axis_vector(Dimension axis, const Vector &vec)`: `ret = Vector::zero();`
`ret[axis] = vec[axis]; return ret;`. -/
def get_axis_vector_of [One T] (axis : Dimension) (h : axis.index < Dims)
    (vec : Vector T Dims) : Vector T Dims :=
  let ret : Vector T Dims := zero
  Tensor.set ret axis.index h (Tensor.get vec axis.index h)

/-- `x_axis()`: `get_axis_vector(Dimension::x)`. -/
def x_axis [One T] (h : 0 < Dims) : Vector T Dims := get_axis_vector .x h
/-- `y_axis()`, `requires(Dims > 1)`: `get_axis_vector(Dimension::y)`. -/
def y_axis [One T] (h : 1 < Dims) : Vector T Dims := get_axis_vector .y h
/-- `z_axis()`, `requires(Dims > 2)`: `get_axis_vector(Dimension::z)`. -/
def z_axis [One T] (h : 2 < Dims) : Vector T Dims := get_axis_vector .z h

/-- `x_axis(const Vector &vec)`: `get_axis_vector(Dimension::x, vec)`. -/
def x_axis_of [One T] (h : 0 < Dims) (vec : Vector T Dims) : Vector T Dims :=
  get_axis_vector_of .x h vec
/-- `y_axis(const Vector &vec)`: `get_axis_vector(Dimension::y, vec)`. -/
def y_axis_of [One T] (h : 1 < Dims) (vec : Vector T Dims) : Vector T Dims :=
  get_axis_vector_of .y h vec
/-- `z_axis(const Vector &vec)`: `get_axis_vector(Dimension::z, vec)`. -/
def z_axis_of [One T] (h : 2 < Dims) (vec : Vector T Dims) : Vector T Dims :=
  get_axis_vector_of .z h vec

end Vector

/-! ## Addition and subtraction -/

/-- `std::ranges::transform(a.elems_, b.elems_, a.elems_.begin(), op)`: every
element `a[i]` becomes `op(a[i], b[i])`. -/
def Tensor.transform2 {T : Type} {Dims : List Nat} (a b : Tensor T Dims) (op : T → T → T) :
    Tensor T Dims :=
  ⟨fun i => op (a.elems_ i) (b.elems_ i)⟩

namespace Vector2

variable {T : Type}

/-- `Vector2 &operator+=(const Vector2 &other) noexcept`. -/
def add_assign [Add T] (self other : Vector2 T) : Vector2 T :=
  let self := Tensor.set self 0 (by decide) (Tensor.get self 0 (by decide) + get_x other)
  let self := Tensor.set self 1 (by decide) (Tensor.get self 1 (by decide) + get_y other)
  self

/-- `Vector2 &operator-=(const Vector2 &other) noexcept`. -/
def sub_assign [Sub T] (self other : Vector2 T) : Vector2 T :=
  let self := Tensor.set self 0 (by decide) (Tensor.get self 0 (by decide) - get_x other)
  let self := Tensor.set self 1 (by decide) (Tensor.get self 1 (by decide) - get_y other)
  self

/-- Free `operator+` of tensor.hpp at `Vector2`: `T { lhs } += rhs`. -/
def add [Add T] (lhs rhs : Vector2 T) : Vector2 T := add_assign lhs rhs

/-- Free `operator-` of tensor.hpp at `Vector2`: `T { lhs } -= rhs`. -/
def sub [Sub T] (lhs rhs : Vector2 T) : Vector2 T := sub_assign lhs rhs

end Vector2

/-- Free `operator-` of tensor.hpp at `Vector3`: `T { lhs } -= rhs`. -/
def Vector3.sub {T : Type} [Sub T] (lhs rhs : Vector3 T) : Vector3 T :=
  Vector3.sub_assign lhs rhs

namespace Vector4

variable {T : Type}

/-- `Vector4 &operator+=(const Vector4 &other) noexcept`, through the
reference-returning `get_x()` … `get_w()`. -/
def add_assign [Add T] (self other : Vector4 T) : Vector4 T :=
  let self := Tensor.set self 0 (by decide) (Tensor.get self 0 (by decide) + get_x other)
  let self := Tensor.set self 1 (by decide) (Tensor.get self 1 (by decide) + get_y other)
  let self := Tensor.set self 2 (by decide) (Tensor.get self 2 (by decide) + get_z other)
  let self := Tensor.set self 3 (by decide) (Tensor.get self 3 (by decide) + get_w other)
  self

/-- `Vector4 &operator-=(const Vector4 &other) noexcept`. -/
def sub_assign [Sub T] (self other : Vector4 T) : Vector4 T :=
  let self := Tensor.set self 0 (by decide) (Tensor.get self 0 (by decide) - get_x other)
  let self := Tensor.set self 1 (by decide) (Tensor.get self 1 (by decide) - get_y other)
  let self := Tensor.set self 2 (by decide) (Tensor.get self 2 (by decide) - get_z other)
  let self := Tensor.set self 3 (by decide) (Tensor.get self 3 (by decide) - get_w other)
  self

/-- Free `operator+` of tensor.hpp at `Vector4`: `T { lhs } += rhs`. -/
def add [Add T] (lhs rhs : Vector4 T) : Vector4 T := add_assign lhs rhs

/-- Free `operator-` of tensor.hpp at `Vector4`: `T { lhs } -= rhs`. -/
def sub [Sub T] (lhs rhs : Vector4 T) : Vector4 T := sub_assign lhs rhs

end Vector4

namespace Matrix

variable {T : Type} {Rows Cols : Nat}

/-- `Matrix &operator+=(const Matrix &other) noexcept`:
`std::ranges::transform(this->elems_, other.elems_, this->elems_.begin(), std::plus<T>())`. -/
def add_assign [Add T] (self other : Matrix T Rows Cols) : Matrix T Rows Cols :=
  Tensor.transform2 self other (fun a b => a + b)

/-- `Matrix &operator-=(const Matrix &other) noexcept`: the same with
`std::minus<T>()`. -/
def sub_assign [Sub T] (self other : Matrix T Rows Cols) : Matrix T Rows Cols :=
  Tensor.transform2 self other (fun a b => a - b)

/-- Free `operator+` of tensor.hpp at `Matrix`: `T { lhs } += rhs`. -/
def add [Add T] (lhs rhs : Matrix T Rows Cols) : Matrix T Rows Cols := add_assign lhs rhs

/-- Free `operator-` of tensor.hpp at `Matrix`: `T { lhs } -= rhs`. -/
def sub [Sub T] (lhs rhs : Matrix T Rows Cols) : Matrix T Rows Cols := sub_assign lhs rhs

end Matrix

/-! ## quaternion.hpp, continued -/

namespace Quaternion

variable {K : Type} [Field K] [DecidableEq K]

/-- Friend `operator==(lhs, rhs)`: `lhs.imag == rhs.imag and lhs.real == rhs.real`. -/
def eq (lhs rhs : Quaternion K) : Bool :=
  Vector3.eq lhs.imag rhs.imag && (lhs.real == rhs.real)

/-- Friend `operator+(lhs, rhs)`: `{ lhs.imag + rhs.imag, lhs.real + rhs.real }`. -/
def add (lhs rhs : Quaternion K) : Quaternion K :=
  ⟨Vector3.add lhs.imag rhs.imag, lhs.real + rhs.real⟩

/-- `is_unit() const`: `return *this == normalized();`. The exception of
`normalized()` propagates. -/
def is_unit (m : CMath K) (self : Quaternion K) : Except String Bool :=
  match normalized m self with
  | .error msg => .error msg
  | .ok n => .ok (eq self n)

/-- `unit_norm() const noexcept`: `copy = *this; return copy.to_unit_norm();`. -/
def unit_norm (m : CMath K) (self : Quaternion K) : Quaternion K :=
  let copy := self
  to_unit_norm m copy

end Quaternion

/-! ## quaternion.hpp: sums, pure quaternions; angle.hpp: reading an angle -/

/-- `Angle::as<Degrees>(value)`: `Degrees::from_radians(value)`. An `Angle`
argument converts to the `double` it stores, `radians_`. -/
def Angle.as_Degrees {K : Type} [Field K] (m : CMath K) (value : K) : K :=
  Degrees.from_radians m value

namespace Quaternion

variable {K : Type} [Field K] [DecidableEq K]

/-- `Quaternion &operator+=(const Quaternion &other) noexcept`:
`imag += other.imag; real += other.real;`. -/
def add_assign (self other : Quaternion K) : Quaternion K :=
  let self := { self with imag := Vector3.add_assign self.imag other.imag }
  let self := { self with real := self.real + other.real }
  self

/-- `Quaternion &operator-=(const Quaternion &other) noexcept`:
`imag -= other.imag; real -= other.real;`. -/
def sub_assign (self other : Quaternion K) : Quaternion K :=
  let self := { self with imag := Vector3.sub_assign self.imag other.imag }
  let self := { self with real := self.real - other.real }
  self

/-- Friend `operator-(lhs, rhs)`: `{ lhs.imag - rhs.imag, lhs.real - rhs.real }`. -/
def sub (lhs rhs : Quaternion K) : Quaternion K :=
  ⟨Vector3.sub lhs.imag rhs.imag, lhs.real - rhs.real⟩

/-- `pure() const noexcept`: `{ imag, 0.0f }`. -/
def pure (self : Quaternion K) : Quaternion K := ⟨self.imag, 0⟩

/-- `Quaternion &to_pure() noexcept`: `real = 0.0f; return *this;`. -/
def to_pure (self : Quaternion K) : Quaternion K :=
  let self := { self with real := 0 }
  self

/-- `is_pure() const noexcept`: `real == 0.0f`. -/
def is_pure (self : Quaternion K) : Bool := self.real == 0

end Quaternion

/-! ## matrix3d.hpp, matrix4d.hpp: in-place product -/

/-- `Matrix3 &operator*=(const Matrix3 &other) noexcept`: `result_matrix { 0 }`,
the three loops over `i < 3`, `j < 3`, `k < 3` running
`result_matrix[i, j] += (*this)[i, k] * other[k, j]`, then
`*this = result_matrix`. -/
def Matrix3.mul_assign {T : Type} [Zero T] [Add T] [Mul T] (self other : Matrix3 T) :
    Matrix3 T :=
  let result_matrix : Matrix3 T :=
    (List.finRange 3).foldl (fun result_matrix (i : Fin 3) =>
      (List.finRange 3).foldl (fun result_matrix (j : Fin 3) =>
        (List.finRange 3).foldl (fun result_matrix (k : Fin 3) =>
          Matrix.set2 result_matrix i j (Matrix.offset_lt i.isLt j.isLt)
            (Matrix.get2 result_matrix i j (Matrix.offset_lt i.isLt j.isLt)
              + Matrix.get2 self i k (Matrix.offset_lt i.isLt k.isLt)
                * Matrix.get2 other k j (Matrix.offset_lt k.isLt j.isLt)))
          result_matrix)
        result_matrix)
      (Tensor.fill 0)
  let self := result_matrix
  self

/-- `Matrix4 &operator*=(const Matrix4 &other) noexcept`: `result_matrix { 0 }`,
the three loops, here too over `i < 3`, `j < 3`, `k < 3`, running
`result_matrix[i, j] += (*this)[i, k] * other[k, j]`, then
`*this = result_matrix`. -/
def Matrix4.mul_assign {T : Type} [Zero T] [Add T] [Mul T] (self other : Matrix4 T) :
    Matrix4 T :=
  let result_matrix : Matrix4 T :=
    (List.finRange 3).foldl (fun result_matrix (i : Fin 3) =>
      (List.finRange 3).foldl (fun result_matrix (j : Fin 3) =>
        (List.finRange 3).foldl (fun result_matrix (k : Fin 3) =>
          Matrix.set2 result_matrix i j
            (Matrix.offset_lt (Nat.lt_succ_of_lt i.isLt) (Nat.lt_succ_of_lt j.isLt))
            (Matrix.get2 result_matrix i j
                (Matrix.offset_lt (Nat.lt_succ_of_lt i.isLt) (Nat.lt_succ_of_lt j.isLt))
              + Matrix.get2 self i k
                  (Matrix.offset_lt (Nat.lt_succ_of_lt i.isLt) (Nat.lt_succ_of_lt k.isLt))
                * Matrix.get2 other k j
                  (Matrix.offset_lt (Nat.lt_succ_of_lt k.isLt) (Nat.lt_succ_of_lt j.isLt))))
          result_matrix)
        result_matrix)
      (Tensor.fill 0)
  let self := result_matrix
  self

/-! ## Contracts in the words of the specification -/

/-- Contract of the component-wise `v /= d` as the specification words it: the
call fails if and only if some component of `d` is zero; on failure it raises
"Division by zero" and `v` is left as it was; otherwise it returns with every
component `v[i]` replaced by `v[i] / d[i]`. -/
def DivAssignContract {T : Type} [Zero T] [Div T] {Dims : List Nat}
    (v d : Tensor T Dims) (out : Outcome (Tensor T Dims)) : Prop :=
  ((∃ msg s, out = .threw msg s) ↔ ∃ i, d.elems_ i = 0)
  ∧ ((∃ i, d.elems_ i = 0) → out = .threw "Division by zero" v)
  ∧ ((¬ ∃ i, d.elems_ i = 0) →
      ∃ r, out = .returned r ∧ ∀ i, r.elems_ i = v.elems_ i / d.elems_ i)

/-- Contract of the scalar `v /= s` as the specification words it: the call
fails if and only if `s == 0`; on failure it raises "Division by zero" and `v`
is left as it was; otherwise it returns with every component `v[i]` replaced by
`v[i] / s`. -/
def DivAssignScalarContract {T : Type} [Zero T] [Div T] {Dims : List Nat}
    (v : Tensor T Dims) (s : T) (out : Outcome (Tensor T Dims)) : Prop :=
  ((∃ msg st, out = .threw msg st) ↔ s = 0)
  ∧ (s = 0 → out = .threw "Division by zero" v)
  ∧ (s ≠ 0 → ∃ r, out = .returned r ∧ ∀ i, r.elems_ i = v.elems_ i / s)

/-! # Theorems -/

/-! ## Component lemmas for the fixed-size vectors -/

/-- Two tensors with the same elements are equal. -/
theorem Tensor.ext_elems {T : Type} {Dims : List Nat} {a b : Tensor T Dims}
    (h : ∀ i, a.elems_ i = b.elems_ i) : a = b := by
  cases a; cases b; congr; funext i; exact h i

namespace Vector3

variable {T : Type}

@[simp] theorem get_x_mk (x y z : T) : get_x (mk x y z) = x := rfl
@[simp] theorem get_y_mk (x y z : T) : get_y (mk x y z) = y := rfl
@[simp] theorem get_z_mk (x y z : T) : get_z (mk x y z) = z := rfl

/-- Two `Vector3` values with the same three components are equal. -/
theorem ext3 {a b : Vector3 T} (hx : get_x a = get_x b) (hy : get_y a = get_y b)
    (hz : get_z a = get_z b) : a = b := by
  cases a with
  | mk f =>
  cases b with
  | mk g =>
  congr
  funext i
  match i with
  | ⟨0, _⟩ => exact hx
  | ⟨1, _⟩ => exact hy
  | ⟨2, _⟩ => exact hz

theorem eq_iff (a b : Vector3 T) :
    a = b ↔ get_x a = get_x b ∧ get_y a = get_y b ∧ get_z a = get_z b :=
  ⟨fun h => by subst h; exact ⟨rfl, rfl, rfl⟩, fun h => ext3 h.1 h.2.1 h.2.2⟩

@[simp] theorem get_x_zero [Zero T] : get_x (zero : Vector3 T) = 0 := rfl
@[simp] theorem get_y_zero [Zero T] : get_y (zero : Vector3 T) = 0 := rfl
@[simp] theorem get_z_zero [Zero T] : get_z (zero : Vector3 T) = 0 := rfl

@[simp] theorem get_x_neg [Neg T] (a : Vector3 T) : get_x (neg a) = -get_x a := rfl
@[simp] theorem get_y_neg [Neg T] (a : Vector3 T) : get_y (neg a) = -get_y a := rfl
@[simp] theorem get_z_neg [Neg T] (a : Vector3 T) : get_z (neg a) = -get_z a := rfl

@[simp] theorem get_x_add [Add T] (a b : Vector3 T) : get_x (add a b) = get_x a + get_x b := rfl
@[simp] theorem get_y_add [Add T] (a b : Vector3 T) : get_y (add a b) = get_y a + get_y b := rfl
@[simp] theorem get_z_add [Add T] (a b : Vector3 T) : get_z (add a b) = get_z a + get_z b := rfl

@[simp] theorem get_x_mul_assign_scalar [Mul T] (a : Vector3 T) (s : T) :
    get_x (mul_assign_scalar a s) = get_x a * s := rfl
@[simp] theorem get_y_mul_assign_scalar [Mul T] (a : Vector3 T) (s : T) :
    get_y (mul_assign_scalar a s) = get_y a * s := rfl
@[simp] theorem get_z_mul_assign_scalar [Mul T] (a : Vector3 T) (s : T) :
    get_z (mul_assign_scalar a s) = get_z a * s := rfl

@[simp] theorem get_x_mul_scalar [Mul T] (a : Vector3 T) (s : T) :
    get_x (mul_scalar a s) = get_x a * s := rfl
@[simp] theorem get_y_mul_scalar [Mul T] (a : Vector3 T) (s : T) :
    get_y (mul_scalar a s) = get_y a * s := rfl
@[simp] theorem get_z_mul_scalar [Mul T] (a : Vector3 T) (s : T) :
    get_z (mul_scalar a s) = get_z a * s := rfl

@[simp] theorem get_x_scalar_mul [Mul T] (s : T) (a : Vector3 T) :
    get_x (scalar_mul s a) = get_x a * s := rfl
@[simp] theorem get_y_scalar_mul [Mul T] (s : T) (a : Vector3 T) :
    get_y (scalar_mul s a) = get_y a * s := rfl
@[simp] theorem get_z_scalar_mul [Mul T] (s : T) (a : Vector3 T) :
    get_z (scalar_mul s a) = get_z a * s := rfl

@[simp] theorem get_x_cross [Zero T] [Add T] [Sub T] [Mul T] (a b : Vector3 T) :
    get_x (cross a b) = get_y a * get_z b - get_z a * get_y b + 0 := rfl
@[simp] theorem get_y_cross [Zero T] [Add T] [Sub T] [Mul T] (a b : Vector3 T) :
    get_y (cross a b) = get_z a * get_x b - get_x a * get_z b + 0 := rfl
@[simp] theorem get_z_cross [Zero T] [Add T] [Sub T] [Mul T] (a b : Vector3 T) :
    get_z (cross a b) = get_x a * get_y b - get_y a * get_x b + 0 := rfl

/-- The inner product of two `Vector3` values, accumulation unrolled. -/
theorem dot_eq [Zero T] [Add T] [Mul T] (a b : Vector3 T) :
    Vector.dot a b = 0 + get_x a * get_x b + get_y a * get_y b + get_z a * get_z b := rfl

/-- The squared magnitude of a `Vector3`, accumulation unrolled. -/
theorem magnitude_squared_eq [Zero T] [Add T] [Mul T] (a : Vector3 T) :
    Vector.magnitude_squared a
      = 0 + get_x a * get_x a + get_y a * get_y a + get_z a * get_z a := rfl

end Vector3

/-! ## Quaternion product -/

namespace Quaternion

variable {K : Type} [Field K]

omit [Field K] in
/-- Two quaternions with the same four components are equal. -/
theorem ext4 {p q : Quaternion K} (hx : Vector3.get_x p.imag = Vector3.get_x q.imag)
    (hy : Vector3.get_y p.imag = Vector3.get_y q.imag)
    (hz : Vector3.get_z p.imag = Vector3.get_z q.imag) (hr : p.real = q.real) : p = q := by
  cases p; cases q
  simp only at hx hy hz hr
  rw [Vector3.ext3 hx hy hz, hr]

/-- C2. The Hamilton product as the code computes it: for `p = (a, b)` and
`q = (c, d)` the friend `operator*` returns real part `b*d - dot(a,c)` and
imaginary part `a*d + b*c + cross(a,c)`, component by component; `p *= q` leaves
`p` equal to `p * q`; and the aliased call `q *= q` gives `q * q`, every operand
being read before `real` and `imag` are overwritten. -/
theorem mul_hamilton (p q : Quaternion K) :
    (mul p q).real
        = p.real * q.real
          - (Vector3.get_x p.imag * Vector3.get_x q.imag
            + Vector3.get_y p.imag * Vector3.get_y q.imag
            + Vector3.get_z p.imag * Vector3.get_z q.imag)
    ∧ Vector3.get_x (mul p q).imag
        = Vector3.get_x p.imag * q.real + p.real * Vector3.get_x q.imag
          + (Vector3.get_y p.imag * Vector3.get_z q.imag
            - Vector3.get_z p.imag * Vector3.get_y q.imag)
    ∧ Vector3.get_y (mul p q).imag
        = Vector3.get_y p.imag * q.real + p.real * Vector3.get_y q.imag
          + (Vector3.get_z p.imag * Vector3.get_x q.imag
            - Vector3.get_x p.imag * Vector3.get_z q.imag)
    ∧ Vector3.get_z (mul p q).imag
        = Vector3.get_z p.imag * q.real + p.real * Vector3.get_z q.imag
          + (Vector3.get_x p.imag * Vector3.get_y q.imag
            - Vector3.get_y p.imag * Vector3.get_x q.imag)
    ∧ mul_assign p q = mul p q
    ∧ mul_assign_self q = mul q q := by
  refine ⟨?_, ?_, ?_, ?_, rfl, rfl⟩
  · simp only [mul, mul_assign, Vector3.dot_eq]; ring
  · simp only [mul, mul_assign, Vector3.get_x_add, Vector3.get_x_mul_scalar,
      Vector3.get_x_scalar_mul, Vector3.get_x_cross]; ring
  · simp only [mul, mul_assign, Vector3.get_y_add, Vector3.get_y_mul_scalar,
      Vector3.get_y_scalar_mul, Vector3.get_y_cross]; ring
  · simp only [mul, mul_assign, Vector3.get_z_add, Vector3.get_z_mul_scalar,
      Vector3.get_z_scalar_mul, Vector3.get_z_cross]; ring

/-! ## Rotation -/

/-- C1. In real arithmetic, `Quaternion::rotate` applied to the vector `(0,1,0)`,
the angle `Angle::from<Degrees>(90)` and the axis `(1,0,0)` returns exactly the
vector `(0,0,1)`. -/
theorem rotate_y_about_x_quarter_turn :
    rotate (⟨Real.sqrt, Real.cos, Real.sin, Real.pi⟩ : CMath ℝ) (Vector3.mk 0 1 0)
        (Angle.from_Degrees ⟨Real.sqrt, Real.cos, Real.sin, Real.pi⟩ 90) Vector3.x_axis
      = .ok (Vector3.mk 0 0 1) := by
  have hangle : (90 : ℝ) * (Real.pi / 180) / (Real.pi / 180) * (Real.pi / 180) * 0.5
      = Real.pi / 4 := by
    have hpi : Real.pi ≠ 0 := Real.pi_ne_zero
    field_simp
    ring
  simp only [rotate, Vector3.normalized, Vector3.normalize, Outcome.toExcept]
  congr 1
  apply Vector3.ext3 <;>
    simp [mul, mul_assign, inverse, conjugate, to_unit_norm, of_vector_angle, of_vector,
      Outcome.state, Vector3.normalize, Vector.norm, Vector.magnitude,
      Vector3.magnitude_squared_eq, Vector3.dot_eq, Vector3.x_axis, Angle.from_Degrees,
      Degrees.to_radians, Degrees.from_radians, Degrees.radian_coversion_coef, hangle]
  have h2 : √(2 : ℝ) * √2 = 2 := Real.mul_self_sqrt (by norm_num)
  have hring : √(2 : ℝ) / 2 * (√2 / 2 * (√2 / 2 * (√2 / 2) + √2 / 2 * (√2 / 2)))
      + √2 / 2 * (√2 / 2 * (√2 / 2 * (√2 / 2) + √2 / 2 * (√2 / 2)))
      = (√2 * √2) * (√2 * √2) / 4 := by ring
  rw [hring, h2]
  norm_num

/-! ## Inverse -/

/-- In a field, `q * q.inverse()` as the code computes it is the real quaternion
`norm_squared(q)²`: the code multiplies the conjugate by the squared norm where
the inverse divides by it. -/
theorem mul_inverse_eq (q : Quaternion K) :
    mul q (inverse q) = of_floats 0 0 0 (norm_squared q * norm_squared q) := by
  apply ext4 <;>
    simp only [mul, mul_assign, inverse, conjugate, of_floats, norm_squared, Vector3.dot_eq,
      Vector3.get_x_add, Vector3.get_y_add, Vector3.get_z_add, Vector3.get_x_mul_scalar,
      Vector3.get_y_mul_scalar, Vector3.get_z_mul_scalar, Vector3.get_x_scalar_mul,
      Vector3.get_y_scalar_mul, Vector3.get_z_scalar_mul, Vector3.get_x_cross,
      Vector3.get_y_cross, Vector3.get_z_cross, Vector3.get_x_neg, Vector3.get_y_neg,
      Vector3.get_z_neg, Vector3.get_x_mk, Vector3.get_y_mk, Vector3.get_z_mk] <;>
    ring

/-- C3, evaluated on the code. For `q = Quaternion(0,0,0,2)`, whose norm is `2`,
`q.inverse()` is `(0,0,0,8)`, and both `q * q.inverse()` and `q.inverse() * q`
are `(0,0,0,16)`, not the identity `(0,0,0,1)`. -/
theorem inverse_of_two :
    inverse (of_floats (0 : ℚ) 0 0 2) = of_floats 0 0 0 8
    ∧ mul (of_floats (0 : ℚ) 0 0 2) (inverse (of_floats 0 0 0 2)) = of_floats 0 0 0 16
    ∧ mul (inverse (of_floats (0 : ℚ) 0 0 2)) (of_floats 0 0 0 2) = of_floats 0 0 0 16
    ∧ of_floats (0 : ℚ) 0 0 16 ≠ of_floats 0 0 0 1
    ∧ norm_squared (of_floats (0 : ℚ) 0 0 2) = 4 := by
  refine ⟨?_, ?_, ?_, ?_, ?_⟩
  · apply ext4 <;>
      norm_num [mul, mul_assign, inverse, conjugate, of_floats, Vector3.dot_eq]
  · apply ext4 <;>
      norm_num [mul, mul_assign, inverse, conjugate, of_floats, Vector3.dot_eq]
  · apply ext4 <;>
      norm_num [mul, mul_assign, inverse, conjugate, of_floats, Vector3.dot_eq]
  · intro h
    have hr := congrArg Quaternion.real h
    simp [of_floats] at hr
  · simp [norm_squared, of_floats, Vector3.dot_eq]; norm_num

/-! ## Normalization of quaternions -/

/-- C4. `Quaternion::normalize()` and `normalized()` throw exactly when `norm()`
is zero. When `normalize()` throws, the object is left as it was; when it
returns, `imag` and `real` have both been multiplied by `1 / norm()`, and
`normalized()` returns that same value. -/
theorem normalize_throws_iff_norm_zero [DecidableEq K] (m : CMath K) (q : Quaternion K) :
    ((∃ msg s, normalize m q = .threw msg s) ↔ norm m q = 0)
    ∧ ((∃ msg, normalized m q = .error msg) ↔ norm m q = 0)
    ∧ (norm m q = 0 → normalize m q = .threw "Cannot normalize zero quaternion" q)
    ∧ (norm m q ≠ 0 →
        normalize m q
            = .returned ⟨Vector3.mul_assign_scalar q.imag (1 / norm m q),
                q.real * (1 / norm m q)⟩
        ∧ normalized m q
            = .ok ⟨Vector3.mul_assign_scalar q.imag (1 / norm m q),
                q.real * (1 / norm m q)⟩) := by
  by_cases h : norm m q = 0
  · simp [normalize, normalized, Outcome.toExcept, h]
  · simp [normalize, normalized, Outcome.toExcept, h]

/-- C4 at concrete inputs over `ℝ`: the zero quaternion is rejected and left
unchanged, and `(0,0,0,2)`, of norm `√4`, is scaled by `1 / √4`. -/
theorem normalize_throws_iff_norm_zero_witness :
    norm (⟨Real.sqrt, Real.cos, Real.sin, Real.pi⟩ : CMath ℝ) (of_floats 0 0 0 0) = 0
    ∧ normalize (⟨Real.sqrt, Real.cos, Real.sin, Real.pi⟩ : CMath ℝ) (of_floats 0 0 0 0)
        = .threw "Cannot normalize zero quaternion" (of_floats 0 0 0 0)
    ∧ norm (⟨Real.sqrt, Real.cos, Real.sin, Real.pi⟩ : CMath ℝ) (of_floats 0 0 0 2) ≠ 0
    ∧ normalized (⟨Real.sqrt, Real.cos, Real.sin, Real.pi⟩ : CMath ℝ) (of_floats 0 0 0 2)
        = .ok ⟨Vector3.mul_assign_scalar (Vector3.mk 0 0 0) (1 / √(0 + 0 * 0 + 0 * 0 + 0 * 0 + 2 * 2)),
            2 * (1 / √(0 + 0 * 0 + 0 * 0 + 0 * 0 + 2 * 2))⟩ := by
  have h0 : norm (⟨Real.sqrt, Real.cos, Real.sin, Real.pi⟩ : CMath ℝ) (of_floats 0 0 0 0) = 0 := by
    simp [norm, of_floats, Vector3.dot_eq]
  have h2 : norm (⟨Real.sqrt, Real.cos, Real.sin, Real.pi⟩ : CMath ℝ) (of_floats 0 0 0 2) ≠ 0 := by
    simp [norm, of_floats, Vector3.dot_eq]
  exact ⟨h0, (normalize_throws_iff_norm_zero _ _).2.2.1 h0, h2,
    ((normalize_throws_iff_norm_zero _ _).2.2.2 h2).2⟩

end Quaternion

/-! ## Division of the fixed-size vectors -/

namespace Tensor

variable {T : Type} {Dims : List Nat}

/-- `std::any_of` with the predicate `v == 0` finds a zero exactly when some
element is zero. -/
theorem any_of_zero_iff [Zero T] [DecidableEq T] (t : Tensor T Dims) :
    any_of t (fun v => decide (v = 0)) = true ↔ ∃ i, t.elems_ i = 0 := by
  simp [any_of, List.any_eq_true]

end Tensor

/-- All-or-nothing behaviour of `Vector2::operator/=(const Vector2 &)`. -/
theorem vector2_div_assign_contract {T : Type} [Zero T] [Div T] [DecidableEq T]
    (v d : Vector2 T) : DivAssignContract v d (Vector2.div_assign v d) := by
  have hex : (∃ i, d.elems_ i = 0) ↔ (Vector2.get_x d = 0 ∨ Vector2.get_y d = 0) := by
    constructor
    · rintro ⟨i, hi⟩
      match i, hi with
      | ⟨0, _⟩, hi => exact Or.inl hi
      | ⟨1, _⟩, hi => exact Or.inr hi
    · rintro (h | h)
      · exact ⟨⟨0, by decide⟩, h⟩
      · exact ⟨⟨1, by decide⟩, h⟩
  unfold DivAssignContract Vector2.div_assign
  by_cases h : Vector2.get_x d = 0 ∨ Vector2.get_y d = 0
  · simp [h, hex]
  · simp only [h, hex, if_false, not_false_eq_true, true_implies, false_implies, and_true,
      Outcome.returned.injEq, exists_eq_left', reduceCtorEq, exists_false, iff_self, true_and]
    intro i
    match i with
    | ⟨0, _⟩ => rfl
    | ⟨1, _⟩ => rfl

/-- All-or-nothing behaviour of `Vector3::operator/=(const Vector3 &)`. -/
theorem vector3_div_assign_contract {T : Type} [Zero T] [Div T] [DecidableEq T]
    (v d : Vector3 T) : DivAssignContract v d (Vector3.div_assign v d) := by
  unfold DivAssignContract Vector3.div_assign
  by_cases h : ∃ i, d.elems_ i = 0
  · simp [(Tensor.any_of_zero_iff d).2 h, h]
  · have hany : Tensor.any_of d (fun v => decide (v = 0)) = false := by
      rw [Bool.eq_false_iff]
      exact fun hc => h ((Tensor.any_of_zero_iff d).1 hc)
    simp only [hany, h, Bool.false_eq_true, if_false, not_false_eq_true, true_implies,
      false_implies, and_true, Outcome.returned.injEq, exists_eq_left', reduceCtorEq,
      exists_false, iff_self, true_and]
    intro i
    match i with
    | ⟨0, _⟩ => rfl
    | ⟨1, _⟩ => rfl
    | ⟨2, _⟩ => rfl

/-- All-or-nothing behaviour of `Vector4::operator/=(const Vector4 &)`. -/
theorem vector4_div_assign_contract {T : Type} [Zero T] [Div T] [DecidableEq T]
    (v d : Vector4 T) : DivAssignContract v d (Vector4.div_assign v d) := by
  unfold DivAssignContract Vector4.div_assign
  by_cases h : ∃ i, d.elems_ i = 0
  · simp [(Tensor.any_of_zero_iff d).2 h, h]
  · have hany : Tensor.any_of d (fun v => decide (v = 0)) = false := by
      rw [Bool.eq_false_iff]
      exact fun hc => h ((Tensor.any_of_zero_iff d).1 hc)
    simp only [hany, h, Bool.false_eq_true, if_false, not_false_eq_true, true_implies,
      false_implies, and_true, Outcome.returned.injEq, exists_eq_left', reduceCtorEq,
      exists_false, iff_self, true_and]
    intro i
    match i with
    | ⟨0, _⟩ => rfl
    | ⟨1, _⟩ => rfl
    | ⟨2, _⟩ => rfl
    | ⟨3, _⟩ => rfl

/-- C6. For `Vector2`, `Vector3` and `Vector4`, `v /= d` throws "Division by
zero" if and only if some component of `d` is zero, and then leaves every
component of `v` as it was; otherwise every component `v[i]` becomes
`v[i] / d[i]`. -/
theorem vector_div_assign_all_or_nothing {T : Type} [Zero T] [Div T] [DecidableEq T]
    (v2 d2 : Vector2 T) (v3 d3 : Vector3 T) (v4 d4 : Vector4 T) :
    DivAssignContract v2 d2 (Vector2.div_assign v2 d2)
    ∧ DivAssignContract v3 d3 (Vector3.div_assign v3 d3)
    ∧ DivAssignContract v4 d4 (Vector4.div_assign v4 d4) :=
  ⟨vector2_div_assign_contract v2 d2, vector3_div_assign_contract v3 d3,
    vector4_div_assign_contract v4 d4⟩

/-- C6 at a concrete input: dividing `(6, 8, 10)` by `(2, 0, 5)` throws and
leaves `(6, 8, 10)` in place. -/
theorem vector_div_assign_all_or_nothing_witness :
    Vector3.div_assign (Vector3.mk (6 : ℤ) 8 10) (Vector3.mk 2 0 5)
      = .threw "Division by zero" (Vector3.mk 6 8 10) :=
  (vector_div_assign_all_or_nothing (Vector2.mk 1 1) (Vector2.mk 1 1)
    (Vector3.mk (6 : ℤ) 8 10) (Vector3.mk 2 0 5)
    (Vector4.mk 1 1 1 1) (Vector4.mk 1 1 1 1)).2.1.2.1 ⟨⟨1, by decide⟩, rfl⟩

/-- `Vector3::operator/=(T1)` meets the contract of scalar division. -/
theorem vector3_div_assign_scalar_contract {T : Type} [Zero T] [Div T] [DecidableEq T]
    (v : Vector3 T) (s : T) : DivAssignScalarContract v s (Vector3.div_assign_scalar v s) := by
  unfold DivAssignScalarContract Vector3.div_assign_scalar
  by_cases h : s = 0
  · simp [h]
  · simp only [h, if_false, not_false_eq_true, true_implies, false_implies, and_true,
      Outcome.returned.injEq, exists_eq_left', reduceCtorEq, exists_false, iff_self, true_and,
      ne_eq]
    intro i
    match i with
    | ⟨0, _⟩ => rfl
    | ⟨1, _⟩ => rfl
    | ⟨2, _⟩ => rfl

/-- `Vector4::operator/=(T1)` meets the contract of scalar division. -/
theorem vector4_div_assign_scalar_contract {T : Type} [Zero T] [Div T] [DecidableEq T]
    (v : Vector4 T) (s : T) : DivAssignScalarContract v s (Vector4.div_assign_scalar v s) := by
  unfold DivAssignScalarContract Vector4.div_assign_scalar
  by_cases h : s = 0
  · simp [h]
  · simp only [h, if_false, not_false_eq_true, true_implies, false_implies, and_true,
      Outcome.returned.injEq, exists_eq_left', reduceCtorEq, exists_false, iff_self, true_and,
      ne_eq]
    intro i
    match i with
    | ⟨0, _⟩ => rfl
    | ⟨1, _⟩ => rfl
    | ⟨2, _⟩ => rfl
    | ⟨3, _⟩ => rfl

/-- What `Vector2::operator/=(T1)` does: it throws on a zero scalar and leaves
the vector alone, and on a non-zero scalar it multiplies both components by the
scalar. -/
theorem Vector2.div_assign_scalar_eq {T : Type} [Zero T] [Mul T] [DecidableEq T]
    (v : Vector2 T) (s : T) :
    Vector2.div_assign_scalar v s
      = if s = 0 then .threw "Division by zero" v
        else .returned (Vector2.mk (Vector2.get_x v * s) (Vector2.get_y v * s)) := by
  unfold Vector2.div_assign_scalar
  by_cases h : s = 0
  · simp [h]
  · simp only [h, if_false, Outcome.returned.injEq]
    apply Tensor.ext_elems
    intro i
    match i with
    | ⟨0, _⟩ => rfl
    | ⟨1, _⟩ => rfl

/-- C7, evaluated on the code. `Vector2<int>(4, 6) /= 2` returns `(8, 12)`: the
components are multiplied by the scalar. The contract of scalar division, which
asks for `(4 / 2, 6 / 2) = (2, 3)`, does not hold of that call. -/
theorem vector2_div_assign_scalar_multiplies :
    Vector2.div_assign_scalar (Vector2.mk (4 : ℤ) 6) 2 = .returned (Vector2.mk 8 12)
    ∧ ¬ DivAssignScalarContract (Vector2.mk (4 : ℤ) 6) 2
        (Vector2.div_assign_scalar (Vector2.mk (4 : ℤ) 6) 2) := by
  have heval : Vector2.div_assign_scalar (Vector2.mk (4 : ℤ) 6) 2
      = .returned (Vector2.mk 8 12) := by decide
  refine ⟨heval, ?_⟩
  rw [heval]
  intro hc
  obtain ⟨r, hr, hall⟩ := hc.2.2 (by decide)
  have h0 := hall ⟨0, by decide⟩
  rw [← Outcome.returned.inj hr] at h0
  revert h0
  decide

/-! ## Normalization of vectors -/

/-- C5 as the code has it. For `Vector2`, `Vector3` and `Vector4`, `normalize()`
never throws: it returns the vector with every component multiplied by
`T { 1 } / norm()`, whatever `norm()` is, and `normalized()` returns that same
value. The generic `Vector<T, N>` likewise returns `self *= T { 1 } / norm()`
for whatever its `operator*=` computes. -/
theorem vector_normalize_returns {T : Type} [Zero T] [One T] [Add T] [Mul T] [Div T]
    (m : CMath T) (v2 : Vector2 T) (v3 : Vector3 T) (v4 : Vector4 T) :
    (∀ (N : Nat) (mul_assign_scalar : Vector T N → T → Vector T N) (v : Vector T N),
        Vector.normalize m mul_assign_scalar v
            = .returned (mul_assign_scalar v (1 / Vector.norm m v))
        ∧ Vector.normalized m mul_assign_scalar v
            = .ok (mul_assign_scalar v (1 / Vector.norm m v)))
    ∧ (∃ r, Vector2.normalize m v2 = .returned r ∧ Vector2.normalized m v2 = .ok r
        ∧ ∀ i, r.elems_ i = v2.elems_ i * (1 / Vector.norm m v2))
    ∧ (∃ r, Vector3.normalize m v3 = .returned r ∧ Vector3.normalized m v3 = .ok r
        ∧ ∀ i, r.elems_ i = v3.elems_ i * (1 / Vector.norm m v3))
    ∧ (∃ r, Vector4.normalize m v4 = .returned r ∧ Vector4.normalized m v4 = .ok r
        ∧ ∀ i, r.elems_ i = v4.elems_ i * (1 / Vector.norm m v4)) := by
  refine ⟨fun _ _ _ => ⟨rfl, rfl⟩, ⟨_, rfl, rfl, ?_⟩, ⟨_, rfl, rfl, ?_⟩, ⟨_, rfl, rfl, ?_⟩⟩
  · intro i
    match i with
    | ⟨0, _⟩ => rfl
    | ⟨1, _⟩ => rfl
  · intro i
    match i with
    | ⟨0, _⟩ => rfl
    | ⟨1, _⟩ => rfl
    | ⟨2, _⟩ => rfl
  · intro i
    match i with
    | ⟨0, _⟩ => rfl
    | ⟨1, _⟩ => rfl
    | ⟨2, _⟩ => rfl
    | ⟨3, _⟩ => rfl

/-- C5 refuted as stated. Over `ℝ` the zero `Vector3` has norm zero, yet neither
`normalize()` nor `normalized()` throws on it. -/
theorem vector_normalize_zero_does_not_throw :
    Vector.norm (⟨Real.sqrt, Real.cos, Real.sin, Real.pi⟩ : CMath ℝ)
        (Vector3.zero : Vector3 ℝ) = 0
    ∧ (¬ ∃ msg s, Vector3.normalize (⟨Real.sqrt, Real.cos, Real.sin, Real.pi⟩ : CMath ℝ)
          (Vector3.zero : Vector3 ℝ) = .threw msg s)
    ∧ (¬ ∃ msg, Vector3.normalized (⟨Real.sqrt, Real.cos, Real.sin, Real.pi⟩ : CMath ℝ)
          (Vector3.zero : Vector3 ℝ) = .error msg) := by
  refine ⟨?_, ?_, ?_⟩
  · simp [Vector.norm, Vector.magnitude, Vector3.magnitude_squared_eq]
  · simp [Vector3.normalize]
  · simp [Vector3.normalized, Vector3.normalize, Outcome.toExcept]

/-! ## Checked element access -/

/-- C8. `Tensor::at(idx)` throws "index out of bounds" if and only if
`idx >= size()`, in its `const` and in its reference-returning form alike, and a
throwing write leaves the tensor as it was; for an index inside, `at(idx)`
returns the element `t[idx]`, and after `t.at(idx) = v` the call `t.at(idx)`
returns `v`. -/
theorem tensor_at_checked {T : Type} {Dims : List Nat} (t : Tensor T Dims) (idx : Nat) :
    ((∃ msg, t.at idx = .error msg) ↔ idx ≥ t.size)
    ∧ (idx ≥ t.size → t.at idx = .error "index out of bounds")
    ∧ (∀ v, idx ≥ t.size → t.at_assign idx v = .threw "index out of bounds" t)
    ∧ (∀ h : idx < dimsProduct Dims, t.at idx = .ok (t.get idx h))
    ∧ (∀ v, idx < t.size →
        ∃ t2, t.at_assign idx v = .returned t2 ∧ t2.at idx = .ok v) := by
  by_cases h : idx ≥ t.size
  · have hn : ¬ idx < dimsProduct Dims := Nat.not_lt.mpr h
    have hn2 : ¬ idx < t.size := Nat.not_lt.mpr h
    simp [Tensor.at, Tensor.at_assign, h, hn, hn2]
  · have hlt : idx < dimsProduct Dims := Nat.lt_of_not_ge h
    have hlt2 : idx < t.size := hlt
    have hsz : ∀ t2 : Tensor T Dims, ¬ idx ≥ t2.size := fun _ => h
    simp [Tensor.at, Tensor.at_assign, h, hlt, hlt2, hsz, Tensor.get, Tensor.set]

/-- C8 at a concrete input: in a `Tensor<int, 1, 2, 3>` filled with `1`, index
`69000` is rejected, and the value `42` written through `at(0)` is read back. -/
theorem tensor_at_checked_witness :
    (Tensor.fill 1 : Tensor ℤ [1, 2, 3]).at 69000 = .error "index out of bounds"
    ∧ ∃ t2, (Tensor.fill 1 : Tensor ℤ [1, 2, 3]).at_assign 0 42 = .returned t2
        ∧ t2.at 0 = .ok 42 :=
  ⟨(tensor_at_checked (Tensor.fill 1 : Tensor ℤ [1, 2, 3]) 69000).2.1 (by decide),
   (tensor_at_checked (Tensor.fill 1 : Tensor ℤ [1, 2, 3]) 0).2.2.2.2 42 (by decide)⟩

namespace Matrix

variable {T : Type}

/-- A loop whose body changes the element at `p` as a function of that element
alone acts on the element at `p` as the fold of those functions. -/
theorem foldl_elems_pointwise {ι : Type} {Dims : List Nat} (p : Fin (dimsProduct Dims))
    (step : Tensor T Dims → ι → Tensor T Dims) (φ : ι → T → T)
    (hstep : ∀ r x, (step r x).elems_ p = φ x (r.elems_ p)) (l : List ι)
    (r : Tensor T Dims) :
    (l.foldl step r).elems_ p = l.foldl (fun a x => φ x a) (r.elems_ p) := by
  induction l generalizing r with
  | nil => rfl
  | cons x xs ih => simp only [List.foldl_cons]; rw [ih, hstep]

/-- A loop that never meets its guard leaves the accumulator alone. -/
theorem foldl_ite_never {ι : Type} (l : List ι) (c : ι → Prop) [DecidablePred c]
    (g : ι → T → T) (a : T) (h : ∀ x ∈ l, ¬ c x) :
    l.foldl (fun a x => if c x then g x a else a) a = a := by
  induction l generalizing a with
  | nil => rfl
  | cons x xs ih =>
    simp only [List.foldl_cons]
    rw [if_neg (h x (List.mem_cons_self x xs))]
    exact ih a (fun y hy => h y (List.mem_cons_of_mem x hy))

/-- A loop over distinct indices that acts only at the index `x0` acts once. -/
theorem foldl_ite_once {ι : Type} [DecidableEq ι] (l : List ι) (x0 : ι) (g : T → T) (a : T)
    (hnd : l.Nodup) (hmem : x0 ∈ l) :
    l.foldl (fun a x => if x = x0 then g a else a) a = g a := by
  induction l generalizing a with
  | nil => exact absurd hmem (List.not_mem_nil x0)
  | cons x xs ih =>
    simp only [List.foldl_cons]
    rw [List.nodup_cons] at hnd
    by_cases hx : x = x0
    · rw [if_pos hx]
      subst hx
      exact foldl_ite_never xs (fun y => y = x) (fun _ => g) (g a)
        (fun y hy hyx => hnd.1 (hyx ▸ hy))
    · rw [if_neg hx]
      rcases List.mem_cons.mp hmem with h | h
      · exact absurd h.symm hx
      · exact ih a hnd.2 h

/-- Offsets of in-range index pairs determine the pair. -/
theorem offset_inj {C i j i0 j0 : Nat} (hj : j < C) (hj0 : j0 < C)
    (h : i * C + j = i0 * C + j0) : i = i0 ∧ j = j0 := by
  have hC : 0 < C := Nat.lt_of_le_of_lt (Nat.zero_le j) hj
  have h1 : (i * C + j) / C = i := by
    rw [Nat.mul_comm, Nat.mul_add_div hC, Nat.div_eq_of_lt hj, Nat.add_zero]
  have h2 : (i0 * C + j0) / C = i0 := by
    rw [Nat.mul_comm, Nat.mul_add_div hC, Nat.div_eq_of_lt hj0, Nat.add_zero]
  have hi : i = i0 := by rw [← h1, h, h2]
  subst hi
  exact ⟨rfl, Nat.add_left_cancel h⟩

/-- The element of `lhs * rhs` at row `i0` and column `j0` is the accumulation
`((0 + a[i0,0]*b[0,j0]) + a[i0,1]*b[1,j0]) + ...` over `k` in increasing order. -/
theorem mul_elems [Zero T] [Add T] [Mul T] {Rows1 Cols1 Cols2 : Nat}
    (lhs : Matrix T Rows1 Cols1) (rhs : Matrix T Cols1 Cols2)
    (i0 : Fin Rows1) (j0 : Fin Cols2) :
    (mul lhs rhs).elems_ ⟨i0 * Cols2 + j0, offset_lt i0.isLt j0.isLt⟩
      = (List.finRange Cols1).foldl (fun acc (k : Fin Cols1) =>
          acc + get2 lhs i0 k (offset_lt i0.isLt k.isLt)
            * get2 rhs k j0 (offset_lt k.isLt j0.isLt)) 0 := by
  -- the accumulation for the cell `(i0, j0)`, from an arbitrary start
  have hG : ∃ G : T → T, ∀ a, G a = (List.finRange Cols1).foldl (fun acc (k : Fin Cols1) =>
      acc + get2 lhs i0 k (offset_lt i0.isLt k.isLt)
        * get2 rhs k j0 (offset_lt k.isLt j0.isLt)) a := ⟨_, fun _ => rfl⟩
  obtain ⟨G, hGdef⟩ := hG
  rw [← hGdef 0]
  have hp : ∃ p : Fin (dimsProduct [Rows1, Cols2]),
      p = ⟨i0 * Cols2 + j0, offset_lt i0.isLt j0.isLt⟩ := ⟨_, rfl⟩
  obtain ⟨p, hpdef⟩ := hp
  rw [← hpdef]
  have hpval : p.val = i0 * Cols2 + j0 := by rw [hpdef]
  -- the `k` loop touches the cell `p` only when `(i, j) = (i0, j0)`
  have hinner : ∀ (i : Fin Rows1) (j : Fin Cols2) (r : Matrix T Rows1 Cols2),
      ((List.finRange Cols1).foldl (fun result_matrix (k : Fin Cols1) =>
        set2 result_matrix i j (offset_lt i.isLt j.isLt)
          (get2 result_matrix i j (offset_lt i.isLt j.isLt)
            + get2 lhs i k (offset_lt i.isLt k.isLt)
              * get2 rhs k j (offset_lt k.isLt j.isLt))) r).elems_ p
        = if i = i0 ∧ j = j0 then G (r.elems_ p) else r.elems_ p := by
    intro i j r
    refine (foldl_elems_pointwise p _
      (fun (k : Fin Cols1) a => if i = i0 ∧ j = j0 then
        a + get2 lhs i k (offset_lt i.isLt k.isLt) * get2 rhs k j (offset_lt k.isLt j.isLt)
        else a) ?_ _ r).trans ?_
    · intro r2 k
      by_cases hc : i = i0 ∧ j = j0
      · obtain ⟨hi, hj⟩ := hc
        subst hi; subst hj
        have hpe : p = ⟨i * Cols2 + j, offset_lt i.isLt j.isLt⟩ := hpdef
        simp [set2, get2, Tensor.set, hpe]
      · have hne : ¬ p.val = i * Cols2 + j := by
          intro h
          rw [hpval] at h
          have := offset_inj j0.isLt j.isLt h
          exact hc ⟨Fin.ext this.1.symm, Fin.ext this.2.symm⟩
        simp [set2, Tensor.set, hne, hc]
    · by_cases hc : i = i0 ∧ j = j0
      · obtain ⟨hi, hj⟩ := hc
        subst hi; subst hj
        simp [hGdef]
      · rw [if_neg hc]
        exact foldl_ite_never _ (fun _ => i = i0 ∧ j = j0) _ _ (fun _ _ => hc)
  -- the `j` loop touches the cell `p` only in row `i0`
  have hmiddle : ∀ (i : Fin Rows1) (r : Matrix T Rows1 Cols2),
      ((List.finRange Cols2).foldl (fun result_matrix (j : Fin Cols2) =>
        (List.finRange Cols1).foldl (fun result_matrix (k : Fin Cols1) =>
          set2 result_matrix i j (offset_lt i.isLt j.isLt)
            (get2 result_matrix i j (offset_lt i.isLt j.isLt)
              + get2 lhs i k (offset_lt i.isLt k.isLt)
                * get2 rhs k j (offset_lt k.isLt j.isLt))) result_matrix) r).elems_ p
        = if i = i0 then G (r.elems_ p) else r.elems_ p := by
    intro i r
    refine (foldl_elems_pointwise p _
      (fun (j : Fin Cols2) a => if i = i0 ∧ j = j0 then G a else a)
      (fun r2 j => hinner i j r2) _ r).trans ?_
    by_cases hi : i = i0
    · simp only [hi, true_and, if_true]
      exact foldl_ite_once _ j0 G _ (List.nodup_finRange Cols2) (List.mem_finRange j0)
    · rw [if_neg hi]
      exact foldl_ite_never _ (fun j => i = i0 ∧ j = j0) _ _ (fun _ _ hc => hi hc.1)
  -- the `i` loop
  unfold mul
  refine (foldl_elems_pointwise p _ (fun (i : Fin Rows1) a => if i = i0 then G a else a)
    (fun r2 i => hmiddle i r2) _ _).trans ?_
  exact foldl_ite_once _ i0 G _ (List.nodup_finRange Rows1) (List.mem_finRange i0)

/-- C10. For `A` of shape `R1×C1` and `B` of shape `C1×C2`, `A * B` has shape
`R1×C2`, and its element `(i, j)` is the sum of `A[i,k] * B[k,j]` over `k` in
`[0, C1)`, accumulated from zero in increasing order of `k`. No law of
arithmetic is assumed of the element type. -/
theorem mul_element [Zero T] [Add T] [Mul T] {Rows1 Cols1 Cols2 : Nat}
    (lhs : Matrix T Rows1 Cols1) (rhs : Matrix T Cols1 Cols2) (i j : Nat)
    (hi : i < Rows1) (hj : j < Cols2) :
    get2 (mul lhs rhs) i j (offset_lt hi hj)
      = (List.finRange Cols1).foldl (fun acc (k : Fin Cols1) =>
          acc + get2 lhs i k (offset_lt hi k.isLt) * get2 rhs k j (offset_lt k.isLt hj)) 0 :=
  mul_elems lhs rhs ⟨i, hi⟩ ⟨j, hj⟩

/-- C10 at a concrete input: the element `(1, 0)` of
`((1, 2), (3, 4)) * ((5, 6), (7, 8))` is `3 * 5 + 4 * 7 = 43`. -/
theorem mul_element_witness :
    get2 (mul (Tensor.of_array ![1, 2, 3, 4] : Matrix ℤ 2 2)
        (Tensor.of_array ![5, 6, 7, 8] : Matrix ℤ 2 2)) 1 0 (by decide) = 43 :=
  (mul_element (Tensor.of_array ![1, 2, 3, 4] : Matrix ℤ 2 2)
    (Tensor.of_array ![5, 6, 7, 8] : Matrix ℤ 2 2) 1 0 (by decide) (by decide)).trans
    (by decide)

/-- In a semiring the accumulation of C10 is the sum
`∑ k, A[i,k] * B[k,j]` over the `C1` indices. -/
theorem mul_element_sum [Semiring T] {Rows1 Cols1 Cols2 : Nat}
    (lhs : Matrix T Rows1 Cols1) (rhs : Matrix T Cols1 Cols2) (i : Fin Rows1)
    (j : Fin Cols2) :
    get2 (mul lhs rhs) i j (offset_lt i.isLt j.isLt)
      = ∑ k : Fin Cols1, get2 lhs i k (offset_lt i.isLt k.isLt)
          * get2 rhs k j (offset_lt k.isLt j.isLt) := by
  rw [Fin.sum_univ_def, List.sum_eq_foldl, List.foldl_map]
  exact mul_elems lhs rhs i j

/-! ## Transposition -/

/-- The element of the generic transpose at row `i0` and column `j0` is the
element of the matrix at row `j0` and column `i0`, whatever the
default-initialized result held. -/
theorem transpose_elems {Rows Cols : Nat} (u : Matrix T Cols Rows) (m : Matrix T Rows Cols)
    (i0 : Fin Cols) (j0 : Fin Rows) :
    (transpose u m).result.elems_ ⟨i0 * Rows + j0, offset_lt i0.isLt j0.isLt⟩
      = get2 m j0 i0 (offset_lt j0.isLt i0.isLt) := by
  have hp : ∃ p : Fin (dimsProduct [Cols, Rows]),
      p = ⟨i0 * Rows + j0, offset_lt i0.isLt j0.isLt⟩ := ⟨_, rfl⟩
  obtain ⟨p, hpdef⟩ := hp
  rw [← hpdef]
  have hpval : p.val = i0 * Rows + j0 := by rw [hpdef]
  have hinner : ∀ (i : Fin Cols) (r : Matrix T Cols Rows),
      ((List.finRange Rows).foldl (fun return_matrix (j : Fin Rows) =>
          set2 return_matrix i j (offset_lt i.isLt j.isLt)
            (get2 m j i (offset_lt j.isLt i.isLt))) r).elems_ p
        = if i = i0 then get2 m j0 i0 (offset_lt j0.isLt i0.isLt) else r.elems_ p := by
    intro i r
    refine (foldl_elems_pointwise p _
      (fun (j : Fin Rows) a =>
        if i = i0 ∧ j = j0 then get2 m j0 i0 (offset_lt j0.isLt i0.isLt) else a) ?_ _ r).trans ?_
    · intro r2 j
      by_cases hc : i = i0 ∧ j = j0
      · obtain ⟨hi, hj⟩ := hc
        subst hi; subst hj
        have hpe : p = ⟨i * Rows + j, offset_lt i.isLt j.isLt⟩ := hpdef
        simp [set2, Tensor.set, hpe]
      · have hne : ¬ p.val = i * Rows + j := by
          intro h
          rw [hpval] at h
          have := offset_inj j0.isLt j.isLt h
          exact hc ⟨Fin.ext this.1.symm, Fin.ext this.2.symm⟩
        simp [set2, Tensor.set, hne, hc]
    · by_cases hi : i = i0
      · simp only [hi, true_and, if_true]
        exact foldl_ite_once _ j0 (fun _ => get2 m j0 i0 (offset_lt j0.isLt i0.isLt)) _
          (List.nodup_finRange Rows) (List.mem_finRange j0)
      · rw [if_neg hi]
        exact foldl_ite_never _ (fun j => i = i0 ∧ j = j0) _ _ (fun _ _ hc => hi hc.1)
  unfold transpose
  refine (foldl_elems_pointwise p _
    (fun (i : Fin Cols) a => if i = i0 then get2 m j0 i0 (offset_lt j0.isLt i0.isLt) else a)
    (fun r2 i => hinner i r2) _ _).trans ?_
  exact foldl_ite_once _ i0 (fun _ => get2 m j0 i0 (offset_lt j0.isLt i0.isLt)) _
    (List.nodup_finRange Cols) (List.mem_finRange i0)

/-- C12. The generic `M.transpose()` of an `R×C` matrix returns a `C×R` matrix
`T` with `T[i, j] == M[j, i]` for all `i < C` and `j < R`, and `M` is the same
after the call as before it. -/
theorem transpose_swaps_indices {Rows Cols : Nat} (u : Matrix T Cols Rows)
    (m : Matrix T Rows Cols) (i j : Nat) (hi : i < Cols) (hj : j < Rows) :
    get2 (transpose u m).result i j (offset_lt hi hj) = get2 m j i (offset_lt hj hi)
    ∧ (transpose u m).self = m :=
  ⟨transpose_elems u m ⟨i, hi⟩ ⟨j, hj⟩, rfl⟩

/-- C12 at a concrete input: in the transpose of the 2×3 matrix
`((1, 2, 3), (4, 5, 6))` the element `(2, 1)` is `6`, the element `(1, 2)` of
the matrix. -/
theorem transpose_swaps_indices_witness :
    get2 (transpose (Tensor.fill 0) (Tensor.of_array ![1, 2, 3, 4, 5, 6] : Matrix ℤ 2 3)).result
        2 1 (by decide) = 6 :=
  (transpose_swaps_indices (Tensor.fill 0) (Tensor.of_array ![1, 2, 3, 4, 5, 6] : Matrix ℤ 2 3)
    2 1 (by decide) (by decide)).1.trans (by decide)

end Matrix

/-! ## The square specializations: factories -/

/-- `Matrix3::diagonal(values)` has `values[i]` at `(i, i)` and zero elsewhere. -/
theorem matrix3_diagonal_get2 {T : Type} [Zero T] (u : Matrix3 T) (values : Fin 3 → T)
    (i j : Fin 3) :
    Matrix.get2 (Matrix3.diagonal u values) i j (Matrix.offset_lt i.isLt j.isLt)
      = if i = j then values i else 0 := by
  fin_cases i <;> fin_cases j <;> rfl

/-- `Matrix4::diagonal(values)` has `values[i]` at `(i, i)` and zero elsewhere. -/
theorem matrix4_diagonal_get2 {T : Type} [Zero T] (u : Matrix4 T) (values : Fin 4 → T)
    (i j : Fin 4) :
    Matrix.get2 (Matrix4.diagonal u values) i j (Matrix.offset_lt i.isLt j.isLt)
      = if i = j then values i else 0 := by
  fin_cases i <;> fin_cases j <;> rfl

/-- `Matrix3::anti_diagonal(values)` has `values[i]` at `(i, 2 - i)` and zero
elsewhere. -/
theorem matrix3_anti_diagonal_get2 {T : Type} [Zero T] (u : Matrix3 T) (values : Fin 3 → T)
    (i j : Fin 3) :
    Matrix.get2 (Matrix3.anti_diagonal u values) i j (Matrix.offset_lt i.isLt j.isLt)
      = if j.val = 2 - i.val then values i else 0 := by
  fin_cases i <;> fin_cases j <;> rfl

/-- `Matrix4::anti_diagonal(x, y, z, w)` has `x`, `y`, `z`, `w` at `(i, 3 - i)`
for `i = 0, 1, 2, 3` and zero elsewhere. -/
theorem matrix4_anti_diagonal_xyzw_get2 {T : Type} [Zero T] (u : Matrix4 T) (x y z w : T)
    (i j : Fin 4) :
    Matrix.get2 (Matrix4.anti_diagonal_xyzw u x y z w) i j (Matrix.offset_lt i.isLt j.isLt)
      = if j.val = 3 - i.val then ![x, y, z, w] i else 0 := by
  fin_cases i <;> fin_cases j <;> rfl

/-- What holds of C16: `Matrix3::diagonal`, given an array or a vector, and
`Matrix4::diagonal`, given an array, return the matrix with `values[i]` at
`(i, i)` and zero elsewhere. -/
theorem diagonal_of_values_sound {T : Type} [Zero T] (u3 : Matrix3 T) (u4 : Matrix4 T)
    (values3 : Fin 3 → T) (vec3 : Vector T 3) (values4 : Fin 4 → T) :
    (∀ i j : Fin 3,
        Matrix.get2 (Matrix3.diagonal u3 values3) i j (Matrix.offset_lt i.isLt j.isLt)
          = if i = j then values3 i else 0)
    ∧ (∀ i j : Fin 3,
        Matrix.get2 (Matrix3.diagonal_vector u3 vec3) i j (Matrix.offset_lt i.isLt j.isLt)
          = if i = j then vec3.elems_ i else 0)
    ∧ (∀ i j : Fin 4,
        Matrix.get2 (Matrix4.diagonal u4 values4) i j (Matrix.offset_lt i.isLt j.isLt)
          = if i = j then values4 i else 0) := by
  refine ⟨matrix3_diagonal_get2 u3 values3, ?_, matrix4_diagonal_get2 u4 values4⟩
  intro i j
  fin_cases i <;> fin_cases j <;> rfl

/-- C16, evaluated on the code. `Matrix4<int>::diagonal` of the vector
`(1, 2, 3, 4)` has `1, 2, 3` on the diagonal and `0`, not `4`, at `(3, 3)`; and
`Matrix2<int>::diagonal` of the array `{1, 2}` and of the vector `(1, 2)` is the
zero matrix, with `0`, not `1`, at `(0, 0)`. -/
theorem diagonal_of_values_evaluated (u4 : Matrix4 ℤ) :
    Matrix.get2 (Matrix4.diagonal_vector u4 (Vector4.mk 1 2 3 4)) 0 0 (by decide) = 1
    ∧ Matrix.get2 (Matrix4.diagonal_vector u4 (Vector4.mk 1 2 3 4)) 1 1 (by decide) = 2
    ∧ Matrix.get2 (Matrix4.diagonal_vector u4 (Vector4.mk 1 2 3 4)) 2 2 (by decide) = 3
    ∧ Matrix.get2 (Matrix4.diagonal_vector u4 (Vector4.mk 1 2 3 4)) 3 3 (by decide) = 0
    ∧ (Matrix2.diagonal ![1, 2] : Matrix2 ℤ) = Tensor.fill 0
    ∧ (Matrix2.diagonal_vector (Vector2.mk 1 2) : Matrix2 ℤ) = Tensor.fill 0
    ∧ Matrix.get2 (Matrix2.diagonal ![1, 2] : Matrix2 ℤ) 0 0 (by decide) = 0 :=
  ⟨rfl, rfl, rfl, rfl, rfl, rfl, rfl⟩

/-- What holds of C17: `Matrix3::diagonal(s)` has `s` at every `(i, i)` and
zero elsewhere, and `Matrix3::identity()` has `1` there. -/
theorem matrix3_diagonal_scalar_sound {T : Type} [Zero T] [One T] (u : Matrix3 T) (s : T)
    (i j : Fin 3) :
    Matrix.get2 (Matrix3.diagonal_scalar u s) i j (Matrix.offset_lt i.isLt j.isLt)
        = (if i = j then s else 0)
    ∧ Matrix.get2 (Matrix3.identity u) i j (Matrix.offset_lt i.isLt j.isLt)
        = (if i = j then 1 else 0) := by
  fin_cases i <;> fin_cases j <;> exact ⟨rfl, rfl⟩

/-- The elements of `Matrix4::diagonal(s)`: `s` at `(0,0)`, `(1,1)`, `(2,2)`, and
zero everywhere else, `(3,3)` included. -/
theorem matrix4_diagonal_scalar_get2 {T : Type} [Zero T] (u : Matrix4 T) (s : T)
    (i j : Fin 4) :
    Matrix.get2 (Matrix4.diagonal_scalar u s) i j (Matrix.offset_lt i.isLt j.isLt)
      = if i = j ∧ i.val < 3 then s else 0 := by
  fin_cases i <;> fin_cases j <;> rfl

/-- C17, evaluated on the code. `Matrix4<int>::diagonal(5)` has `5` at `(0,0)`,
`(1,1)`, `(2,2)` and `0` at `(3,3)`, and `Matrix4<int>::identity()` has `0`, not
`1`, at `(3,3)`. -/
theorem matrix4_diagonal_scalar_evaluated (u : Matrix4 ℤ) :
    Matrix.get2 (Matrix4.diagonal_scalar u 5) 0 0 (by decide) = 5
    ∧ Matrix.get2 (Matrix4.diagonal_scalar u 5) 1 1 (by decide) = 5
    ∧ Matrix.get2 (Matrix4.diagonal_scalar u 5) 2 2 (by decide) = 5
    ∧ Matrix.get2 (Matrix4.diagonal_scalar u 5) 3 3 (by decide) = 0
    ∧ Matrix.get2 (Matrix4.identity u) 2 2 (by decide) = 1
    ∧ Matrix.get2 (Matrix4.identity u) 3 3 (by decide) = 0 :=
  ⟨rfl, rfl, rfl, rfl, rfl, rfl⟩

/-- What holds of C18: the three overloads of `Matrix3::anti_diagonal`, and
`Matrix4::anti_diagonal` given a scalar or a vector, return the matrix with the
`i`-th value at `(i, N-1-i)` and zero elsewhere. -/
theorem anti_diagonal_sound {T : Type} [Zero T] (u3 : Matrix3 T) (u4 : Matrix4 T)
    (values3 : Fin 3 → T) (vec3 : Vector T 3) (vec4 : Vector T 4) (s : T) :
    (∀ i j : Fin 3,
        Matrix.get2 (Matrix3.anti_diagonal u3 values3) i j (Matrix.offset_lt i.isLt j.isLt)
          = if j.val = 3 - 1 - i.val then values3 i else 0)
    ∧ (∀ i j : Fin 3,
        Matrix.get2 (Matrix3.anti_diagonal_vector u3 vec3) i j
            (Matrix.offset_lt i.isLt j.isLt)
          = if j.val = 3 - 1 - i.val then vec3.elems_ i else 0)
    ∧ (∀ i j : Fin 3,
        Matrix.get2 (Matrix3.anti_diagonal_scalar u3 s) i j (Matrix.offset_lt i.isLt j.isLt)
          = if j.val = 3 - 1 - i.val then s else 0)
    ∧ (∀ i j : Fin 4,
        Matrix.get2 (Matrix4.anti_diagonal_vector u4 vec4) i j
            (Matrix.offset_lt i.isLt j.isLt)
          = if j.val = 4 - 1 - i.val then vec4.elems_ i else 0)
    ∧ (∀ i j : Fin 4,
        Matrix.get2 (Matrix4.anti_diagonal_scalar u4 s) i j (Matrix.offset_lt i.isLt j.isLt)
          = if j.val = 4 - 1 - i.val then s else 0) := by
  refine ⟨?_, ?_, ?_, ?_, ?_⟩ <;> intro i j <;> fin_cases i <;> fin_cases j <;> rfl

/-- C18, evaluated on the code. `Matrix4::anti_diagonal` given an array calls
itself with the same four values: however deep the calls may go, no matrix is
returned. -/
theorem matrix4_anti_diagonal_array_never_returns {T : Type} (fuel : Nat)
    (values : Fin 4 → T) : Matrix4.anti_diagonal fuel values = none := by
  induction fuel generalizing values with
  | zero => rfl
  | succ n ih => exact ih _

/-! ## The square specializations: transposition -/

/-- What holds of C13: for `Matrix2` and `Matrix3`, transposing twice with the
type's own `transpose()` gives the matrix back, element for element. -/
theorem transpose_twice_sound {T : Type} (u2 v2 m2 : Matrix2 T) (u3 v3 m3 : Matrix3 T) :
    (Matrix2.transpose v2 (Matrix2.transpose u2 m2).result).result = m2
    ∧ (Matrix3.transpose v3 (Matrix3.transpose u3 m3).result).result = m3 := by
  constructor
  · apply Tensor.ext_elems
    intro p
    match p with
    | ⟨0, _⟩ => rfl
    | ⟨1, _⟩ => rfl
    | ⟨2, _⟩ => rfl
    | ⟨3, _⟩ => rfl
  · apply Tensor.ext_elems
    intro p
    match p with
    | ⟨0, _⟩ => rfl
    | ⟨1, _⟩ => rfl
    | ⟨2, _⟩ => rfl
    | ⟨3, _⟩ => rfl
    | ⟨4, _⟩ => rfl
    | ⟨5, _⟩ => rfl
    | ⟨6, _⟩ => rfl
    | ⟨7, _⟩ => rfl
    | ⟨8, _⟩ => rfl

/-- C13, evaluated on the code. `Matrix4::transpose()` returns the zero matrix
for every matrix, so the double transpose of `Matrix4<int>(1)`, the matrix of
ones, is the zero matrix: its element `(0, 0)` is `0` where the matrix has `1`. -/
theorem matrix4_transpose_twice_evaluated :
    (∀ m : Matrix4 ℤ, (Matrix4.transpose m).result = Tensor.fill 0)
    ∧ (Matrix4.transpose (Matrix4.transpose (Tensor.fill 1 : Matrix4 ℤ)).result).result
        = Tensor.fill 0
    ∧ Matrix.get2
        (Matrix4.transpose (Matrix4.transpose (Tensor.fill 1 : Matrix4 ℤ)).result).result
        0 0 (by decide) = 0
    ∧ Matrix.get2 (Tensor.fill 1 : Matrix4 ℤ) 0 0 (by decide) = 1 :=
  ⟨fun _ => rfl, rfl, rfl, rfl⟩

/-! ## Negation and equality -/

/-- `Matrix::operator-()` leaves every element as it was: `std::ranges::for_each`
discards what `std::negate` returns. -/
theorem matrix_neg_eq_self {T : Type} [Neg T] {Rows Cols : Nat} (m : Matrix T Rows Cols) :
    Matrix.neg m = m := rfl

/-- C14, evaluated on the code. For the 2×2 `Matrix<int>` filled with `5`, `-m`
is `m` itself: its element `(0, 0)` is `5`, not `-5`. -/
theorem matrix_neg_evaluated :
    Matrix.neg (Tensor.fill 5 : Matrix ℤ 2 2) = Tensor.fill 5
    ∧ Matrix.get2 (Matrix.neg (Tensor.fill 5 : Matrix ℤ 2 2)) 0 0 (by decide) = 5
    ∧ Matrix.get2 (Matrix.neg (Tensor.fill 5 : Matrix ℤ 2 2)) 0 0 (by decide)
        ≠ -Matrix.get2 (Tensor.fill 5 : Matrix ℤ 2 2) 0 0 (by decide) :=
  ⟨rfl, rfl, by decide⟩

/-- Equality of the storage compares element by element with the element
type's `==`. -/
theorem elems_eq_iff {T : Type} [BEq T] {Dims : List Nat} (a b : Tensor T Dims) :
    Tensor.elems_eq a b = true ↔ ∀ i, (a.elems_ i == b.elems_ i) = true := by
  simp [Tensor.elems_eq, List.all_eq_true]

/-- What holds of C15: for `Vector`, `Vector2`, `Vector3`, `Vector4`, `Matrix`,
`Matrix2` and `Matrix4`, `a == b` is true if and only if `a[i] == b[i]` for every
flat index `i`. -/
theorem eq_elementwise_sound {T : Type} [BEq T] {N R C : Nat} (a b : Vector T N)
    (a2 b2 : Vector2 T) (a3 b3 : Vector3 T) (a4 b4 : Vector4 T) (m n : Matrix T R C)
    (m2 n2 : Matrix2 T) (m4 n4 : Matrix4 T) :
    (Vector.eq a b = true ↔ ∀ i, (a.elems_ i == b.elems_ i) = true)
    ∧ (Vector2.eq a2 b2 = true ↔ ∀ i, (a2.elems_ i == b2.elems_ i) = true)
    ∧ (Vector3.eq a3 b3 = true ↔ ∀ i, (a3.elems_ i == b3.elems_ i) = true)
    ∧ (Vector4.eq a4 b4 = true ↔ ∀ i, (a4.elems_ i == b4.elems_ i) = true)
    ∧ (Matrix.eq m n = true ↔ ∀ i, (m.elems_ i == n.elems_ i) = true)
    ∧ (Matrix2.eq m2 n2 = true ↔ ∀ i, (m2.elems_ i == n2.elems_ i) = true)
    ∧ (Matrix4.eq m4 n4 = true ↔ ∀ i, (m4.elems_ i == n4.elems_ i) = true) :=
  ⟨elems_eq_iff a b, elems_eq_iff a2 b2, elems_eq_iff a3 b3, elems_eq_iff a4 b4,
    elems_eq_iff m n, elems_eq_iff m2 n2, elems_eq_iff m4 n4⟩

/-- C15, evaluated on the code. `operator==` of `Matrix3` is false for every pair
of matrices; for `M = Matrix3<int>(1)`, `M == M` is false although every element
of `M` equals itself. -/
theorem matrix3_eq_evaluated :
    (∀ a b : Matrix3 ℤ, Matrix3.eq a b = false)
    ∧ Matrix3.eq (Tensor.fill 1 : Matrix3 ℤ) (Tensor.fill 1) = false
    ∧ (∀ i, ((Tensor.fill 1 : Matrix3 ℤ).elems_ i == (Tensor.fill 1 : Matrix3 ℤ).elems_ i)
        = true) :=
  ⟨fun _ _ => rfl, rfl, fun _ => by simp⟩

/-! ## Multiplication by the identity -/

/-- What holds of C11: for every `Matrix3` over a semiring, `M * identity()` is
`M`, element for element. -/
theorem matrix3_mul_identity {T : Type} [Semiring T] (u : Matrix3 T) (m : Matrix3 T) :
    Matrix.mul m (Matrix3.identity u) = m := by
  have hI : ∀ k j : Fin 3,
      Matrix.get2 (Matrix3.identity u) k j (Matrix.offset_lt k.isLt j.isLt)
        = if k = j then 1 else 0 := fun k j => (matrix3_diagonal_scalar_sound u 1 k j).2
  have hcell : ∀ i j : Fin 3,
      (Matrix.mul m (Matrix3.identity u)).elems_ ⟨i * 3 + j, Matrix.offset_lt i.isLt j.isLt⟩
        = m.elems_ ⟨i * 3 + j, Matrix.offset_lt i.isLt j.isLt⟩ := by
    intro i j
    rw [Matrix.mul_elems]
    have hunroll : ∀ f : Fin 3 → T,
        (List.finRange 3).foldl (fun acc k => acc + f k) 0 = 0 + f 0 + f 1 + f 2 :=
      fun _ => rfl
    rw [hunroll, hI, hI, hI]
    fin_cases j <;> simp [Matrix.get2]
  apply Tensor.ext_elems
  intro p
  match p with
  | ⟨0, _⟩ => exact hcell 0 0
  | ⟨1, _⟩ => exact hcell 0 1
  | ⟨2, _⟩ => exact hcell 0 2
  | ⟨3, _⟩ => exact hcell 1 0
  | ⟨4, _⟩ => exact hcell 1 1
  | ⟨5, _⟩ => exact hcell 1 2
  | ⟨6, _⟩ => exact hcell 2 0
  | ⟨7, _⟩ => exact hcell 2 1
  | ⟨8, _⟩ => exact hcell 2 2

/-- C11, evaluated on the code. For `M = Matrix4<int>(1)`, the matrix of ones,
the element `(0, 3)` of `M * identity()` is `0` where `M` has `1`:
`Matrix4::identity()` has `0` at `(3, 3)`. -/
theorem matrix4_mul_identity_evaluated (u : Matrix4 ℤ) :
    Matrix.get2 (Matrix.mul (Tensor.fill 1 : Matrix4 ℤ) (Matrix4.identity u)) 0 3 (by decide)
        = 0
    ∧ Matrix.get2 (Tensor.fill 1 : Matrix4 ℤ) 0 3 (by decide) = 1
    ∧ Matrix.mul (Tensor.fill 1 : Matrix4 ℤ) (Matrix4.identity u) ≠ Tensor.fill 1 := by
  have h03 : Matrix.get2 (Matrix.mul (Tensor.fill 1 : Matrix4 ℤ) (Matrix4.identity u)) 0 3
      (by decide) = 0 :=
    (Matrix.mul_elems (Tensor.fill 1 : Matrix4 ℤ) (Matrix4.identity u) 0 3).trans rfl
  refine ⟨h03, rfl, ?_⟩
  intro h
  rw [h] at h03
  exact absurd h03 (by decide)

/-! ## Determinant -/

/-- An accumulation of zeros from zero is zero. -/
theorem foldl_add_zero {ι K : Type} [AddMonoid K] (l : List ι) (f : ι → K)
    (h : ∀ x ∈ l, f x = 0) : l.foldl (fun acc x => acc + f x) 0 = 0 := by
  induction l with
  | nil => rfl
  | cons x xs ih =>
    simp only [List.foldl_cons]
    rw [h x (List.mem_cons_self x xs), add_zero]
    exact ih (fun y hy => h y (List.mem_cons_of_mem x hy))

/-- The Laplace expansion of a matrix with a zero row is zero. -/
theorem laplace_zero_row {K : Type} [Ring K] (n : Nat) (a : Fin n → Fin n → K) (r : Fin n)
    (h : ∀ c, a r c = 0) : Matrix.laplace n a = 0 := by
  induction n with
  | zero => exact r.elim0
  | succ n ih =>
    unfold Matrix.laplace
    apply foldl_add_zero
    intro j _
    rcases Fin.eq_zero_or_eq_succ r with h0 | ⟨r2, hr2⟩
    · rw [← h0, h j, mul_zero, zero_mul]
    · rw [ih (fun r c => a r.succ (j.succAbove c)) r2
        (fun c => by show a r2.succ _ = 0; rw [← hr2]; exact h _), mul_zero]

/-- The Laplace expansion along the first row is the determinant of Mathlib,
so it matches the standard formulas of every size. -/
theorem laplace_eq_det {K : Type} [CommRing K] (n : Nat) (a : Fin n → Fin n → K) :
    Matrix.laplace n a = Matrix.det (Matrix.of a) := by
  induction n with
  | zero => simp [Matrix.laplace]
  | succ n ih =>
    rw [Matrix.det_succ_row_zero, Fin.sum_univ_def, List.sum_eq_foldl, List.foldl_map]
    unfold Matrix.laplace
    congr 1
    funext acc j
    rw [ih]
    rfl

/-- The spec-modelled determinant of a 2×2 matrix is `a*d - b*c`. -/
theorem determinant_two {K : Type} [CommRing K] (m : Matrix K 2 2) :
    Matrix.determinant m
      = Matrix.get2 m 0 0 (by decide) * Matrix.get2 m 1 1 (by decide)
        - Matrix.get2 m 0 1 (by decide) * Matrix.get2 m 1 0 (by decide) := by
  rw [Matrix.determinant, laplace_eq_det, Matrix.det_fin_two]
  rfl

/-- C19. With `determinant()` the Laplace expansion the specification asks for,
the determinant of `Matrix3::identity()` is `1`, and the determinant of every
square matrix with an all-zero row is `0`. -/
theorem determinant_identity_and_zero_row {K : Type} [Ring K] :
    (∀ u : Matrix3 K, Matrix.determinant (Matrix3.identity u) = 1)
    ∧ (∀ (N : Nat) (m : Matrix K N N) (r : Fin N),
        (∀ c : Fin N, Matrix.get2 m r c (Matrix.offset_lt r.isLt c.isLt) = 0) →
        Matrix.determinant m = 0) := by
  constructor
  · intro u
    have hI : ∀ k j : Fin 3,
        Matrix.get2 (Matrix3.identity u) k j (Matrix.offset_lt k.isLt j.isLt)
          = if k = j then 1 else 0 := fun k j => (matrix3_diagonal_scalar_sound u 1 k j).2
    have h3 : ∀ f : Fin 3 → K,
        (List.finRange 3).foldl (fun acc j => acc + f j) 0 = 0 + f 0 + f 1 + f 2 :=
      fun _ => rfl
    have h2 : ∀ f : Fin 2 → K,
        (List.finRange 2).foldl (fun acc j => acc + f j) 0 = 0 + f 0 + f 1 := fun _ => rfl
    have h1 : ∀ f : Fin 1 → K,
        (List.finRange 1).foldl (fun acc j => acc + f j) 0 = 0 + f 0 := fun _ => rfl
    simp only [Matrix.determinant, Matrix.laplace, h3, h2, h1, hI]
    simp +decide
  · intro N m r h
    exact laplace_zero_row N _ r h

/-- C19 at a concrete input: the 3×3 matrix `((1, 2, 3), (0, 0, 0), (4, 5, 6))`,
whose middle row is zero, has determinant `0`. -/
theorem determinant_identity_and_zero_row_witness :
    Matrix.determinant (Tensor.of_array ![1, 2, 3, 0, 0, 0, 4, 5, 6] : Matrix ℤ 3 3) = 0 :=
  determinant_identity_and_zero_row.2 3
    (Tensor.of_array ![1, 2, 3, 0, 0, 0, 4, 5, 6] : Matrix ℤ 3 3) 1
    (fun c => by fin_cases c <;> rfl)

/-! ## Inner product and squared magnitude -/

/-- With the identity for the conversion to `double`, `dot_double` and
`magnitude_squared_double` are `dot` and `magnitude_squared`. -/
theorem dot_double_id {T : Type} [Zero T] [Add T] [Mul T] {N : Nat} (a b : Vector T N) :
    Vector.dot_double id a b = Vector.dot a b
    ∧ Vector.magnitude_squared_double id a = Vector.magnitude_squared a :=
  ⟨rfl, rfl⟩

/-- If no step of an accumulation in the element type changes under the
conversion (the converted new accumulator is the converted old one plus the
converted term), the converted total is the accumulation of the converted
terms. -/
theorem to_double_foldl_steps {ι T D : Type} [Add T] [Add D] (to_double : T → D)
    (f : ι → T) (l : List ι) (acc : T)
    (hstep : ∀ (k : Nat) (hk : k < l.length),
      to_double ((l.take k).foldl (fun acc i => acc + f i) acc + f (l.get ⟨k, hk⟩))
        = to_double ((l.take k).foldl (fun acc i => acc + f i) acc)
          + to_double (f (l.get ⟨k, hk⟩))) :
    to_double (l.foldl (fun acc i => acc + f i) acc)
      = l.foldl (fun acc i => acc + to_double (f i)) (to_double acc) := by
  induction l generalizing acc with
  | nil => rfl
  | cons x xs ih =>
    simp only [List.foldl_cons]
    have h0 := hstep 0 (Nat.succ_pos _)
    simp only [List.take_zero, List.foldl_nil] at h0
    rw [ih (acc + f x) (fun k hk => hstep (k + 1) (Nat.succ_lt_succ hk))]
    congr 1

/-- An accumulation of `unsigned int` terms from a value below `2 ^ 32` holds
the exact sum reduced modulo `2 ^ 32`. -/
theorem unsigned_foldl_val {ι : Type} (f : ι → unsigned_int) (l : List ι) (acc : unsigned_int)
    (hacc : acc.val < 2 ^ 32) :
    (l.foldl (fun acc i => acc + f i) acc).val
      = (acc.val + (l.map (fun i => (f i).val)).sum) % 2 ^ 32 := by
  induction l generalizing acc with
  | nil =>
    simp only [List.foldl_nil, List.map_nil, List.sum_nil, Nat.add_zero]
    exact (Nat.mod_eq_of_lt hacc).symm
  | cons x xs ih =>
    simp only [List.foldl_cons, List.map_cons, List.sum_cons]
    have hval : (acc + f x).val = (acc.val + (f x).val) % 2 ^ 32 := rfl
    rw [ih (acc + f x) (by rw [hval]; exact Nat.mod_lt _ (by norm_num)), hval,
      Nat.mod_add_mod, Nat.add_assoc]

/-- An accumulation in `double` of converted natural numbers holds their exact
sum. -/
theorem double_foldl_cast {ι : Type} (g : ι → Nat) (l : List ι) (acc : ℚ) :
    l.foldl (fun acc i => acc + (g i : ℚ)) acc = acc + ((l.map g).sum : ℕ) := by
  induction l generalizing acc with
  | nil => simp
  | cons x xs ih =>
    simp only [List.foldl_cons, List.map_cons, List.sum_cons]
    rw [ih]
    push_cast
    ring

/-- Within the non-negative range of `int`, the reduction changes nothing. -/
theorem signed_wrap_of_range (x : ℤ) (h0 : 0 ≤ x) (h1 : x < 2 ^ 31) :
    signed_int.wrap x = x := by
  unfold signed_int.wrap
  rw [Int.emod_eq_of_lt (by omega) (by omega)]
  omega

/-- An accumulation of `int` terms that are non-negative values `p i`, from a
non-negative value and with a total below `2 ^ 31`, never overflows and holds
the exact sum; each term holds `p i`. -/
theorem signed_foldl_val {ι : Type} (f : ι → signed_int) (p : ι → ℤ)
    (hp : ∀ i, 0 ≤ p i) (hf : ∀ i, (f i).val = signed_int.wrap (p i)) (l : List ι)
    (acc : signed_int) (hacc : 0 ≤ acc.val) (hsum : acc.val + (l.map p).sum < 2 ^ 31) :
    (l.foldl (fun acc i => acc + f i) acc).val = acc.val + (l.map p).sum
    ∧ l.map (fun i => (f i).val) = l.map p := by
  induction l generalizing acc with
  | nil => simp
  | cons x xs ih =>
    simp only [List.foldl_cons, List.map_cons, List.sum_cons] at hsum ⊢
    have hxs : 0 ≤ (xs.map p).sum :=
      List.sum_nonneg (fun y hy => by
        obtain ⟨i, _, rfl⟩ := List.mem_map.mp hy
        exact hp i)
    have hfx : (f x).val = p x := by
      rw [hf x]
      exact signed_wrap_of_range _ (hp x) (by have := hp x; omega)
    have hval : (acc + f x).val = acc.val + p x := by
      show signed_int.wrap (acc.val + (f x).val) = acc.val + p x
      rw [hfx]
      exact signed_wrap_of_range _ (by have := hp x; omega) (by omega)
    obtain ⟨h1, h2⟩ := ih (acc + f x) (by rw [hval]; have := hp x; omega)
      (by rw [hval]; omega)
    refine ⟨?_, ?_⟩
    · rw [h1, hval]
      ring
    · rw [hfx, h2]

/-- An accumulation in `double` of converted integers holds their exact sum. -/
theorem double_foldl_cast_int {ι : Type} (g : ι → ℤ) (l : List ι) (acc : ℚ) :
    l.foldl (fun acc i => acc + (g i : ℚ)) acc = acc + ((l.map g).sum : ℤ) := by
  induction l generalizing acc with
  | nil => simp
  | cons x xs ih =>
    simp only [List.foldl_cons, List.map_cons, List.sum_cons]
    rw [ih]
    push_cast
    ring

/-- C20 as the code has it.  `dot` accumulates the products in the element type and
converts the total to `double`; `magnitude_squared` converts every product and
accumulates in `double`.  (1) For any element type and conversion: if the
conversion takes `T {}` to `0` and no addition of the accumulation of `dot`
wraps or rounds (the converted new accumulator is the converted old one plus
the converted product), then `dot(v, v) == magnitude_squared(v)`.  (2) For the
element type `double`, where the conversion is the identity, the two are always
equal.  (3) For `unsigned int` the two are equal if and only if the sum of the
products, each reduced modulo `2 ^ 32`, is below `2 ^ 32`.  (4) For `int` the
two are equal whenever the exact sum of the squares is below `2 ^ 31`, that is
whenever no product and no addition overflows. -/
theorem dot_self_eq_magnitude_squared :
    (∀ (T D : Type) [Zero T] [Add T] [Mul T] [Zero D] [Add D] (N : Nat) (to_double : T → D)
        (v : Vector T N),
      to_double 0 = 0 →
      (∀ (k : Nat) (hk : k < N),
        to_double (Vector.dot_prefix v v k + v.elems_ ⟨k, hk⟩ * v.elems_ ⟨k, hk⟩)
          = to_double (Vector.dot_prefix v v k)
            + to_double (v.elems_ ⟨k, hk⟩ * v.elems_ ⟨k, hk⟩)) →
      Vector.dot_double to_double v v = Vector.magnitude_squared_double to_double v)
    ∧ (∀ (T : Type) [Zero T] [Add T] [Mul T] (N : Nat) (v : Vector T N),
      Vector.dot_double id v v = Vector.magnitude_squared_double id v)
    ∧ (∀ (N : Nat) (v : Vector unsigned_int N),
      Vector.dot_double unsigned_int.to_double v v
          = Vector.magnitude_squared_double unsigned_int.to_double v
        ↔ ((List.finRange N).map
            (fun i => ((v.elems_ i).val * (v.elems_ i).val) % 2 ^ 32)).sum < 2 ^ 32)
    ∧ (∀ (N : Nat) (v : Vector signed_int N),
      ((List.finRange N).map (fun i => (v.elems_ i).val * (v.elems_ i).val)).sum < 2 ^ 31 →
      Vector.dot_double signed_int.to_double v v
        = Vector.magnitude_squared_double signed_int.to_double v) := by
  refine ⟨?_, ?_, ?_, ?_⟩
  · intro T D _ _ _ _ _ N to_double v hzero hstep
    unfold Vector.dot_double Vector.dot Vector.magnitude_squared_double
    rw [to_double_foldl_steps to_double (fun i => v.elems_ i * v.elems_ i) (List.finRange N) 0,
      hzero]
    intro k hk
    have hkN : k < N := by simpa using hk
    have hget : (List.finRange N).get ⟨k, hk⟩ = ⟨k, hkN⟩ := by simp
    rw [hget]
    exact hstep k hkN
  · intro T _ _ _ N v
    rfl
  · intro N v
    have hdot : Vector.dot_double unsigned_int.to_double v v
        = ((((List.finRange N).map
            (fun i => ((v.elems_ i).val * (v.elems_ i).val) % 2 ^ 32)).sum % 2 ^ 32 : ℕ) : ℚ) := by
      unfold Vector.dot_double Vector.dot unsigned_int.to_double
      rw [unsigned_foldl_val (fun i => v.elems_ i * v.elems_ i) (List.finRange N) 0
        (by show (0 : Nat) < 2 ^ 32; norm_num)]
      have h0 : (0 : unsigned_int).val = 0 := rfl
      rw [h0, Nat.zero_add]
      rfl
    have hmag : Vector.magnitude_squared_double unsigned_int.to_double v
        = ((((List.finRange N).map
            (fun i => ((v.elems_ i).val * (v.elems_ i).val) % 2 ^ 32)).sum : ℕ) : ℚ) := by
      unfold Vector.magnitude_squared_double unsigned_int.to_double
      have h := double_foldl_cast (fun i => (v.elems_ i * v.elems_ i).val) (List.finRange N) 0
      rw [zero_add] at h
      exact h
    rw [hdot, hmag, Nat.cast_inj]
    constructor
    · intro h
      rw [← h]
      exact Nat.mod_lt _ (by norm_num)
    · intro h
      exact Nat.mod_eq_of_lt h
  · intro N v hsum
    obtain ⟨h1, h2⟩ := signed_foldl_val (fun i => v.elems_ i * v.elems_ i)
      (fun i => (v.elems_ i).val * (v.elems_ i).val) (fun i => mul_self_nonneg _)
      (fun i => rfl) (List.finRange N) 0 (le_refl _)
      (by rw [show (0 : signed_int).val = 0 from rfl, zero_add]; exact hsum)
    have hdot : Vector.dot_double signed_int.to_double v v
        = ((((List.finRange N).map
            (fun i => (v.elems_ i).val * (v.elems_ i).val)).sum : ℤ) : ℚ) := by
      unfold Vector.dot_double Vector.dot signed_int.to_double
      rw [h1, show (0 : signed_int).val = 0 from rfl, zero_add]
    have hmag : Vector.magnitude_squared_double signed_int.to_double v
        = ((((List.finRange N).map
            (fun i => (v.elems_ i).val * (v.elems_ i).val)).sum : ℤ) : ℚ) := by
      unfold Vector.magnitude_squared_double signed_int.to_double
      have h := double_foldl_cast_int (fun i => (v.elems_ i * v.elems_ i).val)
        (List.finRange N) 0
      rw [zero_add, h2] at h
      exact h
    rw [hdot, hmag]

/-- C20 as the code has it, at concrete inputs.  By (3), for the
`Vector<unsigned int, 2>` `(3, 4)` the sum of the products is `25` and
`dot(v, v) == magnitude_squared(v)`.  By (4), the same holds for the
`Vector<int, 2>` `(-3, 4)`.  By (1), it holds for the `Vector<unsigned int, 2>`
`(65535, 1)`, where the accumulator of `dot` goes `0`, `4294836225`,
`4294836226` without wrapping. -/
theorem dot_self_eq_magnitude_squared_witness :
    (((List.finRange 2).map
        (fun i => (((Vector2.mk ⟨3⟩ ⟨4⟩ : Vector unsigned_int 2).elems_ i).val
          * ((Vector2.mk ⟨3⟩ ⟨4⟩ : Vector unsigned_int 2).elems_ i).val) % 2 ^ 32)).sum = 25
      ∧ Vector.dot_double unsigned_int.to_double
          (Vector2.mk ⟨3⟩ ⟨4⟩ : Vector unsigned_int 2) (Vector2.mk ⟨3⟩ ⟨4⟩)
        = Vector.magnitude_squared_double unsigned_int.to_double
          (Vector2.mk ⟨3⟩ ⟨4⟩ : Vector unsigned_int 2))
    ∧ (((List.finRange 2).map
        (fun i => ((Vector2.mk ⟨-3⟩ ⟨4⟩ : Vector signed_int 2).elems_ i).val
          * ((Vector2.mk ⟨-3⟩ ⟨4⟩ : Vector signed_int 2).elems_ i).val)).sum = 25
      ∧ Vector.dot_double signed_int.to_double
          (Vector2.mk ⟨-3⟩ ⟨4⟩ : Vector signed_int 2) (Vector2.mk ⟨-3⟩ ⟨4⟩)
        = Vector.magnitude_squared_double signed_int.to_double
          (Vector2.mk ⟨-3⟩ ⟨4⟩ : Vector signed_int 2))
    ∧ Vector.dot_double unsigned_int.to_double
        (Vector2.mk ⟨65535⟩ ⟨1⟩ : Vector unsigned_int 2) (Vector2.mk ⟨65535⟩ ⟨1⟩)
      = Vector.magnitude_squared_double unsigned_int.to_double
        (Vector2.mk ⟨65535⟩ ⟨1⟩ : Vector unsigned_int 2) :=
  ⟨⟨by decide,
    (dot_self_eq_magnitude_squared.2.2.1 2 (Vector2.mk ⟨3⟩ ⟨4⟩)).mpr (by decide)⟩,
   ⟨by decide,
    dot_self_eq_magnitude_squared.2.2.2 2 (Vector2.mk ⟨-3⟩ ⟨4⟩) (by decide)⟩,
   dot_self_eq_magnitude_squared.1 unsigned_int ℚ 2 unsigned_int.to_double
     (Vector2.mk ⟨65535⟩ ⟨1⟩)
     (by norm_num [unsigned_int.to_double, show (0 : unsigned_int).val = 0 from rfl])
     (fun k hk => by
        have h0 : Vector.dot_prefix (Vector2.mk ⟨65535⟩ ⟨1⟩ : Vector unsigned_int 2)
            (Vector2.mk ⟨65535⟩ ⟨1⟩) 0 = ⟨0⟩ := by decide
        have h1 : Vector.dot_prefix (Vector2.mk ⟨65535⟩ ⟨1⟩ : Vector unsigned_int 2)
            (Vector2.mk ⟨65535⟩ ⟨1⟩) 1 = ⟨4294836225⟩ := by decide
        have e0 : (Vector2.mk ⟨65535⟩ ⟨1⟩ : Vector unsigned_int 2).elems_ ⟨0, by decide⟩
            = ⟨65535⟩ := rfl
        have e1 : (Vector2.mk ⟨65535⟩ ⟨1⟩ : Vector unsigned_int 2).elems_ ⟨1, by decide⟩
            = ⟨1⟩ := rfl
        have m0 : (⟨65535⟩ : unsigned_int) * ⟨65535⟩ = ⟨4294836225⟩ := by decide
        have m1 : (⟨1⟩ : unsigned_int) * ⟨1⟩ = ⟨1⟩ := by decide
        have a0 : (⟨0⟩ : unsigned_int) + ⟨4294836225⟩ = ⟨4294836225⟩ := by decide
        have a1 : (⟨4294836225⟩ : unsigned_int) + ⟨1⟩ = ⟨4294836226⟩ := by decide
        match k, hk with
        | 0, _ => rw [h0, e0, m0, a0]; norm_num [unsigned_int.to_double]
        | 1, _ => rw [h1, e1, m1, a1]; norm_num [unsigned_int.to_double])⟩

/-- C20 refuted as stated. For the `Vector<unsigned int, 2>` `(60000, 60000)`
each product is `3600000000`, which fits 32 bits; `dot(v, v)` adds the two
modulo `2 ^ 32` and is `2905032704`, while `magnitude_squared(v)` adds them in
`double` and is `7200000000`. -/
theorem dot_self_ne_magnitude_squared_unsigned :
    Vector.dot_double unsigned_int.to_double
        (Vector2.mk ⟨60000⟩ ⟨60000⟩ : Vector unsigned_int 2) (Vector2.mk ⟨60000⟩ ⟨60000⟩)
      = 2905032704
    ∧ Vector.magnitude_squared_double unsigned_int.to_double
        (Vector2.mk ⟨60000⟩ ⟨60000⟩ : Vector unsigned_int 2)
      = 7200000000
    ∧ Vector.dot_double unsigned_int.to_double
        (Vector2.mk ⟨60000⟩ ⟨60000⟩ : Vector unsigned_int 2) (Vector2.mk ⟨60000⟩ ⟨60000⟩)
      ≠ Vector.magnitude_squared_double unsigned_int.to_double
        (Vector2.mk ⟨60000⟩ ⟨60000⟩ : Vector unsigned_int 2) := by
  have hdot : Vector.dot (Vector2.mk ⟨60000⟩ ⟨60000⟩ : Vector unsigned_int 2)
      (Vector2.mk ⟨60000⟩ ⟨60000⟩) = ⟨2905032704⟩ := by decide
  have hsq : (⟨60000⟩ : unsigned_int) * ⟨60000⟩ = ⟨3600000000⟩ := by decide
  have h1 : Vector.dot_double unsigned_int.to_double
      (Vector2.mk ⟨60000⟩ ⟨60000⟩ : Vector unsigned_int 2) (Vector2.mk ⟨60000⟩ ⟨60000⟩)
      = 2905032704 := by
    unfold Vector.dot_double
    rw [hdot]
    norm_num [unsigned_int.to_double]
  have h2 : Vector.magnitude_squared_double unsigned_int.to_double
      (Vector2.mk ⟨60000⟩ ⟨60000⟩ : Vector unsigned_int 2) = 7200000000 := by
    have hunroll : Vector.magnitude_squared_double unsigned_int.to_double
        (Vector2.mk ⟨60000⟩ ⟨60000⟩ : Vector unsigned_int 2)
        = 0 + unsigned_int.to_double ((⟨60000⟩ : unsigned_int) * ⟨60000⟩)
          + unsigned_int.to_double ((⟨60000⟩ : unsigned_int) * ⟨60000⟩) := rfl
    rw [hunroll, hsq]
    norm_num [unsigned_int.to_double]
  refine ⟨h1, h2, ?_⟩
  rw [h1, h2]
  norm_num

/-! ## Cross product -/

/-- With a lawful `==` on the elements, the storage comparison of a tensor with
itself is true. -/
theorem elems_eq_refl {T : Type} [BEq T] [LawfulBEq T] {Dims : List Nat} (a : Tensor T Dims) :
    Tensor.elems_eq a a = true := by
  simp [Tensor.elems_eq, List.all_eq_true]

/-- Zero has no significant bit, so it rounds to zero. -/
theorem float_round_magnitude_zero (s : Nat) : float.round_magnitude 0 s = 0 := by
  have hb : float.bit_length 0 = 0 := rfl
  have hpos : 1 <<< s ≠ 0 := by
    rw [Nat.one_shiftLeft]
    exact (Nat.two_pow_pos s).ne.symm
  simp only [float.round_magnitude, hb, Nat.zero_sub, Nat.zero_max, Nat.zero_shiftRight,
    Nat.zero_shiftLeft, Nat.sub_zero, Nat.mul_zero, Nat.not_lt_zero, false_or]
  rw [if_neg (fun h => hpos h.1.symm)]
  simp

/-- Rounding is odd: the rounded `-n` is the negated rounded `n`. -/
theorem float_round_neg (n : ℤ) (s : Nat) : float.round (-n) s = float.neg (float.round n s) := by
  rcases lt_trichotomy n 0 with hn | hn | hn
  · have h1 : ¬ (-n < 0) := by omega
    simp only [float.round, Int.natAbs_neg, hn, h1, decide_True, decide_False, if_true, if_false]
    split <;> simp [float.neg]
  · subst hn
    simp [float.round, float_round_magnitude_zero, float.neg]
  · have h1 : -n < 0 := by omega
    have h2 : ¬ (n < 0) := by omega
    simp only [float.round, Int.natAbs_neg, h1, h2, decide_True, decide_False, if_true, if_false]
    split <;> simp [float.neg]

/-- Negating twice gives the value back. -/
theorem float_neg_neg (x : float) : float.neg (float.neg x) = x := by
  cases x <;> simp [float.neg]

/-- Negation distributes over `+`. -/
theorem float_neg_add (x y : float) :
    float.neg (float.add x y) = float.add (float.neg x) (float.neg y) := by
  cases x with
  | finite k1 =>
    cases y with
    | finite k2 =>
      show float.neg (float.round (k1 + k2) 0) = float.round (-k1 + -k2) 0
      rw [← float_round_neg]
      congr 1
      ring
    | inf b => simp [float.add, float.neg]
    | nan => simp [float.add, float.neg]
  | inf a =>
    cases y with
    | finite k2 => simp [float.add, float.neg]
    | inf b => cases a <;> cases b <;> simp [float.add, float.neg]
    | nan => simp [float.add, float.neg]
  | nan => cases y <;> simp [float.add, float.neg]

/-- The subtraction the other way round is the negated subtraction. -/
theorem float_sub_swap (x y : float) : float.sub y x = float.neg (float.sub x y) := by
  unfold float.sub
  rw [float_neg_add, float_neg_neg]
  cases x with
  | finite k1 =>
    cases y with
    | finite k2 =>
      simp only [float.add, float.neg]
      congr 1
      ring
    | inf b => simp [float.add, float.neg]
    | nan => simp [float.add, float.neg]
  | inf a =>
    cases y with
    | finite k2 => simp [float.add, float.neg]
    | inf b => cases a <;> cases b <;> simp [float.add, float.neg]
    | nan => simp [float.add, float.neg]
  | nan => cases y <;> simp [float.add, float.neg]

/-- The product does not depend on the order of the operands. -/
theorem float_mul_comm (x y : float) : float.mul x y = float.mul y x := by
  cases x with
  | finite k1 =>
    cases y with
    | finite k2 => simp only [float.mul]; rw [Int.mul_comm]
    | inf b => cases b <;> simp [float.mul]
    | nan => simp [float.mul]
  | inf a =>
    cases y with
    | finite k2 => cases a <;> simp [float.mul]
    | inf b => cases a <;> cases b <;> simp [float.mul]
    | nan => simp [float.mul]
  | nan => cases y <;> simp [float.mul]

/-- On `float`, `x == x` is true unless `x` is NaN. -/
theorem float_beq_self (x : float) : (x == x) = true ↔ x ≠ float.nan := by
  cases x <;> simp [BEq.beq, float.beq]

/-- One component of `cross(u, v)` and of `-cross(v, u)`: with the products
taken in either order, `(a - b) + 0` and `-((b - a) + 0)` are the same. -/
theorem float_cross_component (a b a2 b2 : float) (ha : a2 = a) (hb : b2 = b) :
    -(b2 - a2 + 0) = a - b + (0 : float) := by
  subst ha hb
  show float.neg (float.add (float.sub b2 a2) (float.finite 0))
    = float.add (float.sub a2 b2) (float.finite 0)
  rw [float_neg_add, float_sub_swap a2 b2, float_neg_neg]
  simp [float.neg]

/-- Over `float`, `cross(u, v)` and `-cross(v, u)` hold the same three results. -/
theorem float_cross_eq_neg_cross (u v : Vector3 float) :
    Vector3.neg (Vector3.cross v u) = Vector3.cross u v := by
  apply Vector3.ext3
  · rw [Vector3.get_x_neg, Vector3.get_x_cross, Vector3.get_x_cross]
    exact float_cross_component _ _ _ _ (float_mul_comm _ _) (float_mul_comm _ _)
  · rw [Vector3.get_y_neg, Vector3.get_y_cross, Vector3.get_y_cross]
    exact float_cross_component _ _ _ _ (float_mul_comm _ _) (float_mul_comm _ _)
  · rw [Vector3.get_z_neg, Vector3.get_z_cross, Vector3.get_z_cross]
    exact float_cross_component _ _ _ _ (float_mul_comm _ _) (float_mul_comm _ _)

/-- The storage comparison of a `Vector3<float>` with itself is true exactly
when no component is NaN. -/
theorem float_vector3_eq_self (a : Vector3 float) :
    Vector3.eq a a = true ↔
      Vector3.get_x a ≠ float.nan ∧ Vector3.get_y a ≠ float.nan
        ∧ Vector3.get_z a ≠ float.nan := by
  unfold Vector3.eq
  rw [elems_eq_iff]
  simp only [float_beq_self]
  constructor
  · intro h
    exact ⟨h ⟨0, by decide⟩, h ⟨1, by decide⟩, h ⟨2, by decide⟩⟩
  · intro h i
    match i with
    | ⟨0, _⟩ => exact h.1
    | ⟨1, _⟩ => exact h.2.1
    | ⟨2, _⟩ => exact h.2.2

/-- C21 as the code has it.  Over a commutative ring (exact arithmetic, and wrapping
integer arithmetic) `cross(u, v)` has the components
`(u.y*v.z - u.z*v.y, u.z*v.x - u.x*v.z, u.x*v.y - u.y*v.x)` and
`cross(u, v) == -cross(v, u)` is true.  Over `float`, `cross(u, v)` and
`-cross(v, u)` hold the same three results, each `a*b - c*d + 0` as coded, and
`cross(u, v) == -cross(v, u)` is true if and only if no component of
`cross(u, v)` is NaN. -/
theorem cross_anticommutative :
    (∀ (T : Type) [CommRing T] [DecidableEq T] (u v : Vector3 T),
      Vector3.get_x (Vector3.cross u v)
          = Vector3.get_y u * Vector3.get_z v - Vector3.get_z u * Vector3.get_y v
      ∧ Vector3.get_y (Vector3.cross u v)
          = Vector3.get_z u * Vector3.get_x v - Vector3.get_x u * Vector3.get_z v
      ∧ Vector3.get_z (Vector3.cross u v)
          = Vector3.get_x u * Vector3.get_y v - Vector3.get_y u * Vector3.get_x v
      ∧ Vector3.cross u v = Vector3.neg (Vector3.cross v u)
      ∧ Vector3.eq (Vector3.cross u v) (Vector3.neg (Vector3.cross v u)) = true)
    ∧ (∀ u v : Vector3 float,
      Vector3.get_x (Vector3.cross u v)
          = Vector3.get_y u * Vector3.get_z v - Vector3.get_z u * Vector3.get_y v + 0
      ∧ Vector3.get_y (Vector3.cross u v)
          = Vector3.get_z u * Vector3.get_x v - Vector3.get_x u * Vector3.get_z v + 0
      ∧ Vector3.get_z (Vector3.cross u v)
          = Vector3.get_x u * Vector3.get_y v - Vector3.get_y u * Vector3.get_x v + 0
      ∧ Vector3.cross u v = Vector3.neg (Vector3.cross v u)
      ∧ (Vector3.eq (Vector3.cross u v) (Vector3.neg (Vector3.cross v u)) = true ↔
          Vector3.get_x (Vector3.cross u v) ≠ float.nan
            ∧ Vector3.get_y (Vector3.cross u v) ≠ float.nan
            ∧ Vector3.get_z (Vector3.cross u v) ≠ float.nan)) := by
  constructor
  · intro T _ _ u v
    have heq : Vector3.cross u v = Vector3.neg (Vector3.cross v u) := by
      apply Vector3.ext3 <;>
        simp only [Vector3.get_x_neg, Vector3.get_y_neg, Vector3.get_z_neg, Vector3.get_x_cross,
          Vector3.get_y_cross, Vector3.get_z_cross] <;>
        ring
    refine ⟨?_, ?_, ?_, heq, ?_⟩
    · rw [Vector3.get_x_cross, add_zero]
    · rw [Vector3.get_y_cross, add_zero]
    · rw [Vector3.get_z_cross, add_zero]
    · rw [← heq]
      exact elems_eq_refl _
  · intro u v
    refine ⟨rfl, rfl, rfl, (float_cross_eq_neg_cross u v).symm, ?_⟩
    rw [float_cross_eq_neg_cross u v]
    exact float_vector3_eq_self _

set_option maxRecDepth 8192 in
/-- C21 as the code has it, at concrete inputs: for the `Vector3<int>` values `(1, 2, 3)`
and `(4, 5, 6)` the comparison is true, and for the `Vector3<float>` values
`(1, 2, 3)` and `(4, 5, 6)`, whose cross product `(-3, 6, -3)` has no NaN, it is
true as well. -/
theorem cross_anticommutative_witness :
    Vector3.eq (Vector3.cross (Vector3.mk (1 : ℤ) 2 3) (Vector3.mk 4 5 6))
        (Vector3.neg (Vector3.cross (Vector3.mk 4 5 6) (Vector3.mk (1 : ℤ) 2 3))) = true
    ∧ Vector3.cross (Vector3.mk (float.of_int 1) (float.of_int 2) (float.of_int 3))
          (Vector3.mk (float.of_int 4) (float.of_int 5) (float.of_int 6))
        = Vector3.mk (float.of_int (-3)) (float.of_int 6) (float.of_int (-3))
    ∧ Vector3.eq
        (Vector3.cross (Vector3.mk (float.of_int 1) (float.of_int 2) (float.of_int 3))
          (Vector3.mk (float.of_int 4) (float.of_int 5) (float.of_int 6)))
        (Vector3.neg
          (Vector3.cross (Vector3.mk (float.of_int 4) (float.of_int 5) (float.of_int 6))
            (Vector3.mk (float.of_int 1) (float.of_int 2) (float.of_int 3)))) = true :=
  ⟨(cross_anticommutative.1 ℤ (Vector3.mk 1 2 3) (Vector3.mk 4 5 6)).2.2.2.2,
   by decide,
   (cross_anticommutative.2 (Vector3.mk (float.of_int 1) (float.of_int 2) (float.of_int 3))
      (Vector3.mk (float.of_int 4) (float.of_int 5) (float.of_int 6))).2.2.2.2.mpr
      ⟨by decide, by decide, by decide⟩⟩

set_option maxRecDepth 8192 in
/-- C21 refuted as stated.  For the `Vector3<float>` `u = v = (1e20f, 1e20f, 0)`:
`1e20f` is `100000002004087734272`, the product `1e20f * 1e20f` overflows to
`+inf`, the `z` component of `cross(u, v)` is `inf - inf`, a NaN, the `x` and
`y` components are `0`, and `cross(u, v) == -cross(v, u)` is false. -/
theorem cross_float_nan_not_anticommutative :
    float.of_int (10 ^ 20) = float.finite (100000002004087734272 * 2 ^ 149)
    ∧ float.of_int (10 ^ 20) * float.of_int (10 ^ 20) = float.inf false
    ∧ Vector3.cross (Vector3.mk (float.of_int (10 ^ 20)) (float.of_int (10 ^ 20)) 0)
          (Vector3.mk (float.of_int (10 ^ 20)) (float.of_int (10 ^ 20)) 0)
        = Vector3.mk 0 0 float.nan
    ∧ Vector3.neg
          (Vector3.cross (Vector3.mk (float.of_int (10 ^ 20)) (float.of_int (10 ^ 20)) 0)
            (Vector3.mk (float.of_int (10 ^ 20)) (float.of_int (10 ^ 20)) 0))
        = Vector3.mk 0 0 float.nan
    ∧ Vector3.eq
        (Vector3.cross (Vector3.mk (float.of_int (10 ^ 20)) (float.of_int (10 ^ 20)) 0)
          (Vector3.mk (float.of_int (10 ^ 20)) (float.of_int (10 ^ 20)) 0))
        (Vector3.neg
          (Vector3.cross (Vector3.mk (float.of_int (10 ^ 20)) (float.of_int (10 ^ 20)) 0)
            (Vector3.mk (float.of_int (10 ^ 20)) (float.of_int (10 ^ 20)) 0))) = false := by
  refine ⟨by decide, by decide, by decide, by decide, by decide⟩

/-- C22. Over a commutative ring, `dot(u, cross(u, v))` is exactly zero. -/
theorem dot_cross_self_zero {T : Type} [CommRing T] (u v : Vector3 T) :
    Vector.dot u (Vector3.cross u v) = 0 := by
  rw [Vector3.dot_eq, Vector3.get_x_cross, Vector3.get_y_cross, Vector3.get_z_cross]
  ring

/-! ## Ordering of vectors -/

/-- Every named-axis factory of the generic `Vector<T, N>` that takes no argument
returns the vector of ones: `zero()` fills with `1` and the axis slot is then set
to `1`. -/
theorem vector_axis_all_ones {T : Type} [One T] {N : Nat} (axis : Dimension)
    (h : axis.index < N) : (Vector.get_axis_vector axis h : Vector T N) = Tensor.fill 1 := by
  apply Tensor.ext_elems
  intro i
  simp only [Vector.get_axis_vector, Vector.zero, Tensor.set, Tensor.fill]
  split_ifs <;> rfl

/-- C24, evaluated on the code. For `Vector<int, 2>`, `zero()` is `(1, 1)`,
`x_axis()` and `y_axis()` are `(1, 1)` where the claim has `(1, 0)` and
`(0, 1)`, and for `vec = (5, 7)`, `x_axis(vec)` is `(5, 1)` and `y_axis(vec)` is
`(1, 7)` where the claim has `(5, 0)` and `(0, 7)`. -/
theorem vector_axis_evaluated :
    (Vector.zero : Vector ℤ 2) = Vector2.mk 1 1
    ∧ (Vector.x_axis (by decide) : Vector ℤ 2) = Vector2.mk 1 1
    ∧ (Vector.y_axis (by decide) : Vector ℤ 2) = Vector2.mk 1 1
    ∧ Vector.x_axis_of (by decide) (Vector2.mk (5 : ℤ) 7) = Vector2.mk 5 1
    ∧ Vector.y_axis_of (by decide) (Vector2.mk (5 : ℤ) 7) = Vector2.mk 1 7
    ∧ (Vector.x_axis (by decide) : Vector ℤ 2) ≠ Vector2.mk 1 0 := by
  refine ⟨by decide, by decide, by decide, by decide, by decide, by decide⟩

/-! ## Addition and subtraction -/

/-- Addition of `Vector2`, `Vector3`, `Vector4` and `Matrix` values over a
commutative group commutes, and subtracting what was added gives the value
back. -/
theorem add_comm_sub_cancel {T : Type} [AddCommGroup T] {R C : Nat} (a2 b2 : Vector2 T)
    (a3 b3 : Vector3 T) (a4 b4 : Vector4 T) (m n : Matrix T R C) :
    (Vector2.add a2 b2 = Vector2.add b2 a2 ∧ Vector2.sub (Vector2.add a2 b2) b2 = a2)
    ∧ (Vector3.add a3 b3 = Vector3.add b3 a3 ∧ Vector3.sub (Vector3.add a3 b3) b3 = a3)
    ∧ (Vector4.add a4 b4 = Vector4.add b4 a4 ∧ Vector4.sub (Vector4.add a4 b4) b4 = a4)
    ∧ (Matrix.add m n = Matrix.add n m ∧ Matrix.sub (Matrix.add m n) n = m) := by
  refine ⟨⟨?_, ?_⟩, ⟨?_, ?_⟩, ⟨?_, ?_⟩, ⟨?_, ?_⟩⟩
  · apply Tensor.ext_elems
    intro i
    match i with
    | ⟨0, _⟩ => exact add_comm _ _
    | ⟨1, _⟩ => exact add_comm _ _
  · apply Tensor.ext_elems
    intro i
    match i with
    | ⟨0, _⟩ => exact add_sub_cancel_right _ _
    | ⟨1, _⟩ => exact add_sub_cancel_right _ _
  · apply Tensor.ext_elems
    intro i
    match i with
    | ⟨0, _⟩ => exact add_comm _ _
    | ⟨1, _⟩ => exact add_comm _ _
    | ⟨2, _⟩ => exact add_comm _ _
  · apply Tensor.ext_elems
    intro i
    match i with
    | ⟨0, _⟩ => exact add_sub_cancel_right _ _
    | ⟨1, _⟩ => exact add_sub_cancel_right _ _
    | ⟨2, _⟩ => exact add_sub_cancel_right _ _
  · apply Tensor.ext_elems
    intro i
    match i with
    | ⟨0, _⟩ => exact add_comm _ _
    | ⟨1, _⟩ => exact add_comm _ _
    | ⟨2, _⟩ => exact add_comm _ _
    | ⟨3, _⟩ => exact add_comm _ _
  · apply Tensor.ext_elems
    intro i
    match i with
    | ⟨0, _⟩ => exact add_sub_cancel_right _ _
    | ⟨1, _⟩ => exact add_sub_cancel_right _ _
    | ⟨2, _⟩ => exact add_sub_cancel_right _ _
    | ⟨3, _⟩ => exact add_sub_cancel_right _ _
  · apply Tensor.ext_elems
    intro i
    exact add_comm _ _
  · apply Tensor.ext_elems
    intro i
    exact add_sub_cancel_right _ _

/-- C25. For `Vector2`, `Vector3`, `Vector4` and `Matrix` values over an element
type whose addition forms a commutative group (the integers, and the integers
modulo `2 ^ w` of wrapping machine arithmetic), `A + B == B + A` and
`(A + B) - B == A` hold with the types' exact `operator==`. -/
theorem add_comm_sub_cancel_eq {T : Type} [AddCommGroup T] [DecidableEq T] {R C : Nat}
    (a2 b2 : Vector2 T) (a3 b3 : Vector3 T) (a4 b4 : Vector4 T) (m n : Matrix T R C) :
    (Vector2.eq (Vector2.add a2 b2) (Vector2.add b2 a2) = true
      ∧ Vector2.eq (Vector2.sub (Vector2.add a2 b2) b2) a2 = true)
    ∧ (Vector3.eq (Vector3.add a3 b3) (Vector3.add b3 a3) = true
      ∧ Vector3.eq (Vector3.sub (Vector3.add a3 b3) b3) a3 = true)
    ∧ (Vector4.eq (Vector4.add a4 b4) (Vector4.add b4 a4) = true
      ∧ Vector4.eq (Vector4.sub (Vector4.add a4 b4) b4) a4 = true)
    ∧ (Matrix.eq (Matrix.add m n) (Matrix.add n m) = true
      ∧ Matrix.eq (Matrix.sub (Matrix.add m n) n) m = true) := by
  obtain ⟨⟨h1, h2⟩, ⟨h3, h4⟩, ⟨h5, h6⟩, ⟨h7, h8⟩⟩ :=
    add_comm_sub_cancel a2 b2 a3 b3 a4 b4 m n
  refine ⟨⟨?_, ?_⟩, ⟨?_, ?_⟩, ⟨?_, ?_⟩, ⟨?_, ?_⟩⟩
  · rw [h1]; exact elems_eq_refl _
  · rw [h2]; exact elems_eq_refl _
  · rw [h3]; exact elems_eq_refl _
  · rw [h4]; exact elems_eq_refl _
  · rw [h5]; exact elems_eq_refl _
  · rw [h6]; exact elems_eq_refl _
  · rw [h7]; exact elems_eq_refl _
  · rw [h8]; exact elems_eq_refl _

/-! ## Angle–axis encoding -/

/-- Over the reals, a `Vector3` other than the zero vector has a positive squared
magnitude. -/
theorem magnitude_squared_pos_of_ne_zero (v : Vector3 ℝ) (h : v ≠ Vector3.zero) :
    0 < Vector.magnitude_squared v := by
  rw [Vector3.magnitude_squared_eq]
  by_contra hle
  have hx := mul_self_nonneg (Vector3.get_x v)
  have hy := mul_self_nonneg (Vector3.get_y v)
  have hz := mul_self_nonneg (Vector3.get_z v)
  have hx0 : Vector3.get_x v * Vector3.get_x v = 0 := by linarith
  have hy0 : Vector3.get_y v * Vector3.get_y v = 0 := by linarith
  have hz0 : Vector3.get_z v * Vector3.get_z v = 0 := by linarith
  apply h
  apply Vector3.ext3
  · rw [Vector3.get_x_zero]; exact mul_self_eq_zero.mp hx0
  · rw [Vector3.get_y_zero]; exact mul_self_eq_zero.mp hy0
  · rw [Vector3.get_z_zero]; exact mul_self_eq_zero.mp hz0

/-- C26. Over the reals, for a quaternion `q` with nonzero imaginary part,
`to_unit_norm()` reads the stored real value as degrees,
`theta = q.real * pi / 180`, and yields `real = cos(theta / 2)` and
`imag = sin(theta / 2) * (imag / |imag|)`; `unit_norm()` returns the same value;
for `Quaternion(axis, angle)` the `theta` so read is the radian value of
`angle`; and the result has `norm_squared` equal to `1`. -/
theorem to_unit_norm_encodes_angle_axis (q : Quaternion ℝ) (h : q.imag ≠ Vector3.zero) :
    (Quaternion.to_unit_norm ⟨Real.sqrt, Real.cos, Real.sin, Real.pi⟩ q).real
        = Real.cos (q.real * (Real.pi / 180) / 2)
    ∧ Vector3.get_x (Quaternion.to_unit_norm ⟨Real.sqrt, Real.cos, Real.sin, Real.pi⟩ q).imag
        = Real.sin (q.real * (Real.pi / 180) / 2)
          * (Vector3.get_x q.imag
              / Vector.norm ⟨Real.sqrt, Real.cos, Real.sin, Real.pi⟩ q.imag)
    ∧ Vector3.get_y (Quaternion.to_unit_norm ⟨Real.sqrt, Real.cos, Real.sin, Real.pi⟩ q).imag
        = Real.sin (q.real * (Real.pi / 180) / 2)
          * (Vector3.get_y q.imag
              / Vector.norm ⟨Real.sqrt, Real.cos, Real.sin, Real.pi⟩ q.imag)
    ∧ Vector3.get_z (Quaternion.to_unit_norm ⟨Real.sqrt, Real.cos, Real.sin, Real.pi⟩ q).imag
        = Real.sin (q.real * (Real.pi / 180) / 2)
          * (Vector3.get_z q.imag
              / Vector.norm ⟨Real.sqrt, Real.cos, Real.sin, Real.pi⟩ q.imag)
    ∧ Quaternion.unit_norm ⟨Real.sqrt, Real.cos, Real.sin, Real.pi⟩ q
        = Quaternion.to_unit_norm ⟨Real.sqrt, Real.cos, Real.sin, Real.pi⟩ q
    ∧ (∀ (axis : Vector3 ℝ) (angle : Angle ℝ),
        (Quaternion.of_vector_angle ⟨Real.sqrt, Real.cos, Real.sin, Real.pi⟩ axis angle).real
            * (Real.pi / 180) = angle.radians_)
    ∧ Quaternion.norm_squared
        (Quaternion.to_unit_norm ⟨Real.sqrt, Real.cos, Real.sin, Real.pi⟩ q) = 1 := by
  have hpos := magnitude_squared_pos_of_ne_zero q.imag h
  have hms := Vector3.magnitude_squared_eq q.imag
  have hhalf : q.real * (Real.pi / 180) * 0.5 = q.real * (Real.pi / 180) / 2 := by
    norm_num
    ring
  have hn : Real.sqrt (Vector.magnitude_squared q.imag)
      * Real.sqrt (Vector.magnitude_squared q.imag) = Vector.magnitude_squared q.imag :=
    Real.mul_self_sqrt (le_of_lt hpos)
  have hn0 : Real.sqrt (Vector.magnitude_squared q.imag) ≠ 0 :=
    (Real.sqrt_pos.mpr hpos).ne'
  refine ⟨?_, ?_, ?_, ?_, rfl, ?_, ?_⟩
  · simp only [Quaternion.to_unit_norm, Angle.from_Degrees, Degrees.to_radians,
      Degrees.radian_coversion_coef, hhalf]
  · simp only [Quaternion.to_unit_norm, Angle.from_Degrees, Degrees.to_radians,
      Degrees.radian_coversion_coef, hhalf, Vector3.normalize, Outcome.state,
      Vector3.get_x_mul_assign_scalar]
    ring
  · simp only [Quaternion.to_unit_norm, Angle.from_Degrees, Degrees.to_radians,
      Degrees.radian_coversion_coef, hhalf, Vector3.normalize, Outcome.state,
      Vector3.get_y_mul_assign_scalar]
    ring
  · simp only [Quaternion.to_unit_norm, Angle.from_Degrees, Degrees.to_radians,
      Degrees.radian_coversion_coef, hhalf, Vector3.normalize, Outcome.state,
      Vector3.get_z_mul_assign_scalar]
    ring
  · intro axis angle
    have hc : Real.pi / 180 ≠ 0 := div_ne_zero Real.pi_ne_zero (by norm_num)
    simp only [Quaternion.of_vector_angle, Degrees.from_radians, Degrees.radian_coversion_coef]
    exact div_mul_cancel₀ _ hc
  · simp only [Quaternion.norm_squared, Quaternion.to_unit_norm, Angle.from_Degrees,
      Degrees.to_radians, Degrees.radian_coversion_coef, hhalf, Vector3.normalize,
      Outcome.state, Vector3.dot_eq, Vector3.get_x_mul_assign_scalar,
      Vector3.get_y_mul_assign_scalar, Vector3.get_z_mul_assign_scalar, Vector.norm,
      Vector.magnitude]
    have hsc := Real.sin_sq_add_cos_sq (q.real * (Real.pi / 180) / 2)
    have hinv : 1 / Real.sqrt (Vector.magnitude_squared q.imag)
        * (1 / Real.sqrt (Vector.magnitude_squared q.imag))
        * Vector.magnitude_squared q.imag = 1 := by
      rw [← hn]
      field_simp
    have hsplit : ∀ n s c x y z : ℝ,
        0 + x * (1 / n) * s * (x * (1 / n) * s) + y * (1 / n) * s * (y * (1 / n) * s)
            + z * (1 / n) * s * (z * (1 / n) * s) + c * c
          = s ^ 2 * (1 / n * (1 / n) * (0 + x * x + y * y + z * z)) + c ^ 2 := by
      intro n s c x y z
      ring
    rw [hsplit, ← hms, hinv, mul_one]
    exact hsc

/-- C26 at a concrete input: the quaternion with imaginary part `(0, 0, 2)` and
real part `90` has a nonzero imaginary part, and its `to_unit_norm()` has
`norm_squared` equal to `1`. -/
theorem to_unit_norm_encodes_angle_axis_witness :
    (⟨Vector3.mk 0 0 2, 90⟩ : Quaternion ℝ).imag ≠ Vector3.zero
    ∧ Quaternion.norm_squared
        (Quaternion.to_unit_norm ⟨Real.sqrt, Real.cos, Real.sin, Real.pi⟩
          (⟨Vector3.mk 0 0 2, 90⟩ : Quaternion ℝ)) = 1 := by
  have hne : (⟨Vector3.mk 0 0 2, 90⟩ : Quaternion ℝ).imag ≠ Vector3.zero := by
    intro h
    have hz := congrArg Vector3.get_z h
    simp at hz
  exact ⟨hne, (to_unit_norm_encodes_angle_axis _ hne).2.2.2.2.2.2⟩

/-! ## Totality of the quaternion operations -/

/-- C27. Quaternion multiplication and addition return a quaternion for all
operands, and `Quaternion::rotate` returns a vector for every vector, angle and
axis, the zero axis included: no call throws. -/
theorem quaternion_operations_total {K : Type} [Field K] (m : CMath K) (p q : Quaternion K)
    (vec : Vector3 K) (angle : Angle K) (axis : Vector3 K) :
    (∃ r, Quaternion.mul p q = r)
    ∧ (∃ r, Quaternion.add p q = r)
    ∧ (∃ r, Quaternion.rotate m vec angle axis = .ok r)
    ∧ (∃ r, Quaternion.rotate m vec angle Vector3.zero = .ok r) :=
  ⟨⟨_, rfl⟩, ⟨_, rfl⟩, ⟨_, rfl⟩, ⟨_, rfl⟩⟩

/-! ## Unit quaternions -/

/-- With decidable equality on the elements, the storage comparison is true
exactly on equal tensors. -/
theorem elems_eq_iff_eq {T : Type} [DecidableEq T] {Dims : List Nat} (a b : Tensor T Dims) :
    Tensor.elems_eq a b = true ↔ a = b := by
  rw [elems_eq_iff]
  constructor
  · intro h
    exact Tensor.ext_elems (fun i => by simpa using h i)
  · intro h i
    rw [h]
    simp

/-- `operator==` on quaternions is true exactly on equal quaternions. -/
theorem quaternion_eq_iff {K : Type} [Field K] [DecidableEq K] (p q : Quaternion K) :
    Quaternion.eq p q = true ↔ p = q := by
  unfold Quaternion.eq Vector3.eq
  rw [Bool.and_eq_true, elems_eq_iff_eq, beq_iff_eq]
  constructor
  · rintro ⟨h1, h2⟩
    cases p; cases q
    simp only at h1 h2
    rw [h1, h2]
  · intro h
    rw [h]
    exact ⟨rfl, rfl⟩

/-- Over the reals, a quaternion of nonzero norm has a positive squared norm,
whose square root times itself gives it back. -/
theorem norm_mul_self_of_ne_zero (q : Quaternion ℝ)
    (h : Quaternion.norm ⟨Real.sqrt, Real.cos, Real.sin, Real.pi⟩ q ≠ 0) :
    0 < Quaternion.norm_squared q
    ∧ Quaternion.norm ⟨Real.sqrt, Real.cos, Real.sin, Real.pi⟩ q
        * Quaternion.norm ⟨Real.sqrt, Real.cos, Real.sin, Real.pi⟩ q
      = Quaternion.norm_squared q := by
  have hpos : 0 < Quaternion.norm_squared q := Real.sqrt_ne_zero'.mp h
  exact ⟨hpos, Real.mul_self_sqrt (le_of_lt hpos)⟩

/-- Over the reals, `normalized()` of a quaternion of nonzero norm is the
quaternion with all four components multiplied by `1 / norm()`. -/
theorem normalized_of_ne_zero (q : Quaternion ℝ)
    (h : Quaternion.norm ⟨Real.sqrt, Real.cos, Real.sin, Real.pi⟩ q ≠ 0) :
    Quaternion.normalized ⟨Real.sqrt, Real.cos, Real.sin, Real.pi⟩ q
      = .ok ⟨Vector3.mul_assign_scalar q.imag
              (1 / Quaternion.norm ⟨Real.sqrt, Real.cos, Real.sin, Real.pi⟩ q),
            q.real * (1 / Quaternion.norm ⟨Real.sqrt, Real.cos, Real.sin, Real.pi⟩ q)⟩ := by
  simp [Quaternion.normalized, Quaternion.normalize, Outcome.toExcept, h]

/-- C28. Over the reals, for every quaternion `q` of nonzero norm,
`q.normalized()` returns a quaternion of norm exactly `1`. -/
theorem normalized_has_norm_one (q : Quaternion ℝ)
    (h : Quaternion.norm ⟨Real.sqrt, Real.cos, Real.sin, Real.pi⟩ q ≠ 0) :
    ∃ r, Quaternion.normalized ⟨Real.sqrt, Real.cos, Real.sin, Real.pi⟩ q = .ok r
      ∧ Quaternion.norm ⟨Real.sqrt, Real.cos, Real.sin, Real.pi⟩ r = 1 := by
  refine ⟨_, normalized_of_ne_zero q h, ?_⟩
  obtain ⟨hpos, hmul⟩ := norm_mul_self_of_ne_zero q h
  have hinv : 1 / Quaternion.norm ⟨Real.sqrt, Real.cos, Real.sin, Real.pi⟩ q
      * (1 / Quaternion.norm ⟨Real.sqrt, Real.cos, Real.sin, Real.pi⟩ q)
      * Quaternion.norm_squared q = 1 := by
    rw [← hmul]
    field_simp
  have hsplit : ∀ n x y z w : ℝ,
      0 + x * (1 / n) * (x * (1 / n)) + y * (1 / n) * (y * (1 / n))
          + z * (1 / n) * (z * (1 / n)) + w * (1 / n) * (w * (1 / n))
        = 1 / n * (1 / n) * (0 + x * x + y * y + z * z + w * w) := by
    intro n x y z w
    ring
  have hns : Quaternion.norm_squared q
      = 0 + Vector3.get_x q.imag * Vector3.get_x q.imag
        + Vector3.get_y q.imag * Vector3.get_y q.imag
        + Vector3.get_z q.imag * Vector3.get_z q.imag + q.real * q.real := by
    rw [Quaternion.norm_squared, Vector3.dot_eq]
  show Real.sqrt _ = 1
  rw [Vector3.dot_eq, Vector3.get_x_mul_assign_scalar, Vector3.get_y_mul_assign_scalar,
    Vector3.get_z_mul_assign_scalar, hsplit, ← hns, hinv, Real.sqrt_one]

/-- The norm of `Quaternion(1, 1, 1, 1)` over the reals is `2`. -/
theorem norm_of_ones :
    Quaternion.norm ⟨Real.sqrt, Real.cos, Real.sin, Real.pi⟩
      (Quaternion.of_floats (1 : ℝ) 1 1 1) = 2 := by
  have h4 : (0 : ℝ) + 1 * 1 + 1 * 1 + 1 * 1 + 1 * 1 = 2 ^ 2 := by norm_num
  show Real.sqrt _ = 2
  rw [Vector3.dot_eq]
  simp only [Quaternion.of_floats, Vector3.get_x_mk, Vector3.get_y_mk, Vector3.get_z_mk]
  rw [h4]
  exact Real.sqrt_sq (by norm_num)

/-- C28 at a concrete input: `Quaternion(1, 1, 1, 1)` has norm `2`, its
`normalized()` has norm `1`, and it is `(0.5, 0.5, 0.5, 0.5)`. -/
theorem normalized_has_norm_one_witness :
    Quaternion.norm ⟨Real.sqrt, Real.cos, Real.sin, Real.pi⟩
        (Quaternion.of_floats (1 : ℝ) 1 1 1) ≠ 0
    ∧ (∃ r, Quaternion.normalized ⟨Real.sqrt, Real.cos, Real.sin, Real.pi⟩
          (Quaternion.of_floats (1 : ℝ) 1 1 1) = .ok r
        ∧ Quaternion.norm ⟨Real.sqrt, Real.cos, Real.sin, Real.pi⟩ r = 1)
    ∧ Quaternion.normalized ⟨Real.sqrt, Real.cos, Real.sin, Real.pi⟩
          (Quaternion.of_floats (1 : ℝ) 1 1 1)
        = .ok (Quaternion.of_floats 0.5 0.5 0.5 0.5) := by
  have hne : Quaternion.norm ⟨Real.sqrt, Real.cos, Real.sin, Real.pi⟩
      (Quaternion.of_floats (1 : ℝ) 1 1 1) ≠ 0 := by
    rw [norm_of_ones]
    norm_num
  refine ⟨hne, normalized_has_norm_one _ hne, ?_⟩
  rw [normalized_of_ne_zero _ hne, norm_of_ones]
  congr 1
  apply Quaternion.ext4 <;> simp [Quaternion.of_floats] <;> norm_num

/-- C29. Over the reals, for every quaternion `q` of nonzero norm, `is_unit()`
returns, and it returns `true` if and only if `q` equals `q.normalized()`, which
holds if and only if `q.norm() == 1`. -/
theorem is_unit_iff_norm_one (q : Quaternion ℝ)
    (h : Quaternion.norm ⟨Real.sqrt, Real.cos, Real.sin, Real.pi⟩ q ≠ 0) :
    ∃ n, Quaternion.normalized ⟨Real.sqrt, Real.cos, Real.sin, Real.pi⟩ q = .ok n
      ∧ (Quaternion.is_unit ⟨Real.sqrt, Real.cos, Real.sin, Real.pi⟩ q = .ok true ↔ q = n)
      ∧ (Quaternion.is_unit ⟨Real.sqrt, Real.cos, Real.sin, Real.pi⟩ q = .ok false ↔ q ≠ n)
      ∧ (q = n ↔ Quaternion.norm ⟨Real.sqrt, Real.cos, Real.sin, Real.pi⟩ q = 1) := by
  refine ⟨_, normalized_of_ne_zero q h, ?_, ?_, ?_⟩
  · unfold Quaternion.is_unit
    rw [normalized_of_ne_zero q h]
    simp only [Except.ok.injEq]
    exact quaternion_eq_iff _ _
  · unfold Quaternion.is_unit
    rw [normalized_of_ne_zero q h]
    simp only [Except.ok.injEq, ne_eq]
    rw [← quaternion_eq_iff, Bool.not_eq_true]
  · obtain ⟨hpos, hmul⟩ := norm_mul_self_of_ne_zero q h
    have hns : Quaternion.norm_squared q
        = 0 + Vector3.get_x q.imag * Vector3.get_x q.imag
          + Vector3.get_y q.imag * Vector3.get_y q.imag
          + Vector3.get_z q.imag * Vector3.get_z q.imag + q.real * q.real := by
      rw [Quaternion.norm_squared, Vector3.dot_eq]
    constructor
    · intro heq
      have hx := congrArg (fun p : Quaternion ℝ => Vector3.get_x p.imag) heq
      have hy := congrArg (fun p : Quaternion ℝ => Vector3.get_y p.imag) heq
      have hz := congrArg (fun p : Quaternion ℝ => Vector3.get_z p.imag) heq
      have hw := congrArg Quaternion.real heq
      simp only [Vector3.get_x_mul_assign_scalar, Vector3.get_y_mul_assign_scalar,
        Vector3.get_z_mul_assign_scalar] at hx hy hz hw
      have hscale : Quaternion.norm_squared q
          = Quaternion.norm_squared q
            * (1 / Quaternion.norm ⟨Real.sqrt, Real.cos, Real.sin, Real.pi⟩ q) := by
        rw [hns]
        have e1 : ∀ x y z w t : ℝ, (0 + x * x + y * y + z * z + w * w) * t
            = 0 + x * (x * t) + y * (y * t) + z * (z * t) + w * (w * t) := by
          intro x y z w t
          ring
        rw [e1, ← hx, ← hy, ← hz, ← hw]
      have hone : 1 / Quaternion.norm ⟨Real.sqrt, Real.cos, Real.sin, Real.pi⟩ q = 1 := by
        have := mul_left_cancel₀ (ne_of_gt hpos) (hscale.symm.trans (mul_one _).symm)
        exact this
      exact ((div_eq_one_iff_eq h).mp hone).symm
    · intro h1
      rw [h1]
      apply Quaternion.ext4 <;> simp

/-- C29 at concrete inputs: over the reals `is_unit()` is true for
`Quaternion(0, 0, 0, 1)` and false for `Quaternion(4, 3, 2, 1)`. -/
theorem is_unit_iff_norm_one_witness :
    Quaternion.is_unit ⟨Real.sqrt, Real.cos, Real.sin, Real.pi⟩
        (Quaternion.of_floats (0 : ℝ) 0 0 1) = .ok true
    ∧ Quaternion.is_unit ⟨Real.sqrt, Real.cos, Real.sin, Real.pi⟩
        (Quaternion.of_floats (4 : ℝ) 3 2 1) = .ok false := by
  have hn1 : Quaternion.norm ⟨Real.sqrt, Real.cos, Real.sin, Real.pi⟩
      (Quaternion.of_floats (0 : ℝ) 0 0 1) = 1 := by
    show Real.sqrt _ = 1
    rw [Vector3.dot_eq]
    simp [Quaternion.of_floats]
  have hn2 : Quaternion.norm ⟨Real.sqrt, Real.cos, Real.sin, Real.pi⟩
      (Quaternion.of_floats (4 : ℝ) 3 2 1) = Real.sqrt 30 := by
    show Real.sqrt _ = Real.sqrt 30
    rw [Vector3.dot_eq]
    simp only [Quaternion.of_floats, Vector3.get_x_mk, Vector3.get_y_mk, Vector3.get_z_mk]
    norm_num
  have h2ne0 : Quaternion.norm ⟨Real.sqrt, Real.cos, Real.sin, Real.pi⟩
      (Quaternion.of_floats (4 : ℝ) 3 2 1) ≠ 0 := by
    rw [hn2]
    exact Real.sqrt_ne_zero'.mpr (by norm_num)
  have h2ne1 : Quaternion.norm ⟨Real.sqrt, Real.cos, Real.sin, Real.pi⟩
      (Quaternion.of_floats (4 : ℝ) 3 2 1) ≠ 1 := by
    rw [hn2]
    intro h
    have := Real.sqrt_eq_one.mp h
    norm_num at this
  constructor
  · obtain ⟨n, _, hT, _, hiff⟩ :=
      is_unit_iff_norm_one (Quaternion.of_floats (0 : ℝ) 0 0 1) (by rw [hn1]; norm_num)
    exact hT.mpr (hiff.mpr hn1)
  · obtain ⟨n, _, _, hF, hiff⟩ :=
      is_unit_iff_norm_one (Quaternion.of_floats (4 : ℝ) 3 2 1) h2ne0
    exact hF.mpr (fun e => h2ne1 (hiff.mp e))

/-! ## Conjugation -/

/-- C30. `q.conjugate()` has the components of `q.imag` negated and the real part
of `q`; it is a `const` member, a function of `q` alone. In particular
`Quaternion(1,1,1,1).conjugate() == Quaternion(-1,-1,-1,1)`, and the zero
quaternion is its own conjugate. -/
theorem conjugate_negates_imag {K : Type} [Field K] (q : Quaternion K) :
    Vector3.get_x (Quaternion.conjugate q).imag = -Vector3.get_x q.imag
    ∧ Vector3.get_y (Quaternion.conjugate q).imag = -Vector3.get_y q.imag
    ∧ Vector3.get_z (Quaternion.conjugate q).imag = -Vector3.get_z q.imag
    ∧ (Quaternion.conjugate q).real = q.real
    ∧ Quaternion.eq (Quaternion.conjugate (Quaternion.of_floats (1 : ℚ) 1 1 1))
        (Quaternion.of_floats (-1) (-1) (-1) 1) = true
    ∧ Quaternion.eq (Quaternion.conjugate (Quaternion.of_floats (0 : ℚ) 0 0 0))
        (Quaternion.of_floats 0 0 0 0) = true := by
  refine ⟨rfl, rfl, rfl, rfl, ?_, ?_⟩
  · rw [quaternion_eq_iff]
    apply Quaternion.ext4 <;> simp [Quaternion.conjugate, Quaternion.of_floats]
  · rw [quaternion_eq_iff]
    apply Quaternion.ext4 <;> simp [Quaternion.conjugate, Quaternion.of_floats]

/-! ## Sums and differences of quaternions -/

/-- C31. `p + q` and `p - q` act component by component on the imaginary and the
real part, `p += q` leaves `p` equal to `p + q` and `p -= q` leaves it equal to
`p - q`; in particular `(1,1,1,1) + (1,1,1,1) == (2,2,2,2)` and
`(1,1,1,1) - (1,1,1,1) == (0,0,0,0)`. -/
theorem quaternion_add_sub_componentwise {K : Type} [Field K] (p q : Quaternion K) :
    (Vector3.get_x (Quaternion.add p q).imag = Vector3.get_x p.imag + Vector3.get_x q.imag
      ∧ Vector3.get_y (Quaternion.add p q).imag = Vector3.get_y p.imag + Vector3.get_y q.imag
      ∧ Vector3.get_z (Quaternion.add p q).imag = Vector3.get_z p.imag + Vector3.get_z q.imag
      ∧ (Quaternion.add p q).real = p.real + q.real)
    ∧ (Vector3.get_x (Quaternion.sub p q).imag = Vector3.get_x p.imag - Vector3.get_x q.imag
      ∧ Vector3.get_y (Quaternion.sub p q).imag = Vector3.get_y p.imag - Vector3.get_y q.imag
      ∧ Vector3.get_z (Quaternion.sub p q).imag = Vector3.get_z p.imag - Vector3.get_z q.imag
      ∧ (Quaternion.sub p q).real = p.real - q.real)
    ∧ Quaternion.add_assign p q = Quaternion.add p q
    ∧ Quaternion.sub_assign p q = Quaternion.sub p q
    ∧ Quaternion.eq
        (Quaternion.add (Quaternion.of_floats (1 : ℚ) 1 1 1) (Quaternion.of_floats 1 1 1 1))
        (Quaternion.of_floats 2 2 2 2) = true
    ∧ Quaternion.eq
        (Quaternion.sub (Quaternion.of_floats (1 : ℚ) 1 1 1) (Quaternion.of_floats 1 1 1 1))
        (Quaternion.of_floats 0 0 0 0) = true := by
  refine ⟨⟨rfl, rfl, rfl, rfl⟩, ⟨rfl, rfl, rfl, rfl⟩, rfl, rfl, ?_, ?_⟩
  · rw [quaternion_eq_iff]
    apply Quaternion.ext4 <;> norm_num [Quaternion.add, Quaternion.of_floats]
  · rw [quaternion_eq_iff]
    apply Quaternion.ext4 <;> exact sub_self (1 : ℚ)

/-! ## Mutating and non-mutating forms -/

/-- C32. For a quaternion of nonzero norm, `normalize()` leaves the object equal
to the value `normalized()` returns; `to_pure()` leaves it equal to the value
`pure()` returns; and `pure()` keeps `imag`, has real part `0` and satisfies
`is_pure()`. `normalized()` and `pure()` are `const` members, functions of `q`
alone. -/
theorem mutating_forms_agree {K : Type} [Field K] [DecidableEq K] (m : CMath K)
    (q : Quaternion K) :
    (Quaternion.norm m q ≠ 0 →
        ∃ r, Quaternion.normalized m q = .ok r ∧ Quaternion.normalize m q = .returned r)
    ∧ Quaternion.to_pure q = Quaternion.pure q
    ∧ (Quaternion.pure q).imag = q.imag
    ∧ (Quaternion.pure q).real = 0
    ∧ Quaternion.is_pure (Quaternion.pure q) = true := by
  refine ⟨?_, rfl, rfl, rfl, ?_⟩
  · intro h
    simp [Quaternion.normalized, Quaternion.normalize, Outcome.toExcept, h]
  · simp [Quaternion.is_pure, Quaternion.pure]

/-- C32 at a concrete input: over the reals `Quaternion(1, 1, 1, 1)` has nonzero
norm, and `normalize()` leaves it equal to what `normalized()` returns. -/
theorem mutating_forms_agree_witness :
    Quaternion.norm ⟨Real.sqrt, Real.cos, Real.sin, Real.pi⟩
        (Quaternion.of_floats (1 : ℝ) 1 1 1) ≠ 0
    ∧ ∃ r, Quaternion.normalized ⟨Real.sqrt, Real.cos, Real.sin, Real.pi⟩
          (Quaternion.of_floats (1 : ℝ) 1 1 1) = .ok r
        ∧ Quaternion.normalize ⟨Real.sqrt, Real.cos, Real.sin, Real.pi⟩
          (Quaternion.of_floats (1 : ℝ) 1 1 1) = .returned r := by
  have hne : Quaternion.norm ⟨Real.sqrt, Real.cos, Real.sin, Real.pi⟩
      (Quaternion.of_floats (1 : ℝ) 1 1 1) ≠ 0 := by
    rw [norm_of_ones]
    norm_num
  exact ⟨hne, (mutating_forms_agree _ _).1 hne⟩

/-! ## Angle round trip -/

/-- C33. Over the reals, `Angle::as<Degrees>(Angle::from<Degrees>(x)) == x` for
every `x`: `from<Degrees>` stores `x * (pi / 180)` and `as<Degrees>` divides by
`pi / 180`. -/
theorem angle_degrees_round_trip (x : ℝ) :
    (Angle.from_Degrees ⟨Real.sqrt, Real.cos, Real.sin, Real.pi⟩ x).radians_
        = x * (Real.pi / 180)
    ∧ Angle.as_Degrees ⟨Real.sqrt, Real.cos, Real.sin, Real.pi⟩
        (Angle.from_Degrees ⟨Real.sqrt, Real.cos, Real.sin, Real.pi⟩ x).radians_ = x := by
  have hc : Real.pi / 180 ≠ 0 := div_ne_zero Real.pi_ne_zero (by norm_num)
  refine ⟨rfl, ?_⟩
  simp only [Angle.as_Degrees, Angle.from_Degrees, Degrees.from_radians, Degrees.to_radians,
    Degrees.radian_coversion_coef]
  exact mul_div_cancel_right₀ x hc

/-! ## Shape and size of a tensor -/

/-- In a field, the four components of `q.inverse()` are those of
`q.conjugate()` multiplied by `norm_squared(q)`. -/
theorem inverse_components {K : Type} [Field K] (q : Quaternion K) :
    Vector3.get_x (Quaternion.inverse q).imag
        = Quaternion.norm_squared q * Vector3.get_x (Quaternion.conjugate q).imag
    ∧ Vector3.get_y (Quaternion.inverse q).imag
        = Quaternion.norm_squared q * Vector3.get_y (Quaternion.conjugate q).imag
    ∧ Vector3.get_z (Quaternion.inverse q).imag
        = Quaternion.norm_squared q * Vector3.get_z (Quaternion.conjugate q).imag
    ∧ (Quaternion.inverse q).real
        = Quaternion.norm_squared q * (Quaternion.conjugate q).real := by
  refine ⟨?_, ?_, ?_, ?_⟩ <;>
    simp only [Quaternion.mul, Quaternion.mul_assign, Quaternion.inverse, Quaternion.conjugate,
      Quaternion.norm_squared, Vector3.dot_eq, Vector3.get_x_add, Vector3.get_y_add,
      Vector3.get_z_add, Vector3.get_x_mul_scalar, Vector3.get_y_mul_scalar,
      Vector3.get_z_mul_scalar, Vector3.get_x_scalar_mul, Vector3.get_y_scalar_mul,
      Vector3.get_z_scalar_mul, Vector3.get_x_cross, Vector3.get_y_cross, Vector3.get_z_cross,
      Vector3.get_x_neg, Vector3.get_y_neg, Vector3.get_z_neg] <;>
    ring

/-- A quaternion whose squared norm is `1` has its conjugate for `inverse()`. -/
theorem inverse_eq_conjugate_of_unit {K : Type} [Field K] (q : Quaternion K)
    (h : Quaternion.norm_squared q = 1) : Quaternion.inverse q = Quaternion.conjugate q := by
  obtain ⟨hx, hy, hz, hr⟩ := inverse_components q
  rw [h, one_mul] at hx hy hz hr
  exact Quaternion.ext4 hx hy hz hr

/-- C35. In exact arithmetic `q.inverse()` is `norm_squared(q) * q.conjugate()`,
the imaginary components and the real part of the conjugate each multiplied by
`norm_squared(q)`; hence `q.inverse() == q.conjugate()` whenever
`norm_squared(q) == 1`. -/
theorem inverse_is_scaled_conjugate {K : Type} [Field K] (q : Quaternion K) :
    (Vector3.get_x (Quaternion.inverse q).imag
        = Quaternion.norm_squared q * Vector3.get_x (Quaternion.conjugate q).imag
      ∧ Vector3.get_y (Quaternion.inverse q).imag
        = Quaternion.norm_squared q * Vector3.get_y (Quaternion.conjugate q).imag
      ∧ Vector3.get_z (Quaternion.inverse q).imag
        = Quaternion.norm_squared q * Vector3.get_z (Quaternion.conjugate q).imag
      ∧ (Quaternion.inverse q).real
        = Quaternion.norm_squared q * (Quaternion.conjugate q).real)
    ∧ (Quaternion.norm_squared q = 1 → Quaternion.inverse q = Quaternion.conjugate q) :=
  ⟨inverse_components q, inverse_eq_conjugate_of_unit q⟩

/-- C35 at a concrete input: `Quaternion(0, 0, 0, 1)` has squared norm `1`, and
its `inverse()` is its conjugate. -/
theorem inverse_is_scaled_conjugate_witness :
    Quaternion.norm_squared (Quaternion.of_floats (0 : ℚ) 0 0 1) = 1
    ∧ Quaternion.inverse (Quaternion.of_floats (0 : ℚ) 0 0 1)
        = Quaternion.conjugate (Quaternion.of_floats 0 0 0 1) := by
  have h1 : Quaternion.norm_squared (Quaternion.of_floats (0 : ℚ) 0 0 1) = 1 := by
    simp [Quaternion.norm_squared, Quaternion.of_floats, Vector3.dot_eq]
  exact ⟨h1, (inverse_is_scaled_conjugate _).2 h1⟩

/-! ## Checked access past the end of a row -/

/-- C36. `Matrix::at(row, col)` checks the flat offset only: in an `R×C` matrix
with `R >= 2` (whose `R * C` elements are counted by a `std::size_t`), for
`row < R - 1` and `C <= col < 2 * C` the call returns, and what it returns is
the element at `(row + 1, col - C)`. -/
theorem matrix_at_wraps_to_next_row {T : Type} {R C : Nat} (m : Matrix T R C) (row col : Nat)
    (hfit : R * C < size_t_range) (hR : 2 ≤ R) (hrow : row < R - 1) (hlo : C ≤ col)
    (hhi : col < 2 * C) :
    ∃ h : (row + 1) * C + (col - C) < R * C,
      Matrix.at2 m row col = .ok (Matrix.get2 m (row + 1) (col - C) h) := by
  have hoffset : (row + 1) * C + (col - C) = row * C + col := by
    rw [Nat.succ_mul, Nat.add_assoc, Nat.add_sub_cancel' hlo]
  have hin : (row + 1) * C + (col - C) < R * C :=
    Matrix.offset_lt (by omega) (by omega)
  refine ⟨hin, ?_⟩
  have hlt : row * C + col < R * C := hoffset ▸ hin
  have hmod : Matrix.offset C row col = row * C + col :=
    Nat.mod_eq_of_lt (Nat.lt_trans hlt hfit)
  have hsize : Tensor.size m = R * C := rfl
  have hn : ¬ R * C ≤ row * C + col := Nat.not_le.mpr hlt
  simp [Matrix.at2, hsize, hmod, hn, Matrix.get2, hoffset]

/-- C36 at a concrete input: in the 2×3 matrix `((1, 2, 3), (4, 5, 6))`,
`at(0, 4)` returns `5`, the element at `(1, 1)`. -/
theorem matrix_at_wraps_to_next_row_witness :
    ∃ h : (0 + 1) * 3 + (4 - 3) < 2 * 3,
      Matrix.at2 (Tensor.of_array ![1, 2, 3, 4, 5, 6] : Matrix ℤ 2 3) 0 4
        = .ok (Matrix.get2 (Tensor.of_array ![1, 2, 3, 4, 5, 6] : Matrix ℤ 2 3)
            (0 + 1) (4 - 3) h) :=
  matrix_at_wraps_to_next_row (Tensor.of_array ![1, 2, 3, 4, 5, 6] : Matrix ℤ 2 3) 0 4
    (by norm_num [size_t_range]) (by decide) (by decide) (by decide) (by decide)

/-! ## Associativity of the Hamilton product -/

/-- C37. In exact arithmetic the Hamilton product is associative:
`(p * q) * r == p * (q * r)`; in particular `q * p * q⁻¹`, evaluated left to
right as in `rotate`, equals `q * (p * q⁻¹)`. -/
theorem mul_assoc_hamilton {K : Type} [Field K] (p q r : Quaternion K) :
    Quaternion.mul (Quaternion.mul p q) r = Quaternion.mul p (Quaternion.mul q r)
    ∧ Quaternion.mul (Quaternion.mul q p) (Quaternion.inverse q)
        = Quaternion.mul q (Quaternion.mul p (Quaternion.inverse q)) := by
  have hassoc : ∀ a b c : Quaternion K,
      Quaternion.mul (Quaternion.mul a b) c = Quaternion.mul a (Quaternion.mul b c) := by
    intro a b c
    apply Quaternion.ext4 <;>
      simp only [Quaternion.mul, Quaternion.mul_assign, Vector3.dot_eq, Vector3.get_x_add,
        Vector3.get_y_add, Vector3.get_z_add, Vector3.get_x_mul_scalar,
        Vector3.get_y_mul_scalar, Vector3.get_z_mul_scalar, Vector3.get_x_scalar_mul,
        Vector3.get_y_scalar_mul, Vector3.get_z_scalar_mul, Vector3.get_x_cross,
        Vector3.get_y_cross, Vector3.get_z_cross] <;>
      ring
  exact ⟨hassoc p q r, hassoc q p _⟩

/-! ## `is_unit()` on the zero quaternion -/

/-- C39. `is_unit()` is not total: on a quaternion whose norm is zero it fails
with the error raised by `normalize()`, "Cannot normalize zero quaternion", and
on every quaternion of nonzero norm it returns a boolean. -/
theorem is_unit_throws_iff_norm_zero {K : Type} [Field K] [DecidableEq K] (m : CMath K)
    (q : Quaternion K) :
    (Quaternion.norm m q = 0 →
        Quaternion.is_unit m q = .error "Cannot normalize zero quaternion"
        ∧ Quaternion.normalize m q = .threw "Cannot normalize zero quaternion" q)
    ∧ (Quaternion.norm m q ≠ 0 → ∃ b, Quaternion.is_unit m q = .ok b) := by
  constructor
  · intro h
    simp [Quaternion.is_unit, Quaternion.normalized, Quaternion.normalize, Outcome.toExcept, h]
  · intro h
    simp [Quaternion.is_unit, Quaternion.normalized, Quaternion.normalize, Outcome.toExcept, h]

/-- C39 at a concrete input: over the reals `Quaternion(0, 0, 0, 0)` has norm
zero and `is_unit()` fails on it. -/
theorem is_unit_throws_iff_norm_zero_witness :
    Quaternion.norm ⟨Real.sqrt, Real.cos, Real.sin, Real.pi⟩
        (Quaternion.of_floats (0 : ℝ) 0 0 0) = 0
    ∧ Quaternion.is_unit ⟨Real.sqrt, Real.cos, Real.sin, Real.pi⟩
        (Quaternion.of_floats (0 : ℝ) 0 0 0) = .error "Cannot normalize zero quaternion" := by
  have h0 : Quaternion.norm ⟨Real.sqrt, Real.cos, Real.sin, Real.pi⟩
      (Quaternion.of_floats (0 : ℝ) 0 0 0) = 0 := by
    simp [Quaternion.norm, Quaternion.of_floats, Vector3.dot_eq]
  exact ⟨h0, ((is_unit_throws_iff_norm_zero _ _).1 h0).1⟩

/-! ## In-place product of the square specializations -/

/-- What holds of C40: for `Matrix3`, `A *= B` leaves `A` equal to the product
`A * B` of the generic `operator*`. -/
theorem matrix3_mul_assign_eq_mul {T : Type} [Zero T] [Add T] [Mul T] (a b : Matrix3 T) :
    Matrix3.mul_assign a b = Matrix.mul a b := rfl

/-- C40, evaluated on the code. For `A = B = Matrix4<int>(1)`, the matrices of
ones, `A *= B` leaves `3` at `(0, 0)` and `0` at `(0, 3)` and at `(3, 3)`, where
the product `A * B` of the generic `operator*` has `4` everywhere: the loops of
`Matrix4::operator*=` stop at `3`. -/
theorem matrix4_mul_assign_evaluated :
    Matrix.get2 (Matrix4.mul_assign (Tensor.fill 1 : Matrix4 ℤ) (Tensor.fill 1)) 0 0
        (by decide) = 3
    ∧ Matrix.get2 (Matrix4.mul_assign (Tensor.fill 1 : Matrix4 ℤ) (Tensor.fill 1)) 0 3
        (by decide) = 0
    ∧ Matrix.get2 (Matrix4.mul_assign (Tensor.fill 1 : Matrix4 ℤ) (Tensor.fill 1)) 3 3
        (by decide) = 0
    ∧ Matrix.get2 (Matrix.mul (Tensor.fill 1 : Matrix4 ℤ) (Tensor.fill 1 : Matrix4 ℤ)) 0 0
        (by decide) = 4
    ∧ Matrix.get2 (Matrix.mul (Tensor.fill 1 : Matrix4 ℤ) (Tensor.fill 1 : Matrix4 ℤ)) 3 3
        (by decide) = 4
    ∧ Matrix4.mul_assign (Tensor.fill 1 : Matrix4 ℤ) (Tensor.fill 1)
        ≠ Matrix.mul (Tensor.fill 1 : Matrix4 ℤ) (Tensor.fill 1 : Matrix4 ℤ) := by
  have h00 : Matrix.get2 (Matrix4.mul_assign (Tensor.fill 1 : Matrix4 ℤ) (Tensor.fill 1)) 0 0
      (by decide) = 3 := by decide
  have g00 : Matrix.get2 (Matrix.mul (Tensor.fill 1 : Matrix4 ℤ) (Tensor.fill 1 : Matrix4 ℤ))
      0 0 (by decide) = 4 :=
    (Matrix.mul_elems (Tensor.fill 1 : Matrix4 ℤ) (Tensor.fill 1 : Matrix4 ℤ) 0 0).trans
      (by decide)
  have g33 : Matrix.get2 (Matrix.mul (Tensor.fill 1 : Matrix4 ℤ) (Tensor.fill 1 : Matrix4 ℤ))
      3 3 (by decide) = 4 :=
    (Matrix.mul_elems (Tensor.fill 1 : Matrix4 ℤ) (Tensor.fill 1 : Matrix4 ℤ) 3 3).trans
      (by decide)
  refine ⟨h00, by decide, by decide, g00, g33, ?_⟩
  intro h
  rw [h, g00] at h00
  exact absurd h00 (by decide)

/-! ## Rotation preserves length -/

/-- The squared norm of a Hamilton product is the product of the squared
norms. -/
theorem norm_squared_mul {K : Type} [Field K] (a b : Quaternion K) :
    Quaternion.norm_squared (Quaternion.mul a b)
      = Quaternion.norm_squared a * Quaternion.norm_squared b := by
  simp only [Quaternion.norm_squared, Quaternion.mul, Quaternion.mul_assign, Vector3.dot_eq,
    Vector3.get_x_add, Vector3.get_y_add, Vector3.get_z_add, Vector3.get_x_mul_scalar,
    Vector3.get_y_mul_scalar, Vector3.get_z_mul_scalar, Vector3.get_x_scalar_mul,
    Vector3.get_y_scalar_mul, Vector3.get_z_scalar_mul, Vector3.get_x_cross,
    Vector3.get_y_cross, Vector3.get_z_cross]
  ring

/-- A quaternion and its conjugate have the same squared norm. -/
theorem norm_squared_conjugate {K : Type} [Field K] (q : Quaternion K) :
    Quaternion.norm_squared (Quaternion.conjugate q) = Quaternion.norm_squared q := by
  simp only [Quaternion.norm_squared, Quaternion.conjugate, Vector3.dot_eq, Vector3.get_x_neg,
    Vector3.get_y_neg, Vector3.get_z_neg]
  ring

/-- The real part of `q * p * conjugate(q)` is the real part of `p` times the
squared norm of `q`. -/
theorem sandwich_real {K : Type} [Field K] (q p : Quaternion K) :
    (Quaternion.mul (Quaternion.mul q p) (Quaternion.conjugate q)).real
      = p.real * Quaternion.norm_squared q := by
  simp only [Quaternion.norm_squared, Quaternion.mul, Quaternion.mul_assign,
    Quaternion.conjugate, Vector3.dot_eq, Vector3.get_x_add, Vector3.get_y_add,
    Vector3.get_z_add, Vector3.get_x_mul_scalar, Vector3.get_y_mul_scalar,
    Vector3.get_z_mul_scalar, Vector3.get_x_scalar_mul, Vector3.get_y_scalar_mul,
    Vector3.get_z_scalar_mul, Vector3.get_x_cross, Vector3.get_y_cross, Vector3.get_z_cross,
    Vector3.get_x_neg, Vector3.get_y_neg, Vector3.get_z_neg]
  ring

/-- The squared magnitude of the imaginary part is the squared norm less the
square of the real part. -/
theorem magnitude_squared_imag {K : Type} [Field K] (q : Quaternion K) :
    Vector.magnitude_squared q.imag = Quaternion.norm_squared q - q.real * q.real := by
  rw [Quaternion.norm_squared, Vector3.dot_eq, Vector3.magnitude_squared_eq]
  ring

/-- Over the reals, `to_unit_norm()` of a quaternion with nonzero imaginary part
has squared norm `1`. -/
theorem to_unit_norm_norm_squared (q : Quaternion ℝ) (h : q.imag ≠ Vector3.zero) :
    Quaternion.norm_squared
      (Quaternion.to_unit_norm ⟨Real.sqrt, Real.cos, Real.sin, Real.pi⟩ q) = 1 := by
  have hpos := magnitude_squared_pos_of_ne_zero q.imag h
  have hms := Vector3.magnitude_squared_eq q.imag
  have hn : Real.sqrt (Vector.magnitude_squared q.imag)
      * Real.sqrt (Vector.magnitude_squared q.imag) = Vector.magnitude_squared q.imag :=
    Real.mul_self_sqrt (le_of_lt hpos)
  have hn0 : Real.sqrt (Vector.magnitude_squared q.imag) ≠ 0 :=
    (Real.sqrt_pos.mpr hpos).ne'
  have hinv : 1 / Real.sqrt (Vector.magnitude_squared q.imag)
      * (1 / Real.sqrt (Vector.magnitude_squared q.imag))
      * Vector.magnitude_squared q.imag = 1 := by
    rw [← hn]
    field_simp
  have hsplit : ∀ n s c x y z : ℝ,
      0 + x * (1 / n) * s * (x * (1 / n) * s) + y * (1 / n) * s * (y * (1 / n) * s)
          + z * (1 / n) * s * (z * (1 / n) * s) + c * c
        = s ^ 2 * (1 / n * (1 / n) * (0 + x * x + y * y + z * z)) + c ^ 2 := by
    intro n s c x y z
    ring
  simp only [Quaternion.norm_squared, Quaternion.to_unit_norm, Vector3.normalize,
    Outcome.state, Vector3.dot_eq, Vector3.get_x_mul_assign_scalar,
    Vector3.get_y_mul_assign_scalar, Vector3.get_z_mul_assign_scalar, Vector.norm,
    Vector.magnitude]
  rw [hsplit, ← hms, hinv, mul_one]
  exact Real.sin_sq_add_cos_sq _

/-- Over the reals, a `Vector3` of nonzero magnitude scaled by the inverse of its
norm is not the zero vector. -/
theorem normalized_axis_ne_zero (axis : Vector3 ℝ)
    (h : Vector.magnitude ⟨Real.sqrt, Real.cos, Real.sin, Real.pi⟩ axis ≠ 0) :
    Vector3.mul_assign_scalar axis
        (1 / Vector.norm ⟨Real.sqrt, Real.cos, Real.sin, Real.pi⟩ axis) ≠ Vector3.zero := by
  intro hz
  have hinv : (1 : ℝ) / Vector.norm ⟨Real.sqrt, Real.cos, Real.sin, Real.pi⟩ axis ≠ 0 :=
    one_div_ne_zero h
  have hx := congrArg Vector3.get_x hz
  have hy := congrArg Vector3.get_y hz
  have hzz := congrArg Vector3.get_z hz
  rw [Vector3.get_x_mul_assign_scalar, Vector3.get_x_zero] at hx
  rw [Vector3.get_y_mul_assign_scalar, Vector3.get_y_zero] at hy
  rw [Vector3.get_z_mul_assign_scalar, Vector3.get_z_zero] at hzz
  have hx0 : Vector3.get_x axis = 0 := (mul_eq_zero.mp hx).resolve_right hinv
  have hy0 : Vector3.get_y axis = 0 := (mul_eq_zero.mp hy).resolve_right hinv
  have hz0 : Vector3.get_z axis = 0 := (mul_eq_zero.mp hzz).resolve_right hinv
  apply h
  show Real.sqrt (Vector.magnitude_squared axis) = 0
  rw [Vector3.magnitude_squared_eq, hx0, hy0, hz0]
  simp

/-- C38. Over the reals, `Quaternion::rotate` preserves length: for every vector
`v`, every angle and every axis of nonzero magnitude, `rotate(v, angle, axis)`
returns a vector whose `magnitude_squared` is that of `v`. -/
theorem rotate_preserves_magnitude_squared (v : Vector3 ℝ) (angle : Angle ℝ)
    (axis : Vector3 ℝ)
    (h : Vector.magnitude ⟨Real.sqrt, Real.cos, Real.sin, Real.pi⟩ axis ≠ 0) :
    ∃ r, Quaternion.rotate ⟨Real.sqrt, Real.cos, Real.sin, Real.pi⟩ v angle axis = .ok r
      ∧ Vector.magnitude_squared r = Vector.magnitude_squared v := by
  refine ⟨_, rfl, ?_⟩
  have hunit := to_unit_norm_norm_squared
    (Quaternion.of_vector_angle ⟨Real.sqrt, Real.cos, Real.sin, Real.pi⟩
      (Vector3.mul_assign_scalar axis
        (1 / Vector.norm ⟨Real.sqrt, Real.cos, Real.sin, Real.pi⟩ axis)) angle)
    (normalized_axis_ne_zero axis h)
  rw [inverse_eq_conjugate_of_unit _ hunit, magnitude_squared_imag, sandwich_real,
    norm_squared_mul, norm_squared_mul, norm_squared_conjugate, hunit]
  simp only [Quaternion.of_vector, Quaternion.norm_squared, Vector3.dot_eq,
    Vector3.magnitude_squared_eq]
  ring

/-- C38 at a concrete input: rotating `(0, 1, 0)` by 90° about the axis
`(0, 0, 2)`, of magnitude `2`, gives a vector of squared magnitude `1`. -/
theorem rotate_preserves_magnitude_squared_witness :
    Vector.magnitude ⟨Real.sqrt, Real.cos, Real.sin, Real.pi⟩ (Vector3.mk (0 : ℝ) 0 2) ≠ 0
    ∧ ∃ r, Quaternion.rotate ⟨Real.sqrt, Real.cos, Real.sin, Real.pi⟩ (Vector3.mk 0 1 0)
          (Angle.from_Degrees ⟨Real.sqrt, Real.cos, Real.sin, Real.pi⟩ 90) (Vector3.mk 0 0 2)
          = .ok r
        ∧ Vector.magnitude_squared r = Vector.magnitude_squared (Vector3.mk (0 : ℝ) 1 0) := by
  have hne : Vector.magnitude ⟨Real.sqrt, Real.cos, Real.sin, Real.pi⟩
      (Vector3.mk (0 : ℝ) 0 2) ≠ 0 := by
    show Real.sqrt (Vector.magnitude_squared (Vector3.mk (0 : ℝ) 0 2)) ≠ 0
    rw [Vector3.magnitude_squared_eq]
    simp
  exact ⟨hne, rotate_preserves_magnitude_squared _ _ _ hne⟩

end Lingebra
